import Mathlib

/-!
# Idefix: the Roe interface flux solver (`src/HD/solver_roe.cpp`)

A shallow embedding of the kernel `Tvdlf` of `src/HD/solver_roe.cpp` (the Roe solver; the
source keeps the name `Tvdlf`).  Arithmetic is carried out in an arbitrary linearly ordered
field `F` with the square root passed in explicitly, so every definition is executable; the
theorems are stated over the reals with `Real.sqrt`.

Arrays are total functions on `Nat`.  The stack arrays of the kernel are not initialised by the
source, so their contents before the first assignment are an explicit argument (`Scratch`) and
every theorem is stated for an arbitrary scratch content.
-/

namespace Idefix

/-! ## Build-time configuration -/

/-- The two values of the build switch `EOS` tested by the kernel. -/
inductive EqOfState where
  | IDEAL
  | ISOTHERMAL
  deriving DecidableEq, Repr

/-- Build-time switches read by the kernel through the preprocessor, together with the two
index names `VXb` and `MXb`, which the kernel uses without declaring them. -/
structure Config where
  /-- Number of velocity components, `COMPONENTS`. -/
  COMPONENTS : Nat
  /-- Number of spatial dimensions, `DIMENSIONS`. -/
  DIMENSIONS : Nat
  /-- Value of the switch `EOS`. -/
  EOS : EqOfState
  /-- Whether `ROE_AVERAGE == YES`. -/
  ROE_AVERAGE : Bool
  /-- Index `VXb`, used inside `EXPAND` but declared outside the kernel. -/
  VXb : Nat
  /-- Index `MXb`, used inside `EXPAND` but declared outside the kernel. -/
  MXb : Nat
  deriving DecidableEq, Repr

/-- Modelled from the spec: the header `idefix.hpp`, which defines the variable layout, is not
among the sources.  Density comes first. -/
def RHO : Nat := 0
/-- Modelled from the spec: first velocity slot (layout of the missing header `idefix.hpp`). -/
def VX1 : Nat := 1
/-- Modelled from the spec: second velocity slot (layout of the missing header `idefix.hpp`). -/
def VX2 : Nat := 2
/-- Modelled from the spec: third velocity slot (layout of the missing header `idefix.hpp`). -/
def VX3 : Nat := 3
/-- Modelled from the spec: momentum slots coincide with the velocity slots (missing header). -/
def MX1 : Nat := VX1
/-- Modelled from the spec: momentum slots coincide with the velocity slots (missing header). -/
def MX2 : Nat := VX2
/-- Modelled from the spec: momentum slots coincide with the velocity slots (missing header). -/
def MX3 : Nat := VX3
/-- Modelled from the spec: pressure follows the velocity components (missing header). -/
def PRS (cfg : Config) : Nat := cfg.COMPONENTS + 1
/-- Modelled from the spec: the total energy occupies the pressure slot (missing header). -/
def ENG (cfg : Config) : Nat := PRS cfg
/-- Modelled from the spec: `NVAR` is density, the velocity components and, for the
energy-carrying equation of state, the pressure (missing header). -/
def NVAR (cfg : Config) : Nat :=
  match cfg.EOS with
  | EqOfState.IDEAL => cfg.COMPONENTS + 2
  | EqOfState.ISOTHERMAL => cfg.COMPONENTS + 1
/-- Modelled from the spec: the three sweep directions are numbered from zero (missing header). -/
def IDIR : Nat := 0
/-- Modelled from the spec: the three sweep directions are numbered from zero (missing header). -/
def JDIR : Nat := 1
/-- Modelled from the spec: the three sweep directions are numbered from zero (missing header). -/
def KDIR : Nat := 2

/-- A configuration the build accepts: one to three velocity components, at least as many
components as dimensions, at least one dimension. -/
def Config.Valid (cfg : Config) : Prop :=
  1 ≤ cfg.DIMENSIONS ∧ cfg.DIMENSIONS ≤ cfg.COMPONENTS ∧ cfg.COMPONENTS ≤ 3

instance (cfg : Config) : Decidable cfg.Valid := by
  unfold Config.Valid; exact inferInstance

/-! ## Loops and array updates -/

/-- A counted loop `for (t = 0; t < n; t++) s = body t s`. -/
def forLoop {σ : Type} (body : Nat → σ → σ) : Nat → σ → σ
  | 0, s => s
  | n + 1, s => body n (forLoop body n s)

/-- A loop over the half-open range `[lo, hi)`. -/
def forRange {σ : Type} (lo hi : Nat) (body : Nat → σ → σ) (s : σ) : σ :=
  forLoop (fun t => body (lo + t)) (hi - lo) s

section Arrays
variable {F : Type}

/-- Assignment `arr[i] = v`. -/
def set1 (arr : Nat → F) (i : Nat) (v : F) : Nat → F :=
  fun a => if a = i then v else arr a

/-- Assignment `m[i][j] = v`. -/
def set2 (m : Nat → Nat → F) (i j : Nat) (v : F) : Nat → Nat → F :=
  fun a b => if a = i ∧ b = j then v else m a b

/-- Assignment `A(k,j,i) = v`. -/
def set3 (A : Nat → Nat → Nat → F) (k j i : Nat) (v : F) : Nat → Nat → Nat → F :=
  fun a b c => if a = k ∧ b = j ∧ c = i then v else A a b c

/-- Assignment `A(nv,k,j,i) = v`. -/
def set4 (A : Nat → Nat → Nat → Nat → F) (nv k j i : Nat) (v : F) :
    Nat → Nat → Nat → Nat → F :=
  fun n a b c => if n = nv ∧ a = k ∧ b = j ∧ c = i then v else A n a b c

end Arrays

/-- The macro `EXPAND(a, b, c)` on statements: the first `COMPONENTS` of the three. -/
def EXPAND {σ : Type} (cfg : Config) (a b c : σ → σ) (s : σ) : σ :=
  match cfg.COMPONENTS with
  | 1 => a s
  | 2 => b (a s)
  | _ => c (b (a s))

section Kernel
variable {F : Type} [LinearOrderedField F]

/-- The macro `EXPAND(a, + b, + c)` on a sum. -/
def EXPANDsum (cfg : Config) (a b c : F) : F :=
  match cfg.COMPONENTS with
  | 1 => a
  | 2 => a + b
  | _ => a + b + c

/-- Contents of the kernel's stack variables before their first assignment, and the two names
(`vRL`, `g_gamma`) which the arithmetic-average branch reads without declaring them. -/
structure Scratch (F : Type) where
  vL : Nat → F
  vR : Nat → F
  dv : Nat → F
  uL : Nat → F
  uR : Nat → F
  fluxL : Nat → F
  fluxR : Nat → F
  Rc : Nat → Nat → F
  um : Nat → F
  vel2 : F
  h : F
  lambda : Nat → F
  alambda : Nat → F
  eta : Nat → F
  vRL : Nat → F
  g_gamma : F

/-- The arrays the kernel borrows from `DataBlock` (`src/dataBlock.hpp`): reconstructed states,
flux, cell widths of the three directions, the accumulator and the index bounds. -/
structure DataBlock (F : Type) where
  PrimL : Nat → Nat → Nat → Nat → F
  PrimR : Nat → Nat → Nat → Nat → F
  FluxRiemann : Nat → Nat → Nat → Nat → F
  dx : Nat → Nat → F
  InvDtHyp : Nat → Nat → Nat → F
  beg : Nat → Nat
  end_ : Nat → Nat

/-- Modelled from the spec: `K_PrimToCons` is declared in the missing `solvers.hpp`.
Momentum is density times velocity; the total energy (energy-carrying case only) is
`pressure/(γ−1) + ½·density·|v|²`.  Slots it does not write keep the content `U`. -/
def K_PrimToCons (cfg : Config) (U V : Nat → F) (gamma_m1 : F) : Nat → F :=
  let U := set1 U RHO (V RHO)
  let U := EXPAND cfg (fun U => set1 U MX1 (V RHO * V VX1)) (fun U => set1 U MX2 (V RHO * V VX2))
    (fun U => set1 U MX3 (V RHO * V VX3)) U
  match cfg.EOS with
  | EqOfState.IDEAL =>
    set1 U (ENG cfg) (V (PRS cfg) / gamma_m1
      + 1 / 2 * V RHO * EXPANDsum cfg (V VX1 * V VX1) (V VX2 * V VX2) (V VX3 * V VX3))
  | EqOfState.ISOTHERMAL => U

/-- Modelled from the spec: `K_Flux` is declared in the missing `solvers.hpp`.  Density flux is
the swept momentum; each momentum flux is the swept velocity times that momentum, plus the
pressure (or `C²·density`, barotropic) in the swept direction; the energy flux (if present) is
`(total energy + pressure)·velocity_n`.  Slots it does not write keep the content `Fl`. -/
def K_Flux (cfg : Config) (Fl V U : Nat → F) (Cs2Iso : F) (dir : Nat) : Nat → F :=
  let VXn := VX1 + dir
  let MXn := VXn
  let Fl := set1 Fl RHO (U MXn)
  let Fl := EXPAND cfg (fun Fl => set1 Fl MX1 (U MX1 * V VXn))
    (fun Fl => set1 Fl MX2 (U MX2 * V VXn)) (fun Fl => set1 Fl MX3 (U MX3 * V VXn)) Fl
  match cfg.EOS with
  | EqOfState.IDEAL =>
    let Fl := set1 Fl MXn (Fl MXn + V (PRS cfg))
    set1 Fl (ENG cfg) ((U (ENG cfg) + V (PRS cfg)) * V VXn)
  | EqOfState.ISOTHERMAL => set1 Fl MXn (Fl MXn + Cs2Iso * V RHO)

/-- The averaged state and the scalars derived from it (`um`, `vel2`, `h`, `a2`, `a`). -/
structure Average (F : Type) where
  um : Nat → F
  vel2 : F
  h : F
  a2 : F
  a : F

/-- Lines 73-126 of `solver_roe.cpp`: the averaged state.  With `ROE_AVERAGE == YES` the
mass-weighted average; otherwise the copy of the undeclared array `vRL`.  The isothermal
build assigns `a2` and `a` in lines 123-126 and never assigns `vel2` and `h`. -/
def average (cfg : Config) (sqrt : F → F) (sc : Scratch F) (gamma : F) (vL vR : Nat → F) :
    Average F :=
  let gamma_m1 := gamma - 1
  let gmm1_inv := 1 / gamma_m1
  let a2L := gamma * vL (PRS cfg) / vL RHO
  let a2R := gamma * vR (PRS cfg) / vR RHO
  if cfg.ROE_AVERAGE then
    let s := sqrt (vR RHO / vL RHO)
    let um := set1 sc.um RHO (vL RHO * s)
    let s := 1 / (1 + s)
    let c := 1 - s
    let um := EXPAND cfg (fun um => set1 um VX1 (s * vL VX1 + c * vR VX1))
      (fun um => set1 um VX2 (s * vL VX2 + c * vR VX2))
      (fun um => set1 um VX3 (s * vL VX3 + c * vR VX3)) um
    match cfg.EOS with
    | EqOfState.IDEAL =>
      let vel2 := EXPANDsum cfg (um VX1 * um VX1) (um VX2 * um VX2) (um VX3 * um VX3)
      let hl := 1 / 2 * EXPANDsum cfg (vL VX1 * vL VX1) (vL VX2 * vL VX2) (vL VX3 * vL VX3)
      let hl := hl + a2L * gmm1_inv
      let hr := 1 / 2 * EXPANDsum cfg (vR VX1 * vR VX1) (vR VX2 * vR VX2) (vR VX3 * vR VX3)
      let hr := hr + a2R * gmm1_inv
      let h := s * hl + c * hr
      let a2 := gamma_m1 * (h - 1 / 2 * vel2)
      let a := sqrt a2
      ⟨um, vel2, h, a2, a⟩
    | EqOfState.ISOTHERMAL =>
      let a2 := 1 / 2 * (a2L + a2R)
      let a := sqrt a2
      ⟨um, sc.vel2, sc.h, a2, a⟩
  else
    let um := forLoop (fun nv um => set1 um nv (sc.vRL nv)) (NVAR cfg) sc.um
    match cfg.EOS with
    | EqOfState.IDEAL =>
      let a2 := sc.g_gamma * um (PRS cfg) / um RHO
      let a := sqrt a2
      let vel2 := EXPANDsum cfg (um VX1 * um VX1) (um VX2 * um VX2) (um VX3 * um VX3)
      let h := 1 / 2 * vel2 + a2 / gamma_m1
      ⟨um, vel2, h, a2, a⟩
    | EqOfState.ISOTHERMAL =>
      let a2 := 1 / 2 * (a2L + a2R)
      let a := sqrt a2
      ⟨um, sc.vel2, sc.h, a2, a⟩

/-- The eigenvalues, wave strengths and right eigenvectors, with the running slot `nn`. -/
structure Eigen (F : Type) where
  lambda : Nat → F
  eta : Nat → F
  Rc : Nat → Nat → F
  nn : Nat

/-- Lines 138-142: the double loop clearing `Rc`. -/
def clearRc (cfg : Config) (Rc : Nat → Nat → F) : Nat → Nat → F :=
  forLoop (fun nv1 Rc => forLoop (fun nv2 Rc => set2 Rc nv1 nv2 0) (NVAR cfg) Rc) (NVAR cfg) Rc

/-- Lines 144-160: the wave `u - c_s`, slot 0. -/
def acousticMinus (cfg : Config) (dir : Nat) (av : Average F) (dv : Nat → F) (e : Eigen F) :
    Eigen F :=
  let VXn := VX1 + dir
  let MXn := VXn
  let VXt := VX2
  let MXt := VX2
  let um := av.um
  let a := av.a
  let nn := 0
  let lambda := set1 e.lambda nn (um VXn - a)
  let eta := match cfg.EOS with
    | EqOfState.IDEAL => set1 e.eta nn (1 / 2 / av.a2 * (dv (PRS cfg) - dv VXn * um RHO * a))
    | EqOfState.ISOTHERMAL => set1 e.eta nn (1 / 2 * (dv RHO - um RHO * dv VXn / a))
  let Rc := set2 e.Rc RHO nn 1
  let Rc := EXPAND cfg (fun Rc => set2 Rc MXn nn (um VXn - a))
    (fun Rc => set2 Rc MXt nn (um VXt)) (fun Rc => set2 Rc cfg.MXb nn (um cfg.VXb)) Rc
  let Rc := match cfg.EOS with
    | EqOfState.IDEAL => set2 Rc (ENG cfg) nn (av.h - um VXn * a)
    | EqOfState.ISOTHERMAL => Rc
  ⟨lambda, eta, Rc, nn⟩

/-- Lines 162-178: the wave `u + c_s`, slot 1. -/
def acousticPlus (cfg : Config) (dir : Nat) (av : Average F) (dv : Nat → F) (e : Eigen F) :
    Eigen F :=
  let VXn := VX1 + dir
  let MXn := VXn
  let VXt := VX2
  let MXt := VX2
  let um := av.um
  let a := av.a
  let nn := 1
  let lambda := set1 e.lambda nn (um VXn + a)
  let eta := match cfg.EOS with
    | EqOfState.IDEAL => set1 e.eta nn (1 / 2 / av.a2 * (dv (PRS cfg) + dv VXn * um RHO * a))
    | EqOfState.ISOTHERMAL => set1 e.eta nn (1 / 2 * (dv RHO + um RHO * dv VXn / a))
  let Rc := set2 e.Rc RHO nn 1
  let Rc := EXPAND cfg (fun Rc => set2 Rc MXn nn (um VXn + a))
    (fun Rc => set2 Rc MXt nn (um VXt)) (fun Rc => set2 Rc cfg.MXb nn (um cfg.VXb)) Rc
  let Rc := match cfg.EOS with
    | EqOfState.IDEAL => set2 Rc (ENG cfg) nn (av.h + um VXn * a)
    | EqOfState.ISOTHERMAL => Rc
  ⟨lambda, eta, Rc, nn⟩

/-- Lines 180-191: the entropy wave, present for the ideal gas only. -/
def entropyWave (cfg : Config) (dir : Nat) (av : Average F) (dv : Nat → F) (e : Eigen F) :
    Eigen F :=
  match cfg.EOS with
  | EqOfState.IDEAL =>
    let VXn := VX1 + dir
    let um := av.um
    let nn := 2
    let lambda := set1 e.lambda nn (um VXn)
    let eta := set1 e.eta nn (dv RHO - dv (PRS cfg) / av.a2)
    let Rc := set2 e.Rc RHO nn 1
    let Rc := EXPAND cfg (fun Rc => set2 Rc MX1 nn (um VX1)) (fun Rc => set2 Rc MX2 nn (um VX2))
      (fun Rc => set2 Rc MX3 nn (um VX3)) Rc
    let Rc := set2 Rc (ENG cfg) nn (1 / 2 * av.vel2)
    ⟨lambda, eta, Rc, nn⟩
  | EqOfState.ISOTHERMAL => e

/-- Lines 193-204 and 206-217: one shear wave; the source has this block twice, once for the
slots `VXt`, `MXt` and once for `VXb`, `MXb`. -/
def shearWave (cfg : Config) (dir : Nat) (av : Average F) (dv : Nat → F) (VXs MXs : Nat)
    (e : Eigen F) : Eigen F :=
  let VXn := VX1 + dir
  let um := av.um
  let nn := e.nn + 1
  let lambda := set1 e.lambda nn (um VXn)
  let eta := set1 e.eta nn (um RHO * dv VXs)
  let Rc := set2 e.Rc MXs nn 1
  let Rc := match cfg.EOS with
    | EqOfState.IDEAL => set2 Rc (ENG cfg) nn (um VXs)
    | EqOfState.ISOTHERMAL => Rc
  ⟨lambda, eta, Rc, nn⟩

/-- Lines 134-217: the whole eigensystem, in the order of the source.  `VXt = MXt = VX2`
whatever the sweep direction (line 30). -/
def eigen (cfg : Config) (sc : Scratch F) (dir : Nat) (av : Average F) (dv : Nat → F) :
    Eigen F :=
  let VXt := VX2
  let MXt := VX2
  let e : Eigen F := ⟨sc.lambda, sc.eta, clearRc cfg sc.Rc, 0⟩
  let e := acousticMinus cfg dir av dv e
  let e := acousticPlus cfg dir av dv e
  let e := entropyWave cfg dir av dv e
  let e := if cfg.COMPONENTS > 1 then shearWave cfg dir av dv VXt MXt e else e
  let e := if cfg.COMPONENTS > 2 then shearWave cfg dir av dv cfg.VXb cfg.MXb e else e
  e

/-- Lines 231-240: the discontinuity indicator `scrh`. -/
def shockIndicator (cfg : Config) (vL vR : Nat → F) (a : F) : F :=
  match cfg.EOS with
  | EqOfState.IDEAL =>
    let scrh := |vL (PRS cfg) - vR (PRS cfg)|
    scrh / min (vL (PRS cfg)) (vR (PRS cfg))
  | EqOfState.ISOTHERMAL =>
    let scrh := |vL RHO - vR RHO|
    let scrh := scrh / min (vL RHO) (vR RHO)
    scrh * (a * a)

/-- Line 261: the condition of the `if`, `scrh > 0.5 && (vR[VXn] < vL[VXn])`. -/
def shockSwitch (dir : Nat) (scrh : F) (vL vR : Nat → F) : Bool :=
  let VXn := VX1 + dir
  decide (scrh > 1 / 2) && decide (vR VXn < vL VXn)

/-- Lines 263-270: the body of the `#if DIMENSIONS > 1` block, writing the two-wave flux. -/
def hllWrite (cfg : Config) (k j i : Nat) (lambda uL uR fluxL fluxR : Nat → F)
    (Flux : Nat → Nat → Nat → Nat → F) : Nat → Nat → Nat → Nat → F :=
  let bmin := min 0 (lambda 0)
  let bmax := max 0 (lambda 1)
  let scrh1 := 1 / (bmax - bmin)
  forLoop (fun nv Flux =>
    let Flux := set4 Flux nv k j i (bmin * bmax * (uR nv - uL nv) + bmax * fluxL nv - bmin * fluxR nv)
    set4 Flux nv k j i (Flux nv k j i * scrh1)) (NVAR cfg) Flux

/-- Lines 279-290: the absolute eigenvalues with the entropy fix on slots 0 and 1. -/
def entropyFix (cfg : Config) (lambda alambda : Nat → F) : Nat → F :=
  let alambda := forLoop (fun nv alambda => set1 alambda nv |lambda nv|) (NVAR cfg) alambda
  let delta : F := 1 / 10000000
  let alambda :=
    if alambda 0 ≤ delta then
      set1 alambda 0 (1 / 2 * lambda 0 * lambda 0 / delta + 1 / 2 * delta)
    else alambda
  let alambda :=
    if alambda 1 ≤ delta then
      set1 alambda 1 (1 / 2 * lambda 1 * lambda 1 / delta + 1 / 2 * delta)
    else alambda
  alambda

/-- Lines 292-298: the loop writing the Roe flux. -/
def roeWrite (cfg : Config) (k j i : Nat) (alambda eta : Nat → F) (Rc : Nat → Nat → F)
    (fluxL fluxR : Nat → F) (Flux : Nat → Nat → Nat → Nat → F) : Nat → Nat → Nat → Nat → F :=
  forLoop (fun nv Flux =>
    let Flux := set4 Flux nv k j i (fluxL nv + fluxR nv)
    let Flux := forLoop (fun nv2 Flux =>
      set4 Flux nv k j i (Flux nv k j i - alambda nv2 * eta nv2 * Rc nv nv2)) (NVAR cfg) Flux
    set4 Flux nv k j i (Flux nv k j i * (1 / 2))) (NVAR cfg) Flux

/-- Everything the kernel computes for one interface before it writes (lines 51-240). -/
structure Local (F : Type) where
  vL : Nat → F
  vR : Nat → F
  dv : Nat → F
  uL : Nat → F
  uR : Nat → F
  fluxL : Nat → F
  fluxR : Nat → F
  av : Average F
  eig : Eigen F
  cmax : F
  scrh : F

/-- Lines 51-56: the loop loading `vL`, `vR` and `dv`. -/
def loadStates (cfg : Config) (sc : Scratch F) (PrimL PrimR : Nat → Nat → Nat → Nat → F)
    (k j i : Nat) : (Nat → F) × (Nat → F) × (Nat → F) :=
  forLoop (fun nv (s : (Nat → F) × (Nat → F) × (Nat → F)) =>
    let vL := set1 s.1 nv (PrimL nv k j i)
    let vR := set1 s.2.1 nv (PrimR nv k j i)
    let dv := set1 s.2.2 nv (vR nv - vL nv)
    (vL, vR, dv)) (NVAR cfg) (sc.vL, sc.vR, sc.dv)

/-- Lines 51-240 of the kernel for the interface `(k,j,i)`. -/
def locals (cfg : Config) (sqrt : F → F) (sc : Scratch F) (dir : Nat) (gamma C2Iso : F)
    (PrimL PrimR : Nat → Nat → Nat → Nat → F) (k j i : Nat) : Local F :=
  let gamma_m1 := gamma - 1
  let VXn := VX1 + dir
  let ld := loadStates cfg sc PrimL PrimR k j i
  let vL := ld.1
  let vR := ld.2.1
  let dv := ld.2.2
  let uL := K_PrimToCons cfg sc.uL vL gamma_m1
  let uR := K_PrimToCons cfg sc.uR vR gamma_m1
  let fluxL := K_Flux cfg sc.fluxL vL uL C2Iso dir
  let fluxR := K_Flux cfg sc.fluxR vR uR C2Iso dir
  let av := average cfg sqrt sc gamma vL vR
  let eig := eigen cfg sc dir av dv
  let cmax := |av.um VXn| + av.a
  let scrh := shockIndicator cfg vL vR av.a
  ⟨vL, vR, dv, uL, uR, fluxL, fluxR, av, eig, cmax, scrh⟩

/-- The body of `ROE_Kernel` (lines 26-306) for the interface `(k,j,i)`: it returns the flux
array and the accumulator after the evaluation.  `ioffset`, `joffset`, `koffset` are set in
lines 9-13. -/
def ROE_Kernel (cfg : Config) (sqrt : F → F) (sc : Scratch F) (dir : Nat) (gamma C2Iso : F)
    (PrimL PrimR : Nat → Nat → Nat → Nat → F) (dx : Nat → F) (k j i : Nat)
    (st : (Nat → Nat → Nat → Nat → F) × (Nat → Nat → Nat → F)) :
    (Nat → Nat → Nat → Nat → F) × (Nat → Nat → Nat → F) :=
  let ioffset := if dir = IDIR then 1 else 0
  let joffset := if dir = JDIR then 1 else 0
  let koffset := if dir = KDIR then 1 else 0
  let Flux := st.1
  let invDt := st.2
  let l := locals cfg sqrt sc dir gamma C2Iso PrimL PrimR k j i
  let Flux :=
    if shockSwitch dir l.scrh l.vL l.vR then
      if cfg.DIMENSIONS > 1 then
        hllWrite cfg k j i l.eig.lambda l.uL l.uR l.fluxL l.fluxR Flux
      else Flux
    else
      let alambda := entropyFix cfg l.eig.lambda sc.alambda
      roeWrite cfg k j i alambda l.eig.eta l.eig.Rc l.fluxL l.fluxR Flux
  let ig := ioffset * i + joffset * j + koffset * k
  let invDt := set3 invDt k j i (invDt k j i + l.cmax / dx ig)
  (Flux, invDt)

/-- The parallel loop `idefix_for` over a box of indices, run in index order. -/
def idefix_for {σ : Type} (kb ke jb je ib ie : Nat) (body : Nat → Nat → Nat → σ → σ) (s : σ) :
    σ :=
  forRange kb ke (fun k s => forRange jb je (fun j s => forRange ib ie (fun i s => body k j i s) s) s) s

/-- The function `Tvdlf` of `solver_roe.cpp` (lines 5-310): one sweep of the Roe solver along
`dir` over the data block. -/
def Tvdlf (cfg : Config) (sqrt : F → F) (sc : Scratch F) (data : DataBlock F) (dir : Nat)
    (gamma C2Iso : F) : DataBlock F :=
  let ioffset := if dir = IDIR then 1 else 0
  let joffset := if dir = JDIR then 1 else 0
  let koffset := if dir = KDIR then 1 else 0
  let r := idefix_for (data.beg KDIR) (data.end_ KDIR + koffset) (data.beg JDIR)
    (data.end_ JDIR + joffset) (data.beg IDIR) (data.end_ IDIR + ioffset)
    (fun k j i st =>
      ROE_Kernel cfg sqrt sc dir gamma C2Iso data.PrimL data.PrimR (data.dx dir) k j i st)
    (data.FluxRiemann, data.InvDtHyp)
  ⟨data.PrimL, data.PrimR, r.1, data.dx, r.2, data.beg, data.end_⟩

/-- The entropy-fixed magnitude in the words of the spec (section 4.5): `½λ²/δ + ½δ` when
`|λ| ≤ δ`, and `|λ|` otherwise, with `δ = 1e-7`. -/
def fixedMagnitude (lam : F) : F :=
  if |lam| ≤ 1 / 10000000 then lam ^ 2 / (2 * (1 / 10000000)) + (1 / 10000000) / 2 else |lam|

/-- The dissipation coefficient `c_k` in the words of the spec (section 4.7): the entropy-fixed
magnitude for the slots 0 and 1, the plain magnitude for every other slot. -/
def dissipation (lambda : Nat → F) (m : Nat) : F :=
  if m < 2 then fixedMagnitude (lambda m) else |lambda m|

/-! ## Concrete inputs used to evaluate the kernel -/

/-- One dimension, one velocity component, ideal gas, Roe average. -/
def cfg1D : Config := ⟨1, 1, EqOfState.IDEAL, true, 0, 0⟩

/-- Two dimensions, two velocity components, ideal gas, Roe average. -/
def cfg2D : Config := ⟨2, 2, EqOfState.IDEAL, true, 0, 0⟩

/-- A scratch content: every uninitialised slot holds `x`. -/
def constScratch (x : F) : Scratch F :=
  ⟨fun _ => x, fun _ => x, fun _ => x, fun _ => x, fun _ => x, fun _ => x, fun _ => x,
    fun _ _ => x, fun _ => x, x, x, fun _ => x, fun _ => x, fun _ => x, fun _ => x, x⟩

/-- The same three-variable state `(rho, v, p)` at every interface. -/
def uniform3 (rho v p : F) : Nat → Nat → Nat → Nat → F :=
  fun nv _ _ _ => if nv = 0 then rho else if nv = 1 then v else p

/-- The same four-variable state `(rho, v1, v2, p)` at every interface. -/
def uniform4 (rho v1 v2 p : F) : Nat → Nat → Nat → Nat → F :=
  fun nv _ _ _ => if nv = 0 then rho else if nv = 1 then v1 else if nv = 2 then v2 else p

/-- One dimension, one velocity component, isothermal, Roe average. -/
def cfgIso1D : Config := ⟨1, 1, EqOfState.ISOTHERMAL, true, 0, 0⟩

/-- One dimension, one velocity component, ideal gas, `ROE_AVERAGE` not `YES`. -/
def cfgArith1D : Config := ⟨1, 1, EqOfState.IDEAL, false, 0, 0⟩

/-- The same two-variable state `(rho, v)` at every interface. -/
def uniform2 (rho v : F) : Nat → Nat → Nat → Nat → F :=
  fun nv _ _ _ => if nv = 0 then rho else v

/-- The mirrored state array: the velocity component along the sweep direction changes sign. -/
def reflectPrim (dir : Nat) (P : Nat → Nat → Nat → Nat → F) : Nat → Nat → Nat → Nat → F :=
  fun nv k j i => if nv = VX1 + dir then -P nv k j i else P nv k j i

end Kernel

/-! ## `Hydro::ResetStage` and the head of the constructor (`src/hydro/hydro.cpp`) -/

section HydroCpp
variable {F : Type} [LinearOrderedField F]

/-- The two arrays of `Hydro` written by `ResetStage`. -/
structure StageArrays (F : Type) where
  InvDt : Nat → Nat → Nat → F
  dMax : Nat → Nat → Nat → F

/-- The function `Hydro::ResetStage` (lines 411-428 of `hydro.cpp`): a loop over the total grid
`0 .. np_tot` in the three directions. -/
def ResetStage (np_tot : Nat → Nat) (haveParabolicTerms : Bool) (st : StageArrays F) :
    StageArrays F :=
  idefix_for 0 (np_tot KDIR) 0 (np_tot JDIR) 0 (np_tot IDIR)
    (fun k j i st =>
      let InvDt := set3 st.InvDt k j i 0
      let dMax := if haveParabolicTerms then set3 st.dMax k j i 0 else st.dMax
      ⟨InvDt, dMax⟩) st

/-- The values of `mySolver`. -/
inductive Solver where
  | TVDLF
  | HLL
  | HLLC
  | HLLD
  | ROE
  deriving DecidableEq, Repr

/-- What lines 18-44 of the constructor read from the input file: the value of the entry
`gamma` when `CheckEntry` is positive, likewise `csiso`, and the string of the entry `Solver`. -/
structure HydroInput (F : Type) where
  gamma : Option F
  csiso : Option F
  Solver : String

/-- The members set by lines 18-67 of the constructor. -/
structure HydroSetup (F : Type) where
  gamma : F
  C2Iso : F
  mySolver : Solver

/-- Lines 18-67 of `Hydro::Hydro`, with `IDEFIX_ERROR(msg)` as the error result `msg`.
`HAVE_ENERGY` and `MHD` are the build switches tested by the preprocessor. -/
def Hydro_setup (HAVE_ENERGY MHD : Bool) (input : HydroInput F) : Except String (HydroSetup F) :=
  let gamma : F := match input.gamma with
    | some g => g
    | none => 5 / 3
  match (match input.csiso with
      | some cs => Except.ok (cs * cs)
      | none =>
        if HAVE_ENERGY then Except.ok (1 : F)
        else Except.error ("You are using the ISOTHERMAL approximation "
          ++ "but have not set csiso in the ini file.") : Except String F) with
  | Except.error msg => Except.error msg
  | Except.ok C2Iso =>
    let solverString := input.Solver
    if solverString = "tvdlf" then Except.ok ⟨gamma, C2Iso, Solver.TVDLF⟩
    else if solverString = "hll" then Except.ok ⟨gamma, C2Iso, Solver.HLL⟩
    else if MHD && solverString = "hlld" then Except.ok ⟨gamma, C2Iso, Solver.HLLD⟩
    else if !MHD && solverString = "hllc" then Except.ok ⟨gamma, C2Iso, Solver.HLLC⟩
    else if solverString = "roe" then Except.ok ⟨gamma, C2Iso, Solver.ROE⟩
    else if MHD then Except.error ("Unknown MHD solver type " ++ solverString)
    else Except.error ("Unknown HD solver type " ++ solverString)

end HydroCpp

/-! ## The patch loops of `GridHost::MakeGrid` and the scheduling of `OutputDump::Write` -/

section GridHostCpp
variable {F : Type} [LinearOrderedField F]

/-- The host arrays `x[dir]`, `xl[dir]`, `xr[dir]`, `dx[dir]` of one direction
(`src/gridHost.cpp`), indexed by the `int` the source computes. -/
structure GridArrays (F : Type) where
  x : Int → F
  xl : Int → F
  xr : Int → F
  dx : Int → F

/-- The assignment `arr(i) = v` on an array indexed by `int`. -/
def setI (arr : Int → F) (i : Int) (v : F) : Int → F :=
  fun a => if a = i then v else arr a

/-- The loop `for(int i = lo ; i < hi ; i++)`. -/
def forInt {σ : Type} (lo hi : Int) (body : Int → σ → σ) (s : σ) : σ :=
  forLoop (fun t => body (lo + (t : Int))) (hi - lo).toNat s

/-- Lines 84-89 of `GridHost::MakeGrid`: the cells of a uniform patch. -/
def uniformPatch (patchStart patchEnd : F) (patchSize ghostStart ghostEnd idxstart : Int)
    (g : GridArrays F) : GridArrays F :=
  forInt (0 - ghostStart) (patchSize + ghostEnd) (fun i g =>
    let dx := setI g.dx (i + idxstart) ((patchEnd - patchStart) / (patchSize : F))
    let x := setI g.x (i + idxstart) (patchStart + ((i : F) + 1 / 2) * dx (i + idxstart))
    let xl := setI g.xl (i + idxstart) (patchStart + (i : F) * dx (i + idxstart))
    let xr := setI g.xr (i + idxstart) (patchStart + ((i + 1 : Int) : F) * dx (i + idxstart))
    ⟨x, xl, xr, dx⟩) g

/-- Lines 147-152 of `GridHost::MakeGrid`: the cells of a stretched patch of kind `s-`.  The
stretch factor `q` and the reference width `delta` are the values left by lines 126-144 (a
Newton iteration on `log` and `pow`); `pow(q,i)` with an `int` exponent is the integer power. -/
def stretchedMinus (q delta patchStart : F) (patchSize ghostStart ghostEnd idxstart : Int)
    (g : GridArrays F) : GridArrays F :=
  forInt (0 - ghostStart) (patchSize + ghostEnd) (fun i g =>
    let xl := setI g.xl (i + idxstart) (patchStart + q * (q ^ i - 1) / (q - 1) * delta)
    let xr := setI g.xr (i + idxstart) (patchStart + q * (q ^ (i + 1) - 1) / (q - 1) * delta)
    let dx := setI g.dx (i + idxstart) (q ^ (i + 1) * delta)
    let x := setI g.x (i + idxstart) (1 / 2 * (xr (i + idxstart) + xl (i + idxstart)))
    ⟨x, xl, xr, dx⟩) g

/-- Lines 154-159 of `GridHost::MakeGrid`: the cells of a stretched patch of kind `s+`. -/
def stretchedPlus (q delta patchEnd : F) (patchSize ghostStart ghostEnd idxstart : Int)
    (g : GridArrays F) : GridArrays F :=
  forInt (0 - ghostStart) (patchSize + ghostEnd) (fun i g =>
    let xl := setI g.xl (i + idxstart)
      (patchEnd - q * (q ^ (patchSize - i) - 1) / (q - 1) * delta)
    let xr := setI g.xr (i + idxstart)
      (patchEnd - q * (q ^ (patchSize - i - 1) - 1) / (q - 1) * delta)
    let dx := setI g.dx (i + idxstart) (q ^ (patchSize - i + 1) * delta)
    let x := setI g.x (i + idxstart) (1 / 2 * (xr (i + idxstart) + xl (i + idxstart)))
    ⟨x, xl, xr, dx⟩) g

end GridHostCpp

section OutputDumpCpp
variable {F : Type} [LinearOrderedField F]

/-- A C `int` (32 bits, two's complement): an integer of the range `[−2³¹, 2³¹)`. -/
structure CInt where
  val : Int
  inRange : -2147483648 ≤ val ∧ val < 2147483648

/-- The `int` left by an operation whose exact result is `n`: `n` reduced modulo `2³²` into the
range of the type. -/
def CInt.wrap (n : Int) : CInt :=
  ⟨(n + 2147483648) % 4294967296 - 2147483648, by omega⟩

/-- The statement `n++` on an `int`: past `INT_MAX = 2147483647` the counter wraps. -/
def CInt.incr (n : CInt) : CInt :=
  CInt.wrap (n.val + 1)

/-- The members of `OutputDump` that schedule the dumps (`src/output/outputDump.cpp`);
`dumpFileNumber` is an `int`. -/
structure OutputDump (F : Type) where
  tperiod : F
  tnext : F
  dumpFileNumber : CInt

/-- The payload of one record of a dump file. -/
inductive DumpData (F : Type) where
  | reals (v : List F)
  | integers (v : List CInt)

/-- One record written by `WriteSerial` or `WriteDistributed`: name, extents, payload. -/
structure DumpRecord (F : Type) where
  fieldName : String
  dims : List CInt
  data : DumpData F

/-- A file written by `OutputDump::Write`. -/
structure DumpFile (F : Type) where
  filename : String
  records : List (DumpRecord F)

/-- What `OutputDump::Write` reads from its arguments `grid`, `data`, `tint` and `ovtk`: the
time and time step, the two scalars of the VTK output, the extents and coordinates of the
active domain and the cell-centred fields of the active domain. -/
structure DumpSources (F : Type) where
  t : F
  dt : F
  vtkFileNumber : CInt
  vtktnext : F
  np_int : Nat → CInt
  x : Nat → List F
  NVAR : Nat
  VcName : Nat → String
  Vc : Nat → List F

/-- Lines 3-15: the constructor; `dmp` is the entry `[Output] dmp` of the input, if present. -/
def OutputDump_new (dmp : Option F) (t : F) : OutputDump F :=
  match dmp with
  | some p => ⟨p, t, CInt.wrap 0⟩
  | none => ⟨-1, 0, CInt.wrap 0⟩

/-- Left padding with the character `0` up to the width `w`. -/
def pad0 (w : Nat) (s : String) : String :=
  String.mk (List.replicate (w - s.length) '0') ++ s

/-- The conversion `%04d` of `sprintf`. -/
def fmt04d (n : CInt) : String :=
  if n.val < 0 then "-" ++ pad0 3 (toString n.val.natAbs) else pad0 4 (toString n.val.natAbs)

/-- Lines 485-610 of `OutputDump::Write` in the pure-hydro build without MPI: the return code,
the members after the call and the files written so far. -/
def OutputDump_Write (od : OutputDump F) (src : DumpSources F) (files : List (DumpFile F)) :
    CInt × OutputDump F × List (DumpFile F) :=
  if src.t < od.tnext then (CInt.wrap 0, od, files)
  else if od.tperiod < 0 then (CInt.wrap 0, od, files)
  else
    let tnext := od.tnext + od.tperiod
    let filename := "dump." ++ fmt04d od.dumpFileNumber ++ ".dmp"
    let dumpFileNumber := od.dumpFileNumber.incr
    let recs : List (DumpRecord F) := forLoop (fun dir recs =>
      recs ++ [⟨"x" ++ toString (dir + 1), [src.np_int dir], DumpData.reals (src.x dir)⟩]) 3 []
    let recs := forLoop (fun nv recs =>
      recs ++ [⟨"Vc-" ++ src.VcName nv, [src.np_int 0, src.np_int 1, src.np_int 2],
        DumpData.reals (src.Vc nv)⟩]) src.NVAR recs
    let recs := recs ++ [⟨"time", [CInt.wrap 1], DumpData.reals [src.t]⟩]
    let recs := recs ++ [⟨"dt", [CInt.wrap 1], DumpData.reals [src.dt]⟩]
    let recs := recs ++ [⟨"vtkFileNumber", [CInt.wrap 1],
      DumpData.integers [src.vtkFileNumber]⟩]
    let recs := recs ++ [⟨"vtktnext", [CInt.wrap 1], DumpData.reals [src.vtktnext]⟩]
    let recs := recs ++ [⟨"dumpFileNumber", [CInt.wrap 1], DumpData.integers [dumpFileNumber]⟩]
    let recs := recs ++ [⟨"dumptnext", [CInt.wrap 1], DumpData.reals [tnext]⟩]
    let recs := recs ++ [⟨"eof", [CInt.wrap 1], DumpData.reals [0]⟩]
    (CInt.wrap 0, ⟨od.tperiod, tnext, dumpFileNumber⟩, files ++ [⟨filename, recs⟩])

end OutputDumpCpp

/-! ## The interfaces of a sweep as a list -/

/-- The index triples visited by `idefix_for`, in the order of the sequential loop nest. -/
def interfaces (kb ke jb je ib ie : Nat) : List (Nat × Nat × Nat) :=
  (List.range (ke - kb)).flatMap fun tk =>
    (List.range (je - jb)).flatMap fun tj =>
      (List.range (ie - ib)).map fun ti => (kb + tk, jb + tj, ib + ti)

/-! ## Loops and array updates: basic facts -/

section LoopFacts
variable {F : Type}

theorem forLoop_set1 (f : Nat → F) (n : Nat) (arr : Nat → F) (a : Nat) :
    forLoop (fun nv arr => set1 arr nv (f nv)) n arr a = if a < n then f a else arr a := by
  induction n with
  | zero => simp [forLoop]
  | succ n ih =>
    simp only [forLoop, set1]
    by_cases h : a = n
    · subst h; simp
    · rw [if_neg h, ih]
      by_cases h2 : a < n
      · simp [h2, Nat.lt_succ_of_lt h2]
      · have h3 : ¬ a < n + 1 := by omega
        simp [h2, h3]

/-- A loop that only rewrites one slot of a four-index array acts on that slot alone. -/
theorem forLoop_set4_slot (g : Nat → F → F) (nv k j i : Nat) (n : Nat)
    (A : Nat → Nat → Nat → Nat → F) :
    forLoop (fun t A => set4 A nv k j i (g t (A nv k j i))) n A
      = fun n' a b c => if n' = nv ∧ a = k ∧ b = j ∧ c = i
          then forLoop g n (A nv k j i) else A n' a b c := by
  induction n with
  | zero =>
    funext n' a b c
    by_cases h : n' = nv ∧ a = k ∧ b = j ∧ c = i
    · obtain ⟨rfl, rfl, rfl, rfl⟩ := h
      simp [forLoop]
    · simp [forLoop, h]
  | succ n ih =>
    funext n' a b c
    simp only [forLoop, ih, set4]
    by_cases h : n' = nv ∧ a = k ∧ b = j ∧ c = i
    · simp [h]
    · simp [h]

/-- A loop writing slot `(nv,k,j,i)` in its pass `nv`, the value depending on `nv` alone. -/
theorem forLoop_set4_each (val : Nat → F) (k j i : Nat) (n : Nat)
    (A : Nat → Nat → Nat → Nat → F) (n' a b c : Nat) :
    forLoop (fun nv A => set4 A nv k j i (val nv)) n A n' a b c
      = if n' < n ∧ a = k ∧ b = j ∧ c = i then val n' else A n' a b c := by
  induction n with
  | zero => simp [forLoop]
  | succ n ih =>
    simp only [forLoop, set4, ih]
    by_cases h : a = k ∧ b = j ∧ c = i
    · by_cases h1 : n' = n
      · subst h1; simp [h]
      · by_cases h2 : n' < n
        · simp [h, h1, h2, Nat.lt_succ_of_lt h2]
        · have h3 : ¬ n' < n + 1 := by omega
          simp [h, h1, h2, h3]
    · have h4 : ¬ (n' = n ∧ a = k ∧ b = j ∧ c = i) := fun hh => h hh.2
      have h5 : ¬ (n' < n ∧ a = k ∧ b = j ∧ c = i) := fun hh => h hh.2
      have h6 : ¬ (n' < n + 1 ∧ a = k ∧ b = j ∧ c = i) := fun hh => h hh.2
      simp [h4, h5, h6]

end LoopFacts

section FluxFacts
variable {F : Type} [LinearOrderedField F]

theorem forLoop_sub (t : Nat → F) (n : Nat) (x : F) :
    forLoop (fun nv2 y => y - t nv2) n x = x - ∑ m in Finset.range n, t m := by
  induction n with
  | zero => simp [forLoop]
  | succ n ih => simp only [forLoop, ih, Finset.sum_range_succ]; ring

/-- What the Roe loop (lines 292-298) leaves in the flux array. -/
theorem roeWrite_apply (cfg : Config) (k j i : Nat) (alambda eta : Nat → F) (Rc : Nat → Nat → F)
    (fluxL fluxR : Nat → F) (Flux : Nat → Nat → Nat → Nat → F) (n' a b c : Nat) :
    roeWrite cfg k j i alambda eta Rc fluxL fluxR Flux n' a b c
      = if n' < NVAR cfg ∧ a = k ∧ b = j ∧ c = i
        then (fluxL n' + fluxR n'
          - ∑ m in Finset.range (NVAR cfg), alambda m * eta m * Rc n' m) * (1 / 2)
        else Flux n' a b c := by
  have hbody : (fun nv (Fl : Nat → Nat → Nat → Nat → F) =>
      let Fl := set4 Fl nv k j i (fluxL nv + fluxR nv)
      let Fl := forLoop (fun nv2 Fl =>
        set4 Fl nv k j i (Fl nv k j i - alambda nv2 * eta nv2 * Rc nv nv2)) (NVAR cfg) Fl
      set4 Fl nv k j i (Fl nv k j i * (1 / 2)))
      = fun nv Fl => set4 Fl nv k j i ((fluxL nv + fluxR nv
          - ∑ m in Finset.range (NVAR cfg), alambda m * eta m * Rc nv m) * (1 / 2)) := by
    funext nv Fl
    simp only [forLoop_set4_slot (fun nv2 y => y - alambda nv2 * eta nv2 * Rc nv nv2)]
    simp only [forLoop_sub]
    funext n' a b c
    simp only [set4]
    by_cases h : n' = nv ∧ a = k ∧ b = j ∧ c = i
    · simp [h]
    · simp [h]
  unfold roeWrite
  rw [hbody, forLoop_set4_each]

/-- What the two-wave loop (lines 266-270) leaves in the flux array. -/
theorem hllWrite_apply (cfg : Config) (k j i : Nat) (lambda uL uR fluxL fluxR : Nat → F)
    (Flux : Nat → Nat → Nat → Nat → F) (n' a b c : Nat) :
    hllWrite cfg k j i lambda uL uR fluxL fluxR Flux n' a b c
      = if n' < NVAR cfg ∧ a = k ∧ b = j ∧ c = i
        then (min 0 (lambda 0) * max 0 (lambda 1) * (uR n' - uL n')
            + max 0 (lambda 1) * fluxL n' - min 0 (lambda 0) * fluxR n')
          * (1 / (max 0 (lambda 1) - min 0 (lambda 0)))
        else Flux n' a b c := by
  have hbody : (fun nv (Fl : Nat → Nat → Nat → Nat → F) =>
      let Fl := set4 Fl nv k j i (min 0 (lambda 0) * max 0 (lambda 1) * (uR nv - uL nv)
        + max 0 (lambda 1) * fluxL nv - min 0 (lambda 0) * fluxR nv)
      set4 Fl nv k j i (Fl nv k j i * (1 / (max 0 (lambda 1) - min 0 (lambda 0)))))
      = fun nv Fl => set4 Fl nv k j i ((min 0 (lambda 0) * max 0 (lambda 1) * (uR nv - uL nv)
            + max 0 (lambda 1) * fluxL nv - min 0 (lambda 0) * fluxR nv)
          * (1 / (max 0 (lambda 1) - min 0 (lambda 0)))) := by
    funext nv Fl
    funext n' a b c
    simp only [set4]
    by_cases h : n' = nv ∧ a = k ∧ b = j ∧ c = i
    · simp [h]
    · simp [h]
  unfold hllWrite
  simp only []
  rw [hbody, forLoop_set4_each]

end FluxFacts

section KernelFacts

theorem NVAR_ge_two (cfg : Config) (hv : cfg.Valid) : 2 ≤ NVAR cfg := by
  obtain ⟨h1, h2, h3⟩ := hv
  unfold NVAR
  cases cfg.EOS
  · simp only; omega
  · simp only; omega

theorem absLoop_apply {F : Type} [LinearOrderedField F] (cfg : Config) (lambda alambda : Nat → F)
    (m : Nat) (hm : m < NVAR cfg) :
    forLoop (fun nv alambda => set1 alambda nv |lambda nv|) (NVAR cfg) alambda m = |lambda m| := by
  rw [forLoop_set1 (fun nv => |lambda nv|), if_pos hm]

/-- The loop of lines 279-290 computes the coefficients named by the spec. -/
theorem entropyFix_eq_dissipation {F : Type} [LinearOrderedField F] (cfg : Config)
    (hN : 2 ≤ NVAR cfg) (lambda alambda : Nat → F) (m : Nat) (hm : m < NVAR cfg) :
    entropyFix cfg lambda alambda m = dissipation lambda m := by
  have h0 := absLoop_apply cfg lambda alambda 0 (by omega)
  have h1 := absLoop_apply cfg lambda alambda 1 (by omega)
  have hmm := absLoop_apply cfg lambda alambda m hm
  unfold entropyFix dissipation fixedMagnitude
  generalize forLoop (fun nv alambda => set1 alambda nv |lambda nv|) (NVAR cfg) alambda = al
    at h0 h1 hmm ⊢
  generalize (1 / 10000000 : F) = δ
  by_cases hc : |lambda 0| ≤ δ
  · rw [h0, if_pos hc]
    have h1b : set1 al 0 (1 / 2 * lambda 0 * lambda 0 / δ + 1 / 2 * δ) 1 = |lambda 1| := by
      simp [set1, h1]
    rw [h1b]
    by_cases hc1 : |lambda 1| ≤ δ
    · rw [if_pos hc1]
      by_cases hm0 : m = 0
      · subst hm0; simp [set1, hc]; ring
      · by_cases hm1 : m = 1
        · subst hm1; simp [set1, hc1]; ring
        · have hm2 : ¬ m < 2 := by omega
          simp [set1, hm0, hm1, hm2, hmm]
    · rw [if_neg hc1]
      by_cases hm0 : m = 0
      · subst hm0; simp [set1, hc]; ring
      · by_cases hm1 : m = 1
        · subst hm1; simp [set1, hc1, h1]
        · have hm2 : ¬ m < 2 := by omega
          simp [set1, hm0, hm2, hmm]
  · rw [h0, if_neg hc, h1]
    by_cases hc1 : |lambda 1| ≤ δ
    · rw [if_pos hc1]
      by_cases hm0 : m = 0
      · subst hm0; simp [set1, hc, h0]
      · by_cases hm1 : m = 1
        · subst hm1; simp [set1, hc1]; ring
        · have hm2 : ¬ m < 2 := by omega
          simp [set1, hm1, hm2, hmm]
    · rw [if_neg hc1]
      by_cases hm0 : m = 0
      · subst hm0; simp [hc, h0]
      · by_cases hm1 : m = 1
        · subst hm1; simp [hc1, h1]
        · have hm2 : ¬ m < 2 := by omega
          simp [hm2, hmm]

theorem loadStates_eq {F : Type} [LinearOrderedField F] (cfg : Config) (sc : Scratch F)
    (PrimL PrimR : Nat → Nat → Nat → Nat → F) (k j i : Nat) :
    loadStates cfg sc PrimL PrimR k j i
      = (fun nv => if nv < NVAR cfg then PrimL nv k j i else sc.vL nv,
         fun nv => if nv < NVAR cfg then PrimR nv k j i else sc.vR nv,
         fun nv => if nv < NVAR cfg then PrimR nv k j i - PrimL nv k j i else sc.dv nv) := by
  unfold loadStates
  induction NVAR cfg with
  | zero => simp [forLoop]
  | succ n ih =>
    simp only [forLoop]
    rw [ih]
    refine Prod.ext ?_ (Prod.ext ?_ ?_)
    · funext nv
      simp only [set1]
      by_cases h : nv = n
      · subst h; simp
      · by_cases h2 : nv < n
        · simp [h, h2, Nat.lt_succ_of_lt h2]
        · have h3 : ¬ nv < n + 1 := by omega
          simp [h, h2, h3]
    · funext nv
      simp only [set1]
      by_cases h : nv = n
      · subst h; simp
      · by_cases h2 : nv < n
        · simp [h, h2, Nat.lt_succ_of_lt h2]
        · have h3 : ¬ nv < n + 1 := by omega
          simp [h, h2, h3]
    · funext nv
      simp only [set1]
      by_cases h : nv = n
      · subst h; simp
      · by_cases h2 : nv < n
        · simp [h, h2, Nat.lt_succ_of_lt h2]
        · have h3 : ¬ nv < n + 1 := by omega
          simp [h, h2, h3]

theorem eigen_lambda_acoustic {F : Type} [LinearOrderedField F] (cfg : Config) (sc : Scratch F)
    (dir : Nat) (av : Average F) (dv : Nat → F) :
    (eigen cfg sc dir av dv).lambda 0 = av.um (VX1 + dir) - av.a
      ∧ (eigen cfg sc dir av dv).lambda 1 = av.um (VX1 + dir) + av.a := by
  unfold eigen
  by_cases h1 : cfg.COMPONENTS > 1 <;> by_cases h2 : cfg.COMPONENTS > 2 <;>
    cases hE : cfg.EOS <;>
    simp [h1, h2, hE, shearWave, entropyWave, acousticPlus, acousticMinus, set1]

theorem ROE_Kernel_flux_off {F : Type} [LinearOrderedField F] (cfg : Config)
    (hN : 2 ≤ NVAR cfg) (sqrt : F → F) (sc : Scratch F) (dir : Nat)
    (gamma C2Iso : F) (PrimL PrimR : Nat → Nat → Nat → Nat → F) (dx : Nat → F) (k j i : Nat)
    (st : (Nat → Nat → Nat → Nat → F) × (Nat → Nat → Nat → F))
    (hsw : shockSwitch dir (locals cfg sqrt sc dir gamma C2Iso PrimL PrimR k j i).scrh
      (locals cfg sqrt sc dir gamma C2Iso PrimL PrimR k j i).vL
      (locals cfg sqrt sc dir gamma C2Iso PrimL PrimR k j i).vR = false)
    (nv : Nat) (hnv : nv < NVAR cfg) :
    (ROE_Kernel cfg sqrt sc dir gamma C2Iso PrimL PrimR dx k j i st).1 nv k j i
      = 1 / 2 * ((locals cfg sqrt sc dir gamma C2Iso PrimL PrimR k j i).fluxL nv
        + (locals cfg sqrt sc dir gamma C2Iso PrimL PrimR k j i).fluxR nv
        - ∑ m in Finset.range (NVAR cfg),
            dissipation (locals cfg sqrt sc dir gamma C2Iso PrimL PrimR k j i).eig.lambda m
              * (locals cfg sqrt sc dir gamma C2Iso PrimL PrimR k j i).eig.eta m
              * (locals cfg sqrt sc dir gamma C2Iso PrimL PrimR k j i).eig.Rc nv m) := by
  unfold ROE_Kernel
  simp only [hsw, Bool.false_eq_true, if_false]
  rw [roeWrite_apply, if_pos ⟨hnv, rfl, rfl, rfl⟩, mul_comm]
  congr 2
  apply Finset.sum_congr rfl
  intro m hm
  rw [entropyFix_eq_dissipation cfg hN _ _ m (Finset.mem_range.mp hm)]

end KernelFacts

/-! ## The flux written by the two branches -/

section Branches

/-- C2: whenever the shock switch does not trigger, the flux written at the interface is, in
every component `nv`, `½ (F_L[nv] + F_R[nv] − Σ_{m<NVAR} c_m · η_m · Rc[nv][m])`, with `c_m`
the entropy-fixed magnitude for the slots 0 and 1 and the plain magnitude for every other
slot. -/
theorem roe_flux_when_switch_off (cfg : Config) (hv : cfg.Valid) (sc : Scratch ℝ) (dir : Nat)
    (gamma C2Iso : ℝ) (PrimL PrimR : Nat → Nat → Nat → Nat → ℝ) (dx : Nat → ℝ) (k j i : Nat)
    (st : (Nat → Nat → Nat → Nat → ℝ) × (Nat → Nat → Nat → ℝ))
    (hsw : shockSwitch dir (locals cfg Real.sqrt sc dir gamma C2Iso PrimL PrimR k j i).scrh
      (locals cfg Real.sqrt sc dir gamma C2Iso PrimL PrimR k j i).vL
      (locals cfg Real.sqrt sc dir gamma C2Iso PrimL PrimR k j i).vR = false)
    (nv : Nat) (hnv : nv < NVAR cfg) :
    (ROE_Kernel cfg Real.sqrt sc dir gamma C2Iso PrimL PrimR dx k j i st).1 nv k j i
      = 1 / 2 * ((locals cfg Real.sqrt sc dir gamma C2Iso PrimL PrimR k j i).fluxL nv
        + (locals cfg Real.sqrt sc dir gamma C2Iso PrimL PrimR k j i).fluxR nv
        - ∑ m in Finset.range (NVAR cfg),
            dissipation (locals cfg Real.sqrt sc dir gamma C2Iso PrimL PrimR k j i).eig.lambda m
              * (locals cfg Real.sqrt sc dir gamma C2Iso PrimL PrimR k j i).eig.eta m
              * (locals cfg Real.sqrt sc dir gamma C2Iso PrimL PrimR k j i).eig.Rc nv m) :=
  ROE_Kernel_flux_off cfg (NVAR_ge_two cfg hv) Real.sqrt sc dir gamma C2Iso PrimL PrimR dx k j i st
    hsw nv hnv

/-- C4: with at least two spatial dimensions, whenever the shock switch triggers, the flux
written in every component `nv` is
`(b_min·b_max·(U_R[nv] − U_L[nv]) + b_max·F_L[nv] − b_min·F_R[nv]) / (b_max − b_min)` with
`b_min = min(0, λ₀)`, `b_max = max(0, λ₁)`, `λ₀ = u_n − a`, `λ₁ = u_n + a` of the averaged
state. -/
theorem hll_flux_when_switch_on (cfg : Config) (hdim : 2 ≤ cfg.DIMENSIONS) (sc : Scratch ℝ)
    (dir : Nat) (gamma C2Iso : ℝ) (PrimL PrimR : Nat → Nat → Nat → Nat → ℝ) (dx : Nat → ℝ)
    (k j i : Nat) (st : (Nat → Nat → Nat → Nat → ℝ) × (Nat → Nat → Nat → ℝ))
    (hsw : shockSwitch dir (locals cfg Real.sqrt sc dir gamma C2Iso PrimL PrimR k j i).scrh
      (locals cfg Real.sqrt sc dir gamma C2Iso PrimL PrimR k j i).vL
      (locals cfg Real.sqrt sc dir gamma C2Iso PrimL PrimR k j i).vR = true)
    (nv : Nat) (hnv : nv < NVAR cfg) :
    (ROE_Kernel cfg Real.sqrt sc dir gamma C2Iso PrimL PrimR dx k j i st).1 nv k j i
      = (min 0 ((locals cfg Real.sqrt sc dir gamma C2Iso PrimL PrimR k j i).av.um (VX1 + dir)
            - (locals cfg Real.sqrt sc dir gamma C2Iso PrimL PrimR k j i).av.a)
          * max 0 ((locals cfg Real.sqrt sc dir gamma C2Iso PrimL PrimR k j i).av.um (VX1 + dir)
            + (locals cfg Real.sqrt sc dir gamma C2Iso PrimL PrimR k j i).av.a)
          * ((locals cfg Real.sqrt sc dir gamma C2Iso PrimL PrimR k j i).uR nv
            - (locals cfg Real.sqrt sc dir gamma C2Iso PrimL PrimR k j i).uL nv)
        + max 0 ((locals cfg Real.sqrt sc dir gamma C2Iso PrimL PrimR k j i).av.um (VX1 + dir)
            + (locals cfg Real.sqrt sc dir gamma C2Iso PrimL PrimR k j i).av.a)
          * (locals cfg Real.sqrt sc dir gamma C2Iso PrimL PrimR k j i).fluxL nv
        - min 0 ((locals cfg Real.sqrt sc dir gamma C2Iso PrimL PrimR k j i).av.um (VX1 + dir)
            - (locals cfg Real.sqrt sc dir gamma C2Iso PrimL PrimR k j i).av.a)
          * (locals cfg Real.sqrt sc dir gamma C2Iso PrimL PrimR k j i).fluxR nv)
        / (max 0 ((locals cfg Real.sqrt sc dir gamma C2Iso PrimL PrimR k j i).av.um (VX1 + dir)
            + (locals cfg Real.sqrt sc dir gamma C2Iso PrimL PrimR k j i).av.a)
          - min 0 ((locals cfg Real.sqrt sc dir gamma C2Iso PrimL PrimR k j i).av.um (VX1 + dir)
            - (locals cfg Real.sqrt sc dir gamma C2Iso PrimL PrimR k j i).av.a)) := by
  have hd : cfg.DIMENSIONS > 1 := hdim
  unfold ROE_Kernel
  simp only [hsw, if_true, hd]
  rw [hllWrite_apply, if_pos ⟨hnv, rfl, rfl, rfl⟩, mul_one_div]
  have hl := eigen_lambda_acoustic cfg sc dir
    (locals cfg Real.sqrt sc dir gamma C2Iso PrimL PrimR k j i).av
    (locals cfg Real.sqrt sc dir gamma C2Iso PrimL PrimR k j i).dv
  have he : (locals cfg Real.sqrt sc dir gamma C2Iso PrimL PrimR k j i).eig
      = eigen cfg sc dir (locals cfg Real.sqrt sc dir gamma C2Iso PrimL PrimR k j i).av
          (locals cfg Real.sqrt sc dir gamma C2Iso PrimL PrimR k j i).dv := rfl
  rw [he, hl.1, hl.2]

/-- C5 (the code at the failing input): in the 1-D build, for Left = (ρ 1, v 1, p 2) and
Right = (ρ 1, v 0, p 1) with γ = 1.4 the shock indicator triggers (`scrh = 1 > 0.5`,
`v_R < v_L`) and the kernel returns the flux array it was given, whatever it held: no flux is
written for the interface. -/
theorem flux_unwritten_1D_shock (Flux0 : Nat → Nat → Nat → Nat → ℝ)
    (invDt0 : Nat → Nat → Nat → ℝ) (sc : Scratch ℝ) (k j i : Nat) :
    shockSwitch 0
        (locals cfg1D Real.sqrt sc 0 (7 / 5) 1 (uniform3 1 1 2) (uniform3 1 0 1) k j i).scrh
        (locals cfg1D Real.sqrt sc 0 (7 / 5) 1 (uniform3 1 1 2) (uniform3 1 0 1) k j i).vL
        (locals cfg1D Real.sqrt sc 0 (7 / 5) 1 (uniform3 1 1 2) (uniform3 1 0 1) k j i).vR = true
      ∧ (ROE_Kernel cfg1D Real.sqrt sc 0 (7 / 5) 1 (uniform3 1 1 2) (uniform3 1 0 1)
          (fun _ => 1) k j i (Flux0, invDt0)).1 = Flux0 := by
  have hsw : shockSwitch 0
        (locals cfg1D Real.sqrt sc 0 (7 / 5) 1 (uniform3 1 1 2) (uniform3 1 0 1) k j i).scrh
        (locals cfg1D Real.sqrt sc 0 (7 / 5) 1 (uniform3 1 1 2) (uniform3 1 0 1) k j i).vL
        (locals cfg1D Real.sqrt sc 0 (7 / 5) 1 (uniform3 1 1 2) (uniform3 1 0 1) k j i).vR
      = true := by
    simp only [locals, loadStates_eq, shockSwitch, shockIndicator, cfg1D, NVAR, PRS, VX1,
      uniform3]
    norm_num
  refine ⟨hsw, ?_⟩
  unfold ROE_Kernel
  simp only [hsw, if_true]
  simp [cfg1D]

/-- C10: for every interface, every input and every build, the kernel adds exactly
`(|u_n| + a) / dx(ig)` to the accumulator cell `(k,j,i)`, where `u_n` and `a` are the averaged
normal velocity and sound speed and `ig` is the component of `(k,j,i)` along the sweep
direction; the amount does not depend on the branch that produced the flux. -/
theorem accumulator_increment (cfg : Config) (sc : Scratch ℝ) (dir : Nat) (hdir : dir < 3)
    (gamma C2Iso : ℝ) (PrimL PrimR : Nat → Nat → Nat → Nat → ℝ) (dx : Nat → ℝ) (k j i : Nat)
    (st : (Nat → Nat → Nat → Nat → ℝ) × (Nat → Nat → Nat → ℝ)) :
    (ROE_Kernel cfg Real.sqrt sc dir gamma C2Iso PrimL PrimR dx k j i st).2 k j i
      = st.2 k j i
        + (|(average cfg Real.sqrt sc gamma (loadStates cfg sc PrimL PrimR k j i).1
              (loadStates cfg sc PrimL PrimR k j i).2.1).um (VX1 + dir)|
            + (average cfg Real.sqrt sc gamma (loadStates cfg sc PrimL PrimR k j i).1
              (loadStates cfg sc PrimL PrimR k j i).2.1).a)
          / dx (if dir = IDIR then i else if dir = JDIR then j else k) := by
  unfold ROE_Kernel
  simp only [set3, locals]
  interval_cases dir <;> simp [IDIR, JDIR, KDIR]

/-- Witness of `roe_flux_when_switch_off`: the 1-D build with the same state on both sides. -/
theorem roe_flux_when_switch_off_witness :
    cfg1D.Valid
      ∧ shockSwitch 0
          (locals cfg1D Real.sqrt (constScratch 0) 0 (7 / 5) 1 (uniform3 1 0 1) (uniform3 1 0 1)
            0 0 0).scrh
          (locals cfg1D Real.sqrt (constScratch 0) 0 (7 / 5) 1 (uniform3 1 0 1) (uniform3 1 0 1)
            0 0 0).vL
          (locals cfg1D Real.sqrt (constScratch 0) 0 (7 / 5) 1 (uniform3 1 0 1) (uniform3 1 0 1)
            0 0 0).vR = false
      ∧ (ROE_Kernel cfg1D Real.sqrt (constScratch 0) 0 (7 / 5) 1 (uniform3 1 0 1)
          (uniform3 1 0 1) (fun _ => 1) 0 0 0 (fun _ _ _ _ => 0, fun _ _ _ => 0)).1 0 0 0 0
        = 1 / 2 * ((locals cfg1D Real.sqrt (constScratch 0) 0 (7 / 5) 1 (uniform3 1 0 1)
              (uniform3 1 0 1) 0 0 0).fluxL 0
          + (locals cfg1D Real.sqrt (constScratch 0) 0 (7 / 5) 1 (uniform3 1 0 1)
              (uniform3 1 0 1) 0 0 0).fluxR 0
          - ∑ m in Finset.range (NVAR cfg1D),
              dissipation (locals cfg1D Real.sqrt (constScratch 0) 0 (7 / 5) 1 (uniform3 1 0 1)
                  (uniform3 1 0 1) 0 0 0).eig.lambda m
                * (locals cfg1D Real.sqrt (constScratch 0) 0 (7 / 5) 1 (uniform3 1 0 1)
                  (uniform3 1 0 1) 0 0 0).eig.eta m
                * (locals cfg1D Real.sqrt (constScratch 0) 0 (7 / 5) 1 (uniform3 1 0 1)
                  (uniform3 1 0 1) 0 0 0).eig.Rc 0 m) := by
  have hv : cfg1D.Valid := by decide
  have hsw : shockSwitch 0
      (locals cfg1D Real.sqrt (constScratch 0) 0 (7 / 5) 1 (uniform3 1 0 1) (uniform3 1 0 1)
        0 0 0).scrh
      (locals cfg1D Real.sqrt (constScratch 0) 0 (7 / 5) 1 (uniform3 1 0 1) (uniform3 1 0 1)
        0 0 0).vL
      (locals cfg1D Real.sqrt (constScratch 0) 0 (7 / 5) 1 (uniform3 1 0 1) (uniform3 1 0 1)
        0 0 0).vR = false := by
    simp only [locals, loadStates_eq, shockSwitch, shockIndicator, cfg1D, NVAR, PRS, VX1,
      uniform3]
    norm_num
  exact ⟨hv, hsw, roe_flux_when_switch_off cfg1D hv (constScratch 0) 0 (7 / 5) 1 (uniform3 1 0 1)
    (uniform3 1 0 1) (fun _ => 1) 0 0 0 (fun _ _ _ _ => 0, fun _ _ _ => 0) hsw 0 (by decide)⟩

/-- Witness of `hll_flux_when_switch_on`: the 2-D build with Left = (ρ 1, v 1 0, p 2) and
Right = (ρ 1, v 0 0, p 1), for which the switch triggers; the mass flux written is the
two-wave value. -/
theorem hll_flux_when_switch_on_witness :
    2 ≤ cfg2D.DIMENSIONS
      ∧ shockSwitch 0
          (locals cfg2D Real.sqrt (constScratch 0) 0 (7 / 5) 1 (uniform4 1 1 0 2)
            (uniform4 1 0 0 1) 0 0 0).scrh
          (locals cfg2D Real.sqrt (constScratch 0) 0 (7 / 5) 1 (uniform4 1 1 0 2)
            (uniform4 1 0 0 1) 0 0 0).vL
          (locals cfg2D Real.sqrt (constScratch 0) 0 (7 / 5) 1 (uniform4 1 1 0 2)
            (uniform4 1 0 0 1) 0 0 0).vR = true
      ∧ ∃ bmin bmax : ℝ,
          (ROE_Kernel cfg2D Real.sqrt (constScratch 0) 0 (7 / 5) 1 (uniform4 1 1 0 2)
            (uniform4 1 0 0 1) (fun _ => 1) 0 0 0 (fun _ _ _ _ => 0, fun _ _ _ => 0)).1 0 0 0 0
          = (bmin * bmax * ((locals cfg2D Real.sqrt (constScratch 0) 0 (7 / 5) 1
                  (uniform4 1 1 0 2) (uniform4 1 0 0 1) 0 0 0).uR 0
                - (locals cfg2D Real.sqrt (constScratch 0) 0 (7 / 5) 1
                  (uniform4 1 1 0 2) (uniform4 1 0 0 1) 0 0 0).uL 0)
              + bmax * (locals cfg2D Real.sqrt (constScratch 0) 0 (7 / 5) 1
                  (uniform4 1 1 0 2) (uniform4 1 0 0 1) 0 0 0).fluxL 0
              - bmin * (locals cfg2D Real.sqrt (constScratch 0) 0 (7 / 5) 1
                  (uniform4 1 1 0 2) (uniform4 1 0 0 1) 0 0 0).fluxR 0)
            / (bmax - bmin) := by
  have hsw : shockSwitch 0
      (locals cfg2D Real.sqrt (constScratch 0) 0 (7 / 5) 1 (uniform4 1 1 0 2)
        (uniform4 1 0 0 1) 0 0 0).scrh
      (locals cfg2D Real.sqrt (constScratch 0) 0 (7 / 5) 1 (uniform4 1 1 0 2)
        (uniform4 1 0 0 1) 0 0 0).vL
      (locals cfg2D Real.sqrt (constScratch 0) 0 (7 / 5) 1 (uniform4 1 1 0 2)
        (uniform4 1 0 0 1) 0 0 0).vR = true := by
    simp only [locals, loadStates_eq, shockSwitch, shockIndicator, cfg2D, NVAR, PRS, VX1,
      uniform4]
    norm_num
  exact ⟨by decide, hsw, _, _, hll_flux_when_switch_on cfg2D (by decide) (constScratch 0) 0
    (7 / 5) 1 (uniform4 1 1 0 2) (uniform4 1 0 0 1) (fun _ => 1) 0 0 0
    (fun _ _ _ _ => 0, fun _ _ _ => 0) hsw 0 (by decide)⟩

/-- Witness of `accumulator_increment`: a sweep along the second axis reads `dx(j)`. -/
theorem accumulator_increment_witness :
    (1 : Nat) < 3
      ∧ (ROE_Kernel cfg2D Real.sqrt (constScratch 0) 1 (7 / 5) 1 (uniform4 1 1 0 2)
          (uniform4 1 0 0 1) (fun _ => 1) 4 5 6 (fun _ _ _ _ => 0, fun _ _ _ => 0)).2 4 5 6
        = (fun _ _ _ => (0 : ℝ)) 4 5 6
          + (|(average cfg2D Real.sqrt (constScratch 0) (7 / 5)
                (loadStates cfg2D (constScratch 0) (uniform4 1 1 0 2) (uniform4 1 0 0 1)
                  4 5 6).1
                (loadStates cfg2D (constScratch 0) (uniform4 1 1 0 2) (uniform4 1 0 0 1)
                  4 5 6).2.1).um (VX1 + 1)|
            + (average cfg2D Real.sqrt (constScratch 0) (7 / 5)
                (loadStates cfg2D (constScratch 0) (uniform4 1 1 0 2) (uniform4 1 0 0 1)
                  4 5 6).1
                (loadStates cfg2D (constScratch 0) (uniform4 1 1 0 2) (uniform4 1 0 0 1)
                  4 5 6).2.1).a)
            / (fun _ => (1 : ℝ)) (if 1 = IDIR then 6 else if 1 = JDIR then 5 else 4) :=
  ⟨by decide, accumulator_increment cfg2D (constScratch 0) 1 (by decide) (7 / 5) 1
    (uniform4 1 1 0 2) (uniform4 1 0 0 1) (fun _ => 1) 4 5 6 (fun _ _ _ _ => 0, fun _ _ _ => 0)⟩

end Branches

/-! ## The entropy fix -/

section EntropyFix

theorem fixedMagnitude_continuous : Continuous (fun lam : ℝ => fixedMagnitude lam) := by
  unfold fixedMagnitude
  apply Continuous.if_le
  · exact ((continuous_id.pow 2).div_const _).add continuous_const
  · exact continuous_abs
  · exact continuous_abs
  · exact continuous_const
  · intro x hx
    have hsq : x ^ 2 = (1 / 10000000 : ℝ) ^ 2 := by rw [← sq_abs, hx]
    rw [hx, hsq]
    norm_num

theorem set1_same {F : Type} (arr : Nat → F) (m : Nat) (x : F) : set1 arr m x m = x := by
  simp [set1]

/-- C8: the dissipation coefficient the kernel uses for an acoustic wave (slot 0 or 1), as a
function of that wave's eigenvalue, is continuous on the whole real line; at `|λ| = δ` both
formulas, and the kernel's coefficient, give exactly `δ = 1e-7`. -/
theorem entropy_fix_continuous (cfg : Config) (hv : cfg.Valid) (lambda alambda : Nat → ℝ)
    (m : Nat) (hm : m < 2) :
    Continuous (fun lam : ℝ => entropyFix cfg (set1 lambda m lam) alambda m)
      ∧ ∀ lam : ℝ, |lam| = 1 / 10000000 →
          lam ^ 2 / (2 * (1 / 10000000)) + (1 / 10000000) / 2 = 1 / 10000000
            ∧ |lam| = 1 / 10000000
            ∧ entropyFix cfg (set1 lambda m lam) alambda m = 1 / 10000000 := by
  have hN := NVAR_ge_two cfg hv
  have hfun : (fun lam : ℝ => entropyFix cfg (set1 lambda m lam) alambda m)
      = fun lam : ℝ => fixedMagnitude lam := by
    funext lam
    rw [entropyFix_eq_dissipation cfg hN _ _ m (by omega)]
    simp [dissipation, hm, set1_same]
  refine ⟨by rw [hfun]; exact fixedMagnitude_continuous, ?_⟩
  intro lam hlam
  have hsq : lam ^ 2 = (1 / 10000000 : ℝ) ^ 2 := by rw [← sq_abs, hlam]
  have h1 : lam ^ 2 / (2 * (1 / 10000000)) + (1 / 10000000) / 2 = (1 / 10000000 : ℝ) := by
    rw [hsq]; norm_num
  refine ⟨h1, hlam, ?_⟩
  have := congrFun hfun lam
  simp only at this
  rw [this]
  unfold fixedMagnitude
  rw [if_pos (le_of_eq hlam), h1]

/-- Witness of `entropy_fix_continuous`: slot 1 of the 1-D build at `λ = −δ`. -/
theorem entropy_fix_continuous_witness :
    cfg1D.Valid ∧ (1 : Nat) < 2
      ∧ entropyFix cfg1D (set1 (fun _ => (0 : ℝ)) 1 (-(1 / 10000000))) (fun _ => 0) 1
        = 1 / 10000000 :=
  ⟨by decide, by decide,
    ((entropy_fix_continuous cfg1D (by decide) (fun _ => 0) (fun _ => 0) 1 (by decide)).2
      (-(1 / 10000000)) (by rw [abs_neg, abs_of_pos (by norm_num)])).2.2⟩

end EntropyFix

/-! ## The time-step accumulator over a sweep -/

section Sweep

theorem forLoop_invariant {σ : Type} (P : σ → Prop) (body : Nat → σ → σ)
    (h : ∀ t s, P s → P (body t s)) (n : Nat) (s : σ) (hs : P s) : P (forLoop body n s) := by
  induction n with
  | zero => exact hs
  | succ n ih => exact h n _ ih

theorem idefix_for_invariant {σ : Type} (P : σ → Prop) (body : Nat → Nat → Nat → σ → σ)
    (h : ∀ k j i s, P s → P (body k j i s)) (kb ke jb je ib ie : Nat) (s : σ) (hs : P s) :
    P (idefix_for kb ke jb je ib ie body s) := by
  unfold idefix_for forRange
  apply forLoop_invariant P _ _ _ _ hs
  intro t s hs
  apply forLoop_invariant P _ _ _ _ hs
  intro t2 s hs
  apply forLoop_invariant P _ _ _ _ hs
  intro t3 s hs
  exact h _ _ _ _ hs

theorem average_a_nonneg (cfg : Config) (sc : Scratch ℝ) (gamma : ℝ) (vL vR : Nat → ℝ) :
    0 ≤ (average cfg Real.sqrt sc gamma vL vR).a := by
  unfold average
  cases cfg.ROE_AVERAGE <;> cases cfg.EOS <;> simp [Real.sqrt_nonneg]

end Sweep

/-! ## The 1-D ideal-gas build -/

section OneD

theorem eigen1D_lambda {F : Type} [LinearOrderedField F] (sc : Scratch F) (av : Average F)
    (dv : Nat → F) :
    (eigen cfg1D sc 0 av dv).lambda 0 = av.um 1 - av.a
      ∧ (eigen cfg1D sc 0 av dv).lambda 1 = av.um 1 + av.a
      ∧ (eigen cfg1D sc 0 av dv).lambda 2 = av.um 1 := by
  simp [eigen, cfg1D, entropyWave, acousticPlus, acousticMinus, set1, VX1]

theorem eigen1D_eta {F : Type} [LinearOrderedField F] (sc : Scratch F) (av : Average F)
    (dv : Nat → F) :
    (eigen cfg1D sc 0 av dv).eta 0 = 1 / 2 / av.a2 * (dv 2 - dv 1 * av.um 0 * av.a)
      ∧ (eigen cfg1D sc 0 av dv).eta 1 = 1 / 2 / av.a2 * (dv 2 + dv 1 * av.um 0 * av.a)
      ∧ (eigen cfg1D sc 0 av dv).eta 2 = dv 0 - dv 2 / av.a2 := by
  simp [eigen, cfg1D, entropyWave, acousticPlus, acousticMinus, set1, VX1, RHO, PRS]

theorem eigen1D_Rc {F : Type} [LinearOrderedField F] (sc : Scratch F) (av : Average F)
    (dv : Nat → F) :
    ((eigen cfg1D sc 0 av dv).Rc 0 0 = 1 ∧ (eigen cfg1D sc 0 av dv).Rc 0 1 = 1
        ∧ (eigen cfg1D sc 0 av dv).Rc 0 2 = 1)
      ∧ ((eigen cfg1D sc 0 av dv).Rc 1 0 = av.um 1 - av.a
        ∧ (eigen cfg1D sc 0 av dv).Rc 1 1 = av.um 1 + av.a
        ∧ (eigen cfg1D sc 0 av dv).Rc 1 2 = av.um 1)
      ∧ ((eigen cfg1D sc 0 av dv).Rc 2 0 = av.h - av.um 1 * av.a
        ∧ (eigen cfg1D sc 0 av dv).Rc 2 1 = av.h + av.um 1 * av.a
        ∧ (eigen cfg1D sc 0 av dv).Rc 2 2 = 1 / 2 * av.vel2) := by
  simp [eigen, cfg1D, entropyWave, acousticPlus, acousticMinus, set2, EXPAND, VX1, MX1, RHO,
    PRS, ENG]

theorem average1D {F : Type} [LinearOrderedField F] (sqrt : F → F) (sc : Scratch F) (gamma : F)
    (vL vR : Nat → F) :
    (average cfg1D sqrt sc gamma vL vR).um 0 = vL 0 * sqrt (vR 0 / vL 0)
      ∧ (average cfg1D sqrt sc gamma vL vR).um 1
          = 1 / (1 + sqrt (vR 0 / vL 0)) * vL 1 + (1 - 1 / (1 + sqrt (vR 0 / vL 0))) * vR 1
      ∧ (average cfg1D sqrt sc gamma vL vR).vel2
          = (average cfg1D sqrt sc gamma vL vR).um 1 * (average cfg1D sqrt sc gamma vL vR).um 1
      ∧ (average cfg1D sqrt sc gamma vL vR).h
          = 1 / (1 + sqrt (vR 0 / vL 0))
              * (1 / 2 * (vL 1 * vL 1) + gamma * vL 2 / vL 0 * (1 / (gamma - 1)))
            + (1 - 1 / (1 + sqrt (vR 0 / vL 0)))
              * (1 / 2 * (vR 1 * vR 1) + gamma * vR 2 / vR 0 * (1 / (gamma - 1)))
      ∧ (average cfg1D sqrt sc gamma vL vR).a2
          = (gamma - 1) * ((average cfg1D sqrt sc gamma vL vR).h
              - 1 / 2 * (average cfg1D sqrt sc gamma vL vR).vel2)
      ∧ (average cfg1D sqrt sc gamma vL vR).a = sqrt (average cfg1D sqrt sc gamma vL vR).a2 := by
  simp [average, cfg1D, EXPAND, EXPANDsum, set1, VX1, RHO, PRS]

theorem flux1D {F : Type} [LinearOrderedField F] (Fl U V : Nat → F) (gamma_m1 Cs2Iso : F) :
    K_Flux cfg1D Fl V (K_PrimToCons cfg1D U V gamma_m1) Cs2Iso 0 0 = V 0 * V 1
      ∧ K_Flux cfg1D Fl V (K_PrimToCons cfg1D U V gamma_m1) Cs2Iso 0 1 = V 0 * V 1 * V 1 + V 2
      ∧ K_Flux cfg1D Fl V (K_PrimToCons cfg1D U V gamma_m1) Cs2Iso 0 2
          = (V 2 / gamma_m1 + 1 / 2 * V 0 * (V 1 * V 1) + V 2) * V 1 := by
  simp [K_Flux, K_PrimToCons, cfg1D, EXPAND, EXPANDsum, set1, VX1, MX1, RHO, PRS, ENG]

end OneD


/-! ## The Sod shock tube -/

section SodTube

theorem fixedMagnitude_of_large {F : Type} [LinearOrderedField F] (x : F)
    (hx : 1 / 10000000 < |x|) : fixedMagnitude x = |x| := by
  unfold fixedMagnitude
  rw [if_neg (not_le.mpr hx)]

theorem sod_scalars (S : ℝ) (hS : 0 ≤ S) :
    (1 : ℝ) + S ≠ 0
      ∧ 1 / (1 + S) * (7 / 5 * 1 / 1 * (1 / (7 / 5 - 1)))
          + (1 - 1 / (1 + S)) * (7 / 5 * (1 / 10) / (1 / 8) * (1 / (7 / 5 - 1)))
        = (35 / 10 + 28 / 10 * S) / (1 + S)
      ∧ (28 / 10 : ℝ) ≤ (35 / 10 + 28 / 10 * S) / (1 + S) := by
  have h1 : (1 : ℝ) + S ≠ 0 := by linarith
  refine ⟨h1, ?_, ?_⟩
  · field_simp; ring
  · rw [le_div_iff₀ (by linarith)]; nlinarith

theorem sod_speed (H : ℝ) (hH : 28 / 10 ≤ H) :
    1 ≤ Real.sqrt (4 / 10 * H) ∧ Real.sqrt (4 / 10 * H) ^ 2 = 4 / 10 * H := by
  refine ⟨?_, Real.sq_sqrt (by linarith)⟩
  rw [Real.one_le_sqrt]; linarith

theorem abs_large_of_ge_one (A : ℝ) (hA : 1 ≤ A) :
    |0 - A| = A ∧ |0 + A| = A ∧ (1 / 10000000 : ℝ) < |0 - A| ∧ (1 / 10000000 : ℝ) < |0 + A| := by
  have h1 : |0 - A| = A := by rw [zero_sub, abs_neg, abs_of_pos (by linarith)]
  have h2 : |0 + A| = A := by rw [zero_add, abs_of_pos (by linarith)]
  refine ⟨h1, h2, ?_, ?_⟩
  · rw [h1]; linarith
  · rw [h2]; linarith

/-- C7: Sod scenario (1 spatial dimension, one velocity component, ideal gas, γ = 1.4, Roe
average).  For Left = (ρ 1, v 0, p 1) and Right = (ρ 0.125, v 0, p 0.1) the shock switch is not
triggered and the kernel writes the characteristic-branch flux
(mass, momentum, energy) = (0.45/a, 0.55, 0.45·h/a) with s = √0.125,
h = (3.5 + 2.8·s)/(1 + s) and a = √(0.4·h). -/
theorem sod_flux (sc : Scratch ℝ) (C2Iso : ℝ) (dx : Nat → ℝ) (k j i : Nat)
    (st : (Nat → Nat → Nat → Nat → ℝ) × (Nat → Nat → Nat → ℝ)) :
    shockSwitch 0
        (locals cfg1D Real.sqrt sc 0 (7 / 5) C2Iso (uniform3 1 0 1) (uniform3 (1 / 8) 0 (1 / 10))
          k j i).scrh
        (locals cfg1D Real.sqrt sc 0 (7 / 5) C2Iso (uniform3 1 0 1) (uniform3 (1 / 8) 0 (1 / 10))
          k j i).vL
        (locals cfg1D Real.sqrt sc 0 (7 / 5) C2Iso (uniform3 1 0 1) (uniform3 (1 / 8) 0 (1 / 10))
          k j i).vR = false
      ∧ (ROE_Kernel cfg1D Real.sqrt sc 0 (7 / 5) C2Iso (uniform3 1 0 1)
          (uniform3 (1 / 8) 0 (1 / 10)) dx k j i st).1 0 k j i
        = 45 / 100 / Real.sqrt (4 / 10
            * ((35 / 10 + 28 / 10 * Real.sqrt (125 / 1000)) / (1 + Real.sqrt (125 / 1000))))
      ∧ (ROE_Kernel cfg1D Real.sqrt sc 0 (7 / 5) C2Iso (uniform3 1 0 1)
          (uniform3 (1 / 8) 0 (1 / 10)) dx k j i st).1 1 k j i = 55 / 100
      ∧ (ROE_Kernel cfg1D Real.sqrt sc 0 (7 / 5) C2Iso (uniform3 1 0 1)
          (uniform3 (1 / 8) 0 (1 / 10)) dx k j i st).1 2 k j i
        = 45 / 100 * ((35 / 10 + 28 / 10 * Real.sqrt (125 / 1000)) / (1 + Real.sqrt (125 / 1000)))
          / Real.sqrt (4 / 10
            * ((35 / 10 + 28 / 10 * Real.sqrt (125 / 1000)) / (1 + Real.sqrt (125 / 1000)))) := by
  have hsw : shockSwitch 0
      (locals cfg1D Real.sqrt sc 0 (7 / 5) C2Iso (uniform3 1 0 1) (uniform3 (1 / 8) 0 (1 / 10))
        k j i).scrh
      (locals cfg1D Real.sqrt sc 0 (7 / 5) C2Iso (uniform3 1 0 1) (uniform3 (1 / 8) 0 (1 / 10))
        k j i).vL
      (locals cfg1D Real.sqrt sc 0 (7 / 5) C2Iso (uniform3 1 0 1) (uniform3 (1 / 8) 0 (1 / 10))
        k j i).vR = false := by
    simp only [locals, loadStates_eq, shockSwitch, shockIndicator, cfg1D, NVAR, PRS, VX1,
      uniform3]
    norm_num
  have hN : NVAR cfg1D = 3 := rfl
  have h0 := ROE_Kernel_flux_off cfg1D (by decide) Real.sqrt sc 0 (7 / 5) C2Iso (uniform3 1 0 1)
    (uniform3 (1 / 8) 0 (1 / 10)) dx k j i st hsw 0 (by decide)
  have h1 := ROE_Kernel_flux_off cfg1D (by decide) Real.sqrt sc 0 (7 / 5) C2Iso (uniform3 1 0 1)
    (uniform3 (1 / 8) 0 (1 / 10)) dx k j i st hsw 1 (by decide)
  have h2 := ROE_Kernel_flux_off cfg1D (by decide) Real.sqrt sc 0 (7 / 5) C2Iso (uniform3 1 0 1)
    (uniform3 (1 / 8) 0 (1 / 10)) dx k j i st hsw 2 (by decide)
  simp only [locals] at h0 h1 h2
  have hld := loadStates_eq cfg1D sc (uniform3 1 0 1) (uniform3 (1 / 8) 0 (1 / 10)) k j i
  generalize loadStates cfg1D sc (uniform3 1 0 1) (uniform3 (1 / 8) 0 (1 / 10)) k j i = ld
    at hld h0 h1 h2
  have hvL : ld.1 0 = 1 ∧ ld.1 1 = 0 ∧ ld.1 2 = 1 := by
    simp [hld, hN, uniform3]
  have hvR : ld.2.1 0 = 1 / 8 ∧ ld.2.1 1 = 0 ∧ ld.2.1 2 = 1 / 10 := by
    simp [hld, hN, uniform3]
  have hdv : ld.2.2 0 = 1 / 8 - 1 ∧ ld.2.2 1 = 0 ∧ ld.2.2 2 = 1 / 10 - 1 := by
    simp [hld, hN, uniform3]
  obtain ⟨hvL0, hvL1, hvL2⟩ := hvL
  obtain ⟨hvR0, hvR1, hvR2⟩ := hvR
  obtain ⟨hdv0, hdv1, hdv2⟩ := hdv
  obtain ⟨hum0, hum1, hvel2, hh, ha2, ha⟩ := average1D Real.sqrt sc (7 / 5) ld.1 ld.2.1
  obtain ⟨hl0, hl1, hl2⟩ :=
    eigen1D_lambda sc (average cfg1D Real.sqrt sc (7 / 5) ld.1 ld.2.1) ld.2.2
  obtain ⟨he0, he1, he2⟩ :=
    eigen1D_eta sc (average cfg1D Real.sqrt sc (7 / 5) ld.1 ld.2.1) ld.2.2
  obtain ⟨⟨hr00, hr01, hr02⟩, ⟨hr10, hr11, hr12⟩, ⟨hr20, hr21, hr22⟩⟩ :=
    eigen1D_Rc sc (average cfg1D Real.sqrt sc (7 / 5) ld.1 ld.2.1) ld.2.2
  obtain ⟨hfL0, hfL1, hfL2⟩ := flux1D sc.fluxL sc.uL ld.1 (7 / 5 - 1) C2Iso
  obtain ⟨hfR0, hfR1, hfR2⟩ := flux1D sc.fluxR sc.uR ld.2.1 (7 / 5 - 1) C2Iso
  simp only [hvL0, hvL1, hvL2] at hfL0 hfL1 hfL2
  simp only [hvR0, hvR1, hvR2] at hfR0 hfR1 hfR2
  simp only [hvL0, hvL1, hvL2, hvR0, hvR1, hvR2] at hh hum1 hum0
  have hS0 : (0 : ℝ) ≤ Real.sqrt (1 / 8) := Real.sqrt_nonneg _
  have e18 : (1 / 8 : ℝ) / 1 = 1 / 8 := by norm_num
  have e125 : (125 / 1000 : ℝ) = 1 / 8 := by norm_num
  rw [e18] at hum0 hum1 hh
  rw [e125]
  generalize Real.sqrt (1 / 8) = S at hS0 hum0 hum1 hh ⊢
  obtain ⟨hS1, hHeq, hHge⟩ := sod_scalars S hS0
  have hum1 : (average cfg1D Real.sqrt sc (7 / 5) ld.1 ld.2.1).um 1 = 0 := by
    rw [hum1]; ring
  have hvel2 : (average cfg1D Real.sqrt sc (7 / 5) ld.1 ld.2.1).vel2 = 0 := by
    rw [hvel2, hum1]; ring
  have hh : (average cfg1D Real.sqrt sc (7 / 5) ld.1 ld.2.1).h
      = (35 / 10 + 28 / 10 * S) / (1 + S) := by
    rw [hh, ← hHeq]; ring
  have ha2 : (average cfg1D Real.sqrt sc (7 / 5) ld.1 ld.2.1).a2
      = 4 / 10 * ((35 / 10 + 28 / 10 * S) / (1 + S)) := by
    rw [ha2, hh, hvel2]; ring
  rw [ha2] at ha
  clear hHeq
  generalize (35 / 10 + 28 / 10 * S) / (1 + S) = H at hh ha2 ha hHge ⊢
  obtain ⟨hA1, hAsq⟩ := sod_speed H hHge
  generalize Real.sqrt (4 / 10 * H) = A at ha hA1 hAsq ⊢
  obtain ⟨hab0, hab1, hlt0, hlt1⟩ := abs_large_of_ge_one A hA1
  have hA0 : A ≠ 0 := fun h => by rw [h] at hA1; norm_num at hA1
  have hd0 : dissipation (eigen cfg1D sc 0 (average cfg1D Real.sqrt sc (7 / 5) ld.1 ld.2.1)
      ld.2.2).lambda 0 = A := by
    rw [dissipation, if_pos (by decide), hl0, hum1, ha, fixedMagnitude_of_large _ hlt0, hab0]
  have hd1 : dissipation (eigen cfg1D sc 0 (average cfg1D Real.sqrt sc (7 / 5) ld.1 ld.2.1)
      ld.2.2).lambda 1 = A := by
    rw [dissipation, if_pos (by decide), hl1, hum1, ha, fixedMagnitude_of_large _ hlt1, hab1]
  have hd2 : dissipation (eigen cfg1D sc 0 (average cfg1D Real.sqrt sc (7 / 5) ld.1 ld.2.1)
      ld.2.2).lambda 2 = 0 := by
    rw [dissipation, if_neg (by decide), hl2, hum1, abs_zero]
  refine ⟨hsw, ?_, ?_, ?_⟩
  · rw [h0, hN, Finset.sum_range_succ, Finset.sum_range_succ, Finset.sum_range_succ,
      Finset.sum_range_zero, hd0, hd1, hd2, he0, he1, hr00, hr01, hfL0, hfR0, ha2, ha, hdv1,
      hdv2, ← hAsq]
    field_simp
    ring
  · rw [h1, hN, Finset.sum_range_succ, Finset.sum_range_succ, Finset.sum_range_succ,
      Finset.sum_range_zero, hd0, hd1, hd2, he0, he1, hr10, hr11, hfL1, hfR1, ha2, ha, hdv1,
      hdv2, hum1, ← hAsq]
    field_simp
    ring
  · rw [h2, hN, Finset.sum_range_succ, Finset.sum_range_succ, Finset.sum_range_succ,
      Finset.sum_range_zero, hd0, hd1, hd2, he0, he1, hr20, hr21, hfL2, hfR2, ha2, ha, hdv1,
      hdv2, hum1, hh]
    have hH : H = 10 / 4 * A ^ 2 := by rw [hAsq]; ring
    rw [hH]
    field_simp
    ring

end SodTube

/-! ## Consistency: equal states on both sides -/

section Consistency

theorem K_PrimToCons_congr {F : Type} [LinearOrderedField F] (cfg : Config) (hv : cfg.Valid)
    (U U' V V' : Nat → F) (gamma_m1 : F) (hV : ∀ nv < NVAR cfg, V nv = V' nv)
    (nv : Nat) (hnv : nv < NVAR cfg) :
    K_PrimToCons cfg U V gamma_m1 nv = K_PrimToCons cfg U' V' gamma_m1 nv := by
  obtain ⟨C, D, E, R, vb, mb⟩ := cfg
  obtain ⟨h1, h2, h3⟩ := hv
  simp only at h1 h2 h3
  have hC : C = 1 ∨ C = 2 ∨ C = 3 := by omega
  have hV0 := hV 0
  have hV1 := hV 1
  have hV2 := hV 2
  have hV3 := hV 3
  have hV4 := hV 4
  cases E <;> rcases hC with rfl | rfl | rfl <;> simp only [NVAR] at hnv hV0 hV1 hV2 hV3 hV4 <;>
    interval_cases nv <;>
    simp [K_PrimToCons, EXPAND, EXPANDsum, set1, RHO, VX1, VX2, VX3, MX1, MX2, MX3, PRS, ENG,
      hV0, hV1, hV2, hV3, hV4]

theorem K_Flux_congr {F : Type} [LinearOrderedField F] (cfg : Config) (hv : cfg.Valid)
    (dir : Nat) (hdir : dir < cfg.COMPONENTS) (Fl Fl' V V' U U' : Nat → F) (Cs2Iso : F)
    (hV : ∀ nv < NVAR cfg, V nv = V' nv) (hU : ∀ nv < NVAR cfg, U nv = U' nv)
    (nv : Nat) (hnv : nv < NVAR cfg) :
    K_Flux cfg Fl V U Cs2Iso dir nv = K_Flux cfg Fl' V' U' Cs2Iso dir nv := by
  obtain ⟨C, D, E, R, vb, mb⟩ := cfg
  obtain ⟨h1, h2, h3⟩ := hv
  simp only at h1 h2 h3 hdir
  have hC : C = 1 ∨ C = 2 ∨ C = 3 := by omega
  have hV0 := hV 0
  have hV1 := hV 1
  have hV2 := hV 2
  have hV3 := hV 3
  have hV4 := hV 4
  have hU0 := hU 0
  have hU1 := hU 1
  have hU2 := hU 2
  have hU3 := hU 3
  have hU4 := hU 4
  cases E <;> rcases hC with rfl | rfl | rfl <;>
    simp only [NVAR] at hnv hV0 hV1 hV2 hV3 hV4 hU0 hU1 hU2 hU3 hU4 <;>
    interval_cases dir <;> interval_cases nv <;>
    simp [K_Flux, EXPAND, set1, RHO, VX1, VX2, VX3, MX1, MX2, MX3, PRS, ENG,
      hV0, hV1, hV2, hV3, hV4, hU0, hU1, hU2, hU3, hU4]

/-- For the ideal gas the switch condition of line 261 in terms of the input arrays. -/
theorem shockSwitch_ideal {F : Type} [LinearOrderedField F] (cfg : Config)
    (hE : cfg.EOS = EqOfState.IDEAL) (sqrt : F → F) (sc : Scratch F)
    (dir : Nat) (hdir : dir < cfg.COMPONENTS) (gamma C2Iso : F)
    (PrimL PrimR : Nat → Nat → Nat → Nat → F) (k j i : Nat) :
    shockSwitch dir (locals cfg sqrt sc dir gamma C2Iso PrimL PrimR k j i).scrh
        (locals cfg sqrt sc dir gamma C2Iso PrimL PrimR k j i).vL
        (locals cfg sqrt sc dir gamma C2Iso PrimL PrimR k j i).vR
      = (decide (|PrimR (PRS cfg) k j i - PrimL (PRS cfg) k j i|
            / min (PrimL (PRS cfg) k j i) (PrimR (PRS cfg) k j i) > 1 / 2)
          && decide (PrimR (VX1 + dir) k j i < PrimL (VX1 + dir) k j i)) := by
  have hP : PRS cfg < NVAR cfg := by simp [PRS, NVAR, hE]
  have hV : VX1 + dir < NVAR cfg := by simp only [VX1, NVAR, hE]; omega
  simp only [locals, loadStates_eq, shockSwitch, shockIndicator, hE, if_pos hP, if_pos hV,
    abs_sub_comm (PrimL (PRS cfg) k j i)]

/-- With no jump in the slots below `NVAR` every wave strength vanishes. -/
theorem eigen_eta_zero {F : Type} [LinearOrderedField F] (cfg : Config) (hv : cfg.Valid)
    (hb : cfg.COMPONENTS = 3 → cfg.VXb < NVAR cfg) (sc : Scratch F) (dir : Nat)
    (hdir : dir < cfg.COMPONENTS) (av : Average F) (dv : Nat → F) (hdv : ∀ nv < NVAR cfg, dv nv = 0)
    (m : Nat) (hm : m < NVAR cfg) : (eigen cfg sc dir av dv).eta m = 0 := by
  obtain ⟨C, D, E, R, vb, mb⟩ := cfg
  obtain ⟨h1, h2, h3⟩ := hv
  simp only at h1 h2 h3 hdir hb
  have hC : C = 1 ∨ C = 2 ∨ C = 3 := by omega
  have hb' : C = 3 → dv vb = 0 := fun h => hdv vb (hb h)
  have hd0 := hdv 0
  have hd1 := hdv 1
  have hd2 := hdv 2
  have hd3 := hdv 3
  have hd4 := hdv 4
  cases E <;> rcases hC with rfl | rfl | rfl <;>
    simp only [NVAR] at hm hd0 hd1 hd2 hd3 hd4 <;>
    interval_cases dir <;> interval_cases m <;>
    simp [eigen, shearWave, entropyWave, acousticPlus, acousticMinus, set1, RHO, VX1, VX2, PRS,
      hd0, hd1, hd2, hd3, hd4, hb']

theorem average_same_a2 (cfg : Config) (hv : cfg.Valid) (hE : cfg.EOS = EqOfState.IDEAL)
    (hR : cfg.ROE_AVERAGE = true) (sc : Scratch ℝ) (gamma : ℝ) (hg : 1 < gamma)
    (S vL vR : Nat → ℝ) (hrho : 0 < S RHO)
    (hL : ∀ nv < NVAR cfg, vL nv = S nv) (hRt : ∀ nv < NVAR cfg, vR nv = S nv) :
    (average cfg Real.sqrt sc gamma vL vR).a2 = gamma * S (PRS cfg) / S RHO := by
  obtain ⟨C, D, E, R, vb, mb⟩ := cfg
  obtain ⟨h1, h2, h3⟩ := hv
  simp only at h1 h2 h3 hE hR
  subst hE hR
  have hC : C = 1 ∨ C = 2 ∨ C = 3 := by omega
  have hL0 := hL 0
  have hL1 := hL 1
  have hL2 := hL 2
  have hL3 := hL 3
  have hL4 := hL 4
  have hR0 := hRt 0
  have hR1 := hRt 1
  have hR2 := hRt 2
  have hR3 := hRt 3
  have hR4 := hRt 4
  have hrho' : S 0 ≠ 0 := ne_of_gt hrho
  have hg' : gamma - 1 ≠ 0 := by linarith
  rcases hC with rfl | rfl | rfl <;>
    simp only [NVAR] at hL0 hL1 hL2 hL3 hL4 hR0 hR1 hR2 hR3 hR4 <;>
    simp [average, EXPAND, EXPANDsum, set1, RHO, VX1, VX2, VX3, PRS,
      hL0, hL1, hL2, hL3, hL4, hR0, hR1, hR2, hR3, hR4, hrho'] <;>
    field_simp <;> ring

/-- The kernel evaluated with the same state on both sides of the interface. -/
theorem ROE_Kernel_same_state (cfg : Config) (hv : cfg.Valid) (hE : cfg.EOS = EqOfState.IDEAL)
    (hb : cfg.COMPONENTS = 3 → cfg.VXb < NVAR cfg) (sc : Scratch ℝ) (dir : Nat)
    (hdir : dir < cfg.DIMENSIONS) (gamma C2Iso : ℝ) (hg : 1 < gamma) (S : Nat → ℝ)
    (hrho : 0 < S RHO) (hp : 0 < S (PRS cfg)) (PrimL PrimR : Nat → Nat → Nat → Nat → ℝ)
    (dx : Nat → ℝ) (k j i : Nat) (hL : ∀ nv < NVAR cfg, PrimL nv k j i = S nv)
    (hR : ∀ nv < NVAR cfg, PrimR nv k j i = S nv)
    (st : (Nat → Nat → Nat → Nat → ℝ) × (Nat → Nat → Nat → ℝ)) (F0 U0 : Nat → ℝ) :
    (∀ nv < NVAR cfg,
        (ROE_Kernel cfg Real.sqrt sc dir gamma C2Iso PrimL PrimR dx k j i st).1 nv k j i
          = K_Flux cfg F0 S (K_PrimToCons cfg U0 S (gamma - 1)) C2Iso dir nv)
      ∧ (cfg.ROE_AVERAGE = true →
          (locals cfg Real.sqrt sc dir gamma C2Iso PrimL PrimR k j i).av.a2
              = gamma * S (PRS cfg) / S RHO
            ∧ 0 < (locals cfg Real.sqrt sc dir gamma C2Iso PrimL PrimR k j i).av.a2) := by
  have hdirC : dir < cfg.COMPONENTS := lt_of_lt_of_le hdir hv.2.1
  have hP : PRS cfg < NVAR cfg := by simp [PRS, NVAR, hE]
  have hvL : ∀ nv < NVAR cfg,
      (locals cfg Real.sqrt sc dir gamma C2Iso PrimL PrimR k j i).vL nv = S nv := by
    intro nv hnv
    simp only [locals, loadStates_eq, if_pos hnv, hL nv hnv]
  have hvR : ∀ nv < NVAR cfg,
      (locals cfg Real.sqrt sc dir gamma C2Iso PrimL PrimR k j i).vR nv = S nv := by
    intro nv hnv
    simp only [locals, loadStates_eq, if_pos hnv, hR nv hnv]
  have hdv : ∀ nv < NVAR cfg,
      (locals cfg Real.sqrt sc dir gamma C2Iso PrimL PrimR k j i).dv nv = 0 := by
    intro nv hnv
    simp only [locals, loadStates_eq, if_pos hnv, hL nv hnv, hR nv hnv, sub_self]
  have hsw : shockSwitch dir (locals cfg Real.sqrt sc dir gamma C2Iso PrimL PrimR k j i).scrh
      (locals cfg Real.sqrt sc dir gamma C2Iso PrimL PrimR k j i).vL
      (locals cfg Real.sqrt sc dir gamma C2Iso PrimL PrimR k j i).vR = false := by
    rw [shockSwitch_ideal cfg hE Real.sqrt sc dir hdirC, hL _ hP, hR _ hP]
    simp
  refine ⟨?_, ?_⟩
  · intro nv hnv
    rw [ROE_Kernel_flux_off cfg (NVAR_ge_two cfg hv) Real.sqrt sc dir gamma C2Iso PrimL PrimR dx
      k j i st hsw nv hnv]
    have hsum : ∑ m in Finset.range (NVAR cfg),
        dissipation (locals cfg Real.sqrt sc dir gamma C2Iso PrimL PrimR k j i).eig.lambda m
          * (locals cfg Real.sqrt sc dir gamma C2Iso PrimL PrimR k j i).eig.eta m
          * (locals cfg Real.sqrt sc dir gamma C2Iso PrimL PrimR k j i).eig.Rc nv m = 0 := by
      apply Finset.sum_eq_zero
      intro m hm
      have he : (locals cfg Real.sqrt sc dir gamma C2Iso PrimL PrimR k j i).eig.eta m = 0 :=
        eigen_eta_zero cfg hv hb sc dir hdirC _ _ hdv m (Finset.mem_range.mp hm)
      rw [he]; ring
    have hfL : (locals cfg Real.sqrt sc dir gamma C2Iso PrimL PrimR k j i).fluxL nv
        = K_Flux cfg F0 S (K_PrimToCons cfg U0 S (gamma - 1)) C2Iso dir nv :=
      K_Flux_congr cfg hv dir hdirC _ _ _ _ _ _ C2Iso hvL
        (fun n hn => K_PrimToCons_congr cfg hv _ _ _ _ _ hvL n hn) nv hnv
    have hfR : (locals cfg Real.sqrt sc dir gamma C2Iso PrimL PrimR k j i).fluxR nv
        = K_Flux cfg F0 S (K_PrimToCons cfg U0 S (gamma - 1)) C2Iso dir nv :=
      K_Flux_congr cfg hv dir hdirC _ _ _ _ _ _ C2Iso hvR
        (fun n hn => K_PrimToCons_congr cfg hv _ _ _ _ _ hvR n hn) nv hnv
    rw [hsum, hfL, hfR]
    ring
  · intro hRoe
    have ha2 : (locals cfg Real.sqrt sc dir gamma C2Iso PrimL PrimR k j i).av.a2
        = gamma * S (PRS cfg) / S RHO :=
      average_same_a2 cfg hv hE hRoe sc gamma hg S _ _ hrho hvL hvR
    refine ⟨ha2, ?_⟩
    rw [ha2]
    exact div_pos (mul_pos (by linarith) hp) hrho

/-- C1: consistency.  For the ideal gas, every valid build, every sweep direction and every
state `S` with positive density and pressure (γ > 1), the kernel run with left = right = `S`
writes in every one of the `NVAR` components exactly the analytic flux
`K_Flux(S, K_PrimToCons(S))`; with the Roe average the averaged `a2` is `γ·p/ρ > 0`, so no
division in the wave strengths is by zero. -/
theorem roe_consistency (cfg : Config) (hv : cfg.Valid) (hE : cfg.EOS = EqOfState.IDEAL)
    (hb : cfg.COMPONENTS = 3 → cfg.VXb < NVAR cfg) (sc : Scratch ℝ) (dir : Nat)
    (hdir : dir < cfg.DIMENSIONS) (gamma C2Iso : ℝ) (hg : 1 < gamma) (S : Nat → ℝ)
    (hrho : 0 < S RHO) (hp : 0 < S (PRS cfg)) (PrimL PrimR : Nat → Nat → Nat → Nat → ℝ)
    (dx : Nat → ℝ) (k j i : Nat) (hL : ∀ nv < NVAR cfg, PrimL nv k j i = S nv)
    (hR : ∀ nv < NVAR cfg, PrimR nv k j i = S nv)
    (st : (Nat → Nat → Nat → Nat → ℝ) × (Nat → Nat → Nat → ℝ)) (F0 U0 : Nat → ℝ) :
    (∀ nv < NVAR cfg,
        (ROE_Kernel cfg Real.sqrt sc dir gamma C2Iso PrimL PrimR dx k j i st).1 nv k j i
          = K_Flux cfg F0 S (K_PrimToCons cfg U0 S (gamma - 1)) C2Iso dir nv)
      ∧ (cfg.ROE_AVERAGE = true →
          (locals cfg Real.sqrt sc dir gamma C2Iso PrimL PrimR k j i).av.a2
              = gamma * S (PRS cfg) / S RHO
            ∧ 0 < (locals cfg Real.sqrt sc dir gamma C2Iso PrimL PrimR k j i).av.a2) :=
  ROE_Kernel_same_state cfg hv hE hb sc dir hdir gamma C2Iso hg S hrho hp PrimL PrimR dx k j i hL hR
    st F0 U0

/-- Witness of `roe_consistency`: the 1-D build at `S = (ρ 1, v 2, p 3)`, whose analytic flux
is `(2, 7, 25)` for γ = 1.4. -/
theorem roe_consistency_witness :
    (ROE_Kernel cfg1D Real.sqrt (constScratch 0) 0 (7 / 5) 1 (uniform3 1 2 3) (uniform3 1 2 3)
        (fun _ => 1) 0 0 0 (fun _ _ _ _ => 0, fun _ _ _ => 0)).1 0 0 0 0 = 2
      ∧ (ROE_Kernel cfg1D Real.sqrt (constScratch 0) 0 (7 / 5) 1 (uniform3 1 2 3)
        (uniform3 1 2 3) (fun _ => 1) 0 0 0 (fun _ _ _ _ => 0, fun _ _ _ => 0)).1 1 0 0 0 = 7
      ∧ (ROE_Kernel cfg1D Real.sqrt (constScratch 0) 0 (7 / 5) 1 (uniform3 1 2 3)
        (uniform3 1 2 3) (fun _ => 1) 0 0 0 (fun _ _ _ _ => 0, fun _ _ _ => 0)).1 2 0 0 0
          = 25 := by
  have h := (roe_consistency cfg1D (by decide) rfl (by decide) (constScratch 0) 0 (by decide)
    (7 / 5) 1 (by norm_num) (fun nv => uniform3 (1 : ℝ) 2 3 nv 0 0 0)
    (by norm_num [uniform3, RHO]) (by norm_num [uniform3, PRS, cfg1D])
    (uniform3 1 2 3) (uniform3 1 2 3) (fun _ => 1) 0 0 0 (fun _ _ => rfl) (fun _ _ => rfl)
    (fun _ _ _ _ => 0, fun _ _ _ => 0) (fun _ => 0) (fun _ => 0)).1
  obtain ⟨f0, f1, f2⟩ := flux1D (fun _ => (0 : ℝ)) (fun _ => 0)
    (fun nv => uniform3 (1 : ℝ) 2 3 nv 0 0 0) (7 / 5 - 1) 1
  refine ⟨?_, ?_, ?_⟩
  · rw [h 0 (by decide), f0]; norm_num [uniform3]
  · rw [h 1 (by decide), f1]; norm_num [uniform3]
  · rw [h 2 (by decide), f2]; norm_num [uniform3]

end Consistency

/-! ## Reflection symmetry of the characteristic branch -/

section Reflection

theorem sqrt_swap (x y : ℝ) (hx : 0 < x) (hy : 0 < y) :
    0 < Real.sqrt (y / x) ∧ Real.sqrt (x / y) = 1 / Real.sqrt (y / x)
      ∧ y = x * Real.sqrt (y / x) ^ 2 := by
  have h1 : 0 < y / x := div_pos hy hx
  refine ⟨Real.sqrt_pos.mpr h1, ?_, ?_⟩
  · rw [one_div, ← Real.sqrt_inv, inv_div]
  · rw [Real.sq_sqrt (le_of_lt h1)]; field_simp

theorem EXPAND_one {σ : Type} (D : Nat) (E : EqOfState) (R : Bool) (vb mb : Nat)
    (a b c : σ → σ) (s : σ) : EXPAND ⟨1, D, E, R, vb, mb⟩ a b c s = a s := rfl

theorem EXPAND_two {σ : Type} (D : Nat) (E : EqOfState) (R : Bool) (vb mb : Nat)
    (a b c : σ → σ) (s : σ) : EXPAND ⟨2, D, E, R, vb, mb⟩ a b c s = b (a s) := rfl

theorem EXPAND_three {σ : Type} (D : Nat) (E : EqOfState) (R : Bool) (vb mb : Nat)
    (a b c : σ → σ) (s : σ) : EXPAND ⟨3, D, E, R, vb, mb⟩ a b c s = c (b (a s)) := rfl

theorem EXPANDsum_one {F : Type} [LinearOrderedField F] (D : Nat) (E : EqOfState) (R : Bool)
    (vb mb : Nat) (a b c : F) : EXPANDsum ⟨1, D, E, R, vb, mb⟩ a b c = a := rfl

theorem EXPANDsum_two {F : Type} [LinearOrderedField F] (D : Nat) (E : EqOfState) (R : Bool)
    (vb mb : Nat) (a b c : F) : EXPANDsum ⟨2, D, E, R, vb, mb⟩ a b c = a + b := rfl

theorem EXPANDsum_three {F : Type} [LinearOrderedField F] (D : Nat) (E : EqOfState) (R : Bool)
    (vb mb : Nat) (a b c : F) : EXPANDsum ⟨3, D, E, R, vb, mb⟩ a b c = a + b + c := rfl

/-- The ideal-gas Roe average (lines 74-108) in closed form. -/
theorem average_ideal_roe {F : Type} [LinearOrderedField F] (cfg : Config) (hv : cfg.Valid)
    (hE : cfg.EOS = EqOfState.IDEAL) (hR : cfg.ROE_AVERAGE = true) (sqrt : F → F)
    (sc : Scratch F) (gamma : F) (vL vR : Nat → F) :
    (average cfg sqrt sc gamma vL vR).um 0 = vL 0 * sqrt (vR 0 / vL 0)
      ∧ (∀ n, 1 ≤ n → n ≤ cfg.COMPONENTS → (average cfg sqrt sc gamma vL vR).um n
          = 1 / (1 + sqrt (vR 0 / vL 0)) * vL n + (1 - 1 / (1 + sqrt (vR 0 / vL 0))) * vR n)
      ∧ (average cfg sqrt sc gamma vL vR).vel2
          = EXPANDsum cfg
              ((average cfg sqrt sc gamma vL vR).um 1 * (average cfg sqrt sc gamma vL vR).um 1)
              ((average cfg sqrt sc gamma vL vR).um 2 * (average cfg sqrt sc gamma vL vR).um 2)
              ((average cfg sqrt sc gamma vL vR).um 3 * (average cfg sqrt sc gamma vL vR).um 3)
      ∧ (average cfg sqrt sc gamma vL vR).h
          = 1 / (1 + sqrt (vR 0 / vL 0))
              * (1 / 2 * EXPANDsum cfg (vL 1 * vL 1) (vL 2 * vL 2) (vL 3 * vL 3)
                + gamma * vL (PRS cfg) / vL 0 * (1 / (gamma - 1)))
            + (1 - 1 / (1 + sqrt (vR 0 / vL 0)))
              * (1 / 2 * EXPANDsum cfg (vR 1 * vR 1) (vR 2 * vR 2) (vR 3 * vR 3)
                + gamma * vR (PRS cfg) / vR 0 * (1 / (gamma - 1)))
      ∧ (average cfg sqrt sc gamma vL vR).a2
          = (gamma - 1) * ((average cfg sqrt sc gamma vL vR).h
              - 1 / 2 * (average cfg sqrt sc gamma vL vR).vel2)
      ∧ (average cfg sqrt sc gamma vL vR).a = sqrt (average cfg sqrt sc gamma vL vR).a2 := by
  obtain ⟨C, D, E, R, vb, mb⟩ := cfg
  obtain ⟨h1, h2, h3⟩ := hv
  simp only at h1 h2 h3 hE hR
  subst hE hR
  have hC : C = 1 ∨ C = 2 ∨ C = 3 := by omega
  rcases hC with rfl | rfl | rfl
  · refine ⟨rfl, ?_, rfl, rfl, rfl, rfl⟩
    intro n hn1 hn2
    simp only at hn2
    have hn : n = 1 := by omega
    subst hn
    rfl
  · refine ⟨rfl, ?_, rfl, rfl, rfl, rfl⟩
    intro n hn1 hn2
    simp only at hn2
    have hn : n = 1 ∨ n = 2 := by omega
    rcases hn with rfl | rfl <;> rfl
  · refine ⟨rfl, ?_, rfl, rfl, rfl, rfl⟩
    intro n hn1 hn2
    simp only at hn2
    have hn : n = 1 ∨ n = 2 ∨ n = 3 := by omega
    rcases hn with rfl | rfl | rfl <;> rfl

theorem clearRow_apply {F : Type} [LinearOrderedField F] (nv1 n : Nat) (Rc : Nat → Nat → F)
    (a b : Nat) :
    forLoop (fun nv2 Rc => set2 Rc nv1 nv2 (0 : F)) n Rc a b
      = if a = nv1 ∧ b < n then 0 else Rc a b := by
  induction n with
  | zero => simp [forLoop]
  | succ n ih =>
    simp only [forLoop, set2, ih]
    by_cases h1 : a = nv1
    · by_cases h2 : b = n
      · subst h2; simp [h1]
      · by_cases h3 : b < n
        · simp [h1, h2, h3, Nat.lt_succ_of_lt h3]
        · have h4 : ¬ b < n + 1 := by omega
          simp [h1, h2, h3, h4]
    · simp [h1]

theorem clearRc_apply {F : Type} [LinearOrderedField F] (cfg : Config) (Rc : Nat → Nat → F)
    (a b : Nat) :
    clearRc cfg Rc a b = if a < NVAR cfg ∧ b < NVAR cfg then 0 else Rc a b := by
  unfold clearRc
  generalize hN : NVAR cfg = N
  have key : ∀ n, forLoop (fun nv1 Rc => forLoop (fun nv2 Rc => set2 Rc nv1 nv2 (0 : F)) N Rc)
      n Rc a b = if a < n ∧ b < N then 0 else Rc a b := by
    intro n
    induction n with
    | zero => simp [forLoop]
    | succ n ih =>
      simp only [forLoop, clearRow_apply, ih]
      by_cases h1 : a = n
      · subst h1
        by_cases h2 : b < N
        · simp [h2]
        · simp [h2]
      · by_cases h3 : a < n
        · simp [h1, h3, Nat.lt_succ_of_lt h3]
        · have h4 : ¬ a < n + 1 := by omega
          simp [h1, h3, h4]
  exact key N

theorem fixedMagnitude_neg {F : Type} [LinearOrderedField F] (x : F) :
    fixedMagnitude (-x) = fixedMagnitude x := by
  unfold fixedMagnitude
  rw [abs_neg, neg_sq]

theorem eigen_lambda_rest {F : Type} [LinearOrderedField F] (cfg : Config) (hv : cfg.Valid)
    (hE : cfg.EOS = EqOfState.IDEAL) (sc : Scratch F) (dir : Nat) (av : Average F)
    (dv : Nat → F) (m : Nat) (hm2 : 2 ≤ m) (hm : m < NVAR cfg) :
    (eigen cfg sc dir av dv).lambda m = av.um (VX1 + dir) := by
  obtain ⟨C, D, E, R, vb, mb⟩ := cfg
  obtain ⟨h1, h2, h3⟩ := hv
  simp only at h1 h2 h3 hE
  subst hE
  have hC : C = 1 ∨ C = 2 ∨ C = 3 := by omega
  rcases hC with rfl | rfl | rfl <;> simp only [NVAR] at hm <;> interval_cases m <;>
    simp [eigen, shearWave, entropyWave, acousticPlus, acousticMinus, set1]

theorem dissipation_reflect {F : Type} [LinearOrderedField F] (cfg : Config) (hv : cfg.Valid)
    (hE : cfg.EOS = EqOfState.IDEAL) (sc sc' : Scratch F) (dir : Nat) (av av' : Average F)
    (dv dv' : Nat → F) (hn : av'.um (VX1 + dir) = -av.um (VX1 + dir)) (ha : av'.a = av.a) :
    dissipation (eigen cfg sc' dir av' dv').lambda 0 = dissipation (eigen cfg sc dir av dv).lambda 1
      ∧ dissipation (eigen cfg sc' dir av' dv').lambda 1
          = dissipation (eigen cfg sc dir av dv).lambda 0
      ∧ ∀ m, 2 ≤ m → m < NVAR cfg →
          dissipation (eigen cfg sc' dir av' dv').lambda m
            = dissipation (eigen cfg sc dir av dv).lambda m := by
  obtain ⟨hl0, hl1⟩ := eigen_lambda_acoustic cfg sc dir av dv
  obtain ⟨hl0', hl1'⟩ := eigen_lambda_acoustic cfg sc' dir av' dv'
  refine ⟨?_, ?_, ?_⟩
  · rw [dissipation, dissipation, if_pos (by decide), if_pos (by decide), hl0', hl1, hn, ha,
      ← fixedMagnitude_neg (av.um (VX1 + dir) + av.a)]
    congr 1; ring
  · rw [dissipation, dissipation, if_pos (by decide), if_pos (by decide), hl1', hl0, hn, ha,
      ← fixedMagnitude_neg (av.um (VX1 + dir) - av.a)]
    congr 1; ring
  · intro m hm2 hm
    have h2 : ¬ m < 2 := by omega
    rw [dissipation, dissipation, if_neg h2, if_neg h2, eigen_lambda_rest cfg hv hE sc' dir av' dv'
      m hm2 hm, eigen_lambda_rest cfg hv hE sc dir av dv m hm2 hm, hn, abs_neg]

set_option maxHeartbeats 2000000 in
/-- The analytic flux of the mirrored state. -/
theorem K_Flux_reflect {F : Type} [LinearOrderedField F] (cfg : Config) (hv : cfg.Valid)
    (hE : cfg.EOS = EqOfState.IDEAL) (dir : Nat) (hdir : dir < cfg.COMPONENTS)
    (Fl Fl' U U' V V' : Nat → F) (gamma_m1 Cs2Iso : F)
    (hV : ∀ nv < NVAR cfg, V' nv = (if nv = VX1 + dir then -1 else 1) * V nv)
    (nv : Nat) (hnv : nv < NVAR cfg) :
    K_Flux cfg Fl' V' (K_PrimToCons cfg U' V' gamma_m1) Cs2Iso dir nv
      = -((if nv = VX1 + dir then -1 else 1)
          * K_Flux cfg Fl V (K_PrimToCons cfg U V gamma_m1) Cs2Iso dir nv) := by
  obtain ⟨C, D, E, R, vb, mb⟩ := cfg
  obtain ⟨h1, h2, h3⟩ := hv
  simp only at h1 h2 h3 hE hdir
  subst hE
  have hC : C = 1 ∨ C = 2 ∨ C = 3 := by omega
  have hV0 := hV 0
  have hV1 := hV 1
  have hV2 := hV 2
  have hV3 := hV 3
  have hV4 := hV 4
  rcases hC with rfl | rfl | rfl
  · simp only [NVAR, Nat.reduceAdd, Nat.reduceLT, true_implies] at hnv hV0 hV1 hV2 hV3 hV4
    interval_cases dir <;> interval_cases nv <;>
      simp [K_Flux, K_PrimToCons, EXPAND_one, EXPANDsum_one, set1, RHO, VX1, MX1, PRS, ENG,
        hV0, hV1, hV2]
  · simp only [NVAR, Nat.reduceAdd, Nat.reduceLT, true_implies] at hnv hV0 hV1 hV2 hV3 hV4
    interval_cases dir <;> interval_cases nv <;>
      simp [K_Flux, K_PrimToCons, EXPAND_two, EXPANDsum_two, set1, RHO, VX1, VX2, MX1, MX2, PRS,
        ENG, hV0, hV1, hV2, hV3]
  · simp only [NVAR, Nat.reduceAdd, Nat.reduceLT, true_implies] at hnv hV0 hV1 hV2 hV3 hV4
    interval_cases dir <;> interval_cases nv <;>
      simp [K_Flux, K_PrimToCons, EXPAND_three, EXPANDsum_three, set1, RHO, VX1, VX2, VX3, MX1,
        MX2, MX3, PRS, ENG, hV0, hV1, hV2, hV3, hV4]

theorem roe_weights_swap (s : ℝ) (hs : 0 < s) :
    1 / (1 + 1 / s) = 1 - 1 / (1 + s) ∧ 1 - 1 / (1 + 1 / s) = 1 / (1 + s) := by
  have h1 : (1 : ℝ) + s ≠ 0 := by linarith
  have h2 : s ≠ 0 := ne_of_gt hs
  have e0 : 1 + 1 / s = (1 + s) / s := by
    rw [eq_div_iff h2, add_mul, one_div, inv_mul_cancel₀ h2, one_mul, add_comm]
  have e1 : 1 / (1 + 1 / s) = s / (1 + s) := by rw [e0, one_div_div]
  have e2 : 1 - 1 / (1 + s) = s / (1 + s) := by
    rw [eq_div_iff h1, sub_mul, one_div, inv_mul_cancel₀ h1]; ring
  refine ⟨by rw [e1, e2], ?_⟩
  rw [e1, ← e2]; ring

set_option maxHeartbeats 2000000 in
/-- The Roe average of the mirrored pair: the swept velocity changes sign, everything else is
unchanged. -/
theorem average_reflect (cfg : Config) (hv : cfg.Valid) (hE : cfg.EOS = EqOfState.IDEAL)
    (hR : cfg.ROE_AVERAGE = true) (sc sc' : Scratch ℝ) (gamma : ℝ) (dir : Nat)
    (hdir : dir < cfg.COMPONENTS) (vL vR vL' vR' : Nat → ℝ) (hL0 : 0 < vL 0) (hR0 : 0 < vR 0)
    (hL : ∀ nv < NVAR cfg, vL' nv = (if nv = VX1 + dir then -1 else 1) * vR nv)
    (hRt : ∀ nv < NVAR cfg, vR' nv = (if nv = VX1 + dir then -1 else 1) * vL nv) :
    (average cfg Real.sqrt sc' gamma vL' vR').um 0 = (average cfg Real.sqrt sc gamma vL vR).um 0
      ∧ (∀ n, 1 ≤ n → n ≤ cfg.COMPONENTS → (average cfg Real.sqrt sc' gamma vL' vR').um n
          = (if n = VX1 + dir then -1 else 1) * (average cfg Real.sqrt sc gamma vL vR).um n)
      ∧ (average cfg Real.sqrt sc' gamma vL' vR').h = (average cfg Real.sqrt sc gamma vL vR).h
      ∧ (average cfg Real.sqrt sc' gamma vL' vR').a = (average cfg Real.sqrt sc gamma vL vR).a
      ∧ (average cfg Real.sqrt sc' gamma vL' vR').a2 = (average cfg Real.sqrt sc gamma vL vR).a2
      ∧ (average cfg Real.sqrt sc' gamma vL' vR').vel2
          = (average cfg Real.sqrt sc gamma vL vR).vel2 := by
  obtain ⟨hu0, hun, hvel, hh, ha2, ha⟩ := average_ideal_roe cfg hv hE hR Real.sqrt sc gamma vL vR
  obtain ⟨hu0', hun', hvel', hh', ha2', ha'⟩ :=
    average_ideal_roe cfg hv hE hR Real.sqrt sc' gamma vL' vR'
  have hN0 : 0 < NVAR cfg := by have := NVAR_ge_two cfg hv; omega
  have hP : PRS cfg < NVAR cfg := by simp [PRS, NVAR, hE]
  have hPn : PRS cfg ≠ VX1 + dir := by simp only [PRS, VX1]; omega
  have h0n : (0 : Nat) ≠ VX1 + dir := by simp only [VX1]; omega
  have hvL0 : vL' 0 = vR 0 := by rw [hL 0 hN0, if_neg h0n, one_mul]
  have hvR0 : vR' 0 = vL 0 := by rw [hRt 0 hN0, if_neg h0n, one_mul]
  have hvLP : vL' (PRS cfg) = vR (PRS cfg) := by rw [hL _ hP, if_neg hPn, one_mul]
  have hvRP : vR' (PRS cfg) = vL (PRS cfg) := by rw [hRt _ hP, if_neg hPn, one_mul]
  obtain ⟨hs, hsw, hrho⟩ := sqrt_swap (vL 0) (vR 0) hL0 hR0
  rw [hvL0, hvR0, hsw] at hu0' hun' hh'
  rw [hvLP, hvRP] at hh'
  obtain ⟨hw1, hw2⟩ := roe_weights_swap _ hs
  rw [hw2, hw1] at hun' hh'
  generalize Real.sqrt (vR 0 / vL 0) = s at *
  have hs0 : s ≠ 0 := ne_of_gt hs
  have key0 : (average cfg Real.sqrt sc' gamma vL' vR').um 0
      = (average cfg Real.sqrt sc gamma vL vR).um 0 := by
    rw [hu0', hu0]
    rw [hrho]; field_simp; ring
  have keyn : ∀ n, 1 ≤ n → n ≤ cfg.COMPONENTS → (average cfg Real.sqrt sc' gamma vL' vR').um n
      = (if n = VX1 + dir then -1 else 1) * (average cfg Real.sqrt sc gamma vL vR).um n := by
    intro n hn1 hn2
    have hnN : n < NVAR cfg := by simp only [NVAR, hE]; omega
    rw [hun' n hn1 hn2, hun n hn1 hn2, hL n hnN, hRt n hnN]
    ring
  have keyv : (average cfg Real.sqrt sc' gamma vL' vR').vel2
      = (average cfg Real.sqrt sc gamma vL vR).vel2 := by
    rw [hvel', hvel]
    obtain ⟨C, D, E, R, vb, mb⟩ := cfg
    obtain ⟨h1, h2, h3⟩ := hv
    simp only at h1 h2 h3 hdir keyn
    have hC : C = 1 ∨ C = 2 ∨ C = 3 := by omega
    have k1 := keyn 1 (le_refl 1)
    have k2 := keyn 2 (by decide)
    have k3 := keyn 3 (by decide)
    rcases hC with rfl | rfl | rfl
    · simp only [Nat.reduceLeDiff, true_implies] at k1
      rw [EXPANDsum_one, EXPANDsum_one, k1]
      split_ifs <;> ring
    · simp only [Nat.reduceLeDiff, true_implies] at k1 k2
      rw [EXPANDsum_two, EXPANDsum_two, k1, k2]
      split_ifs <;> ring
    · simp only [Nat.reduceLeDiff, true_implies] at k1 k2 k3
      rw [EXPANDsum_three, EXPANDsum_three, k1, k2, k3]
      split_ifs <;> ring
  have keyh : (average cfg Real.sqrt sc' gamma vL' vR').h
      = (average cfg Real.sqrt sc gamma vL vR).h := by
    rw [hh', hh]
    have hsq : EXPANDsum cfg (vL' 1 * vL' 1) (vL' 2 * vL' 2) (vL' 3 * vL' 3)
          = EXPANDsum cfg (vR 1 * vR 1) (vR 2 * vR 2) (vR 3 * vR 3)
        ∧ EXPANDsum cfg (vR' 1 * vR' 1) (vR' 2 * vR' 2) (vR' 3 * vR' 3)
          = EXPANDsum cfg (vL 1 * vL 1) (vL 2 * vL 2) (vL 3 * vL 3) := by
      obtain ⟨C, D, E, R, vb, mb⟩ := cfg
      obtain ⟨h1, h2, h3⟩ := hv
      simp only at h1 h2 h3 hdir hE
      subst hE
      have hC : C = 1 ∨ C = 2 ∨ C = 3 := by omega
      have l1 := hL 1
      have l2 := hL 2
      have l3 := hL 3
      have r1 := hRt 1
      have r2 := hRt 2
      have r3 := hRt 3
      rcases hC with rfl | rfl | rfl
      · simp only [NVAR, Nat.reduceAdd, Nat.reduceLT, true_implies] at l1 r1
        rw [EXPANDsum_one, EXPANDsum_one, EXPANDsum_one, EXPANDsum_one, l1, r1]
        constructor <;> split_ifs <;> ring
      · simp only [NVAR, Nat.reduceAdd, Nat.reduceLT, true_implies] at l1 r1 l2 r2
        rw [EXPANDsum_two, EXPANDsum_two, EXPANDsum_two, EXPANDsum_two, l1, r1, l2, r2]
        constructor <;> split_ifs <;> ring
      · simp only [NVAR, Nat.reduceAdd, Nat.reduceLT, true_implies] at l1 r1 l2 r2 l3 r3
        rw [EXPANDsum_three, EXPANDsum_three, EXPANDsum_three, EXPANDsum_three, l1, r1, l2, r2,
          l3, r3]
        constructor <;> split_ifs <;> ring
    rw [hsq.1, hsq.2]
    ring
  have keya2 : (average cfg Real.sqrt sc' gamma vL' vR').a2
      = (average cfg Real.sqrt sc gamma vL vR).a2 := by
    rw [ha2', ha2, keyh, keyv]
  exact ⟨key0, keyn, keyh, by rw [ha', ha, keya2], keya2, keyv⟩

set_option maxHeartbeats 4000000 in
theorem eigen_sum_reflect {F : Type} [LinearOrderedField F] (cfg : Config) (hv : cfg.Valid)
    (hE : cfg.EOS = EqOfState.IDEAL)
    (hb : cfg.COMPONENTS = 3 → cfg.MXb = cfg.VXb ∧ 1 ≤ cfg.VXb ∧ cfg.VXb ≤ 3)
    (sc sc' : Scratch F) (dir : Nat) (hdir : dir < cfg.COMPONENTS) (av av' : Average F)
    (dv dv' : Nat → F) (h0 : av'.um 0 = av.um 0)
    (hum : ∀ n, 1 ≤ n → n ≤ cfg.COMPONENTS →
      av'.um n = (if n = VX1 + dir then -1 else 1) * av.um n)
    (hh : av'.h = av.h) (ha : av'.a = av.a) (ha2 : av'.a2 = av.a2) (hvel2 : av'.vel2 = av.vel2)
    (hdv : ∀ nv < NVAR cfg, dv' nv = -((if nv = VX1 + dir then -1 else 1) * dv nv))
    (nv : Nat) (hnv : nv < NVAR cfg) :
    ∑ m in Finset.range (NVAR cfg), dissipation (eigen cfg sc' dir av' dv').lambda m
        * (eigen cfg sc' dir av' dv').eta m * (eigen cfg sc' dir av' dv').Rc nv m
      = -((if nv = VX1 + dir then -1 else 1)
          * ∑ m in Finset.range (NVAR cfg), dissipation (eigen cfg sc dir av dv).lambda m
              * (eigen cfg sc dir av dv).eta m * (eigen cfg sc dir av dv).Rc nv m) := by
  have hn : av'.um (VX1 + dir) = -av.um (VX1 + dir) := by
    rw [hum (VX1 + dir) (by simp [VX1]) (by simp only [VX1]; omega)]; simp
  obtain ⟨hc0, hc1, hcm⟩ := dissipation_reflect cfg hv hE sc sc' dir av av' dv dv' hn ha
  have hc2 := hcm 2 (le_refl 2)
  have hc3 := hcm 3 (by decide)
  have hc4 := hcm 4 (by decide)
  clear hcm
  obtain ⟨C, D, E, R, vb, mb⟩ := cfg
  obtain ⟨h1, h2, h3⟩ := hv
  simp only at h1 h2 h3 hE hdir hb
  subst hE
  have hC : C = 1 ∨ C = 2 ∨ C = 3 := by omega
  have hu1 := hum 1 (le_refl 1)
  have hu2 := hum 2 (by decide)
  have hd0 := hdv 0
  have hd1 := hdv 1
  have hd2 := hdv 2
  have hu3 := hum 3 (by decide)
  have hd3 := hdv 3
  have hd4 := hdv 4
  rcases hC with rfl | rfl | rfl
  · simp only [NVAR, Nat.reduceAdd, Nat.reduceLT, Nat.reduceLeDiff, true_implies] at hnv hc2 hc3 hc4 hu1 hu2 hu3 hd0 hd1 hd2 hd3 hd4 ⊢
    have hdir0 : dir = 0 := by omega
    subst hdir0
    simp only [Finset.sum_range_succ, Finset.sum_range_zero, hc0, hc1, hc2, zero_add]
    generalize dissipation (eigen ⟨1, D, EqOfState.IDEAL, R, vb, mb⟩ sc 0 av dv).lambda 0 = c0
    generalize dissipation (eigen ⟨1, D, EqOfState.IDEAL, R, vb, mb⟩ sc 0 av dv).lambda 1 = c1
    generalize dissipation (eigen ⟨1, D, EqOfState.IDEAL, R, vb, mb⟩ sc 0 av dv).lambda 2 = c2
    interval_cases nv <;>
      simp [eigen, entropyWave, acousticPlus, acousticMinus, set1, set2, EXPAND_one,
        RHO, VX1, MX1, PRS, ENG, h0, hh, ha, ha2, hvel2, hu1, hd0, hd1, hd2] <;> ring
  · simp only [NVAR, Nat.reduceAdd, Nat.reduceLT, Nat.reduceLeDiff, true_implies]
      at hnv hc2 hc3 hc4 hu1 hu2 hu3 hd0 hd1 hd2 hd3 hd4 ⊢
    simp only [Finset.sum_range_succ, Finset.sum_range_zero, hc0, hc1, hc2, hc3, zero_add]
    generalize dissipation (eigen ⟨2, D, EqOfState.IDEAL, R, vb, mb⟩ sc dir av dv).lambda 0 = c0
    generalize dissipation (eigen ⟨2, D, EqOfState.IDEAL, R, vb, mb⟩ sc dir av dv).lambda 1 = c1
    generalize dissipation (eigen ⟨2, D, EqOfState.IDEAL, R, vb, mb⟩ sc dir av dv).lambda 2 = c2
    generalize dissipation (eigen ⟨2, D, EqOfState.IDEAL, R, vb, mb⟩ sc dir av dv).lambda 3 = c3
    interval_cases dir <;> interval_cases nv <;>
      simp [eigen, shearWave, entropyWave, acousticPlus, acousticMinus, set1, set2, EXPAND_two,
        clearRc_apply, NVAR,
        RHO, VX1, VX2, MX1, MX2, PRS, ENG, h0, hh, ha, ha2, hvel2, hu1, hu2, hd0, hd1, hd2,
        hd3] <;> ring
  · simp only [NVAR, Nat.reduceAdd, Nat.reduceLT, Nat.reduceLeDiff, true_implies]
      at hnv hc2 hc3 hc4 hu1 hu2 hu3 hd0 hd1 hd2 hd3 hd4 hb ⊢
    obtain ⟨rfl, hb1, hb3⟩ := hb
    simp only [Finset.sum_range_succ, Finset.sum_range_zero, hc0, hc1, hc2, hc3, hc4, zero_add]
    generalize dissipation (eigen ⟨3, D, EqOfState.IDEAL, R, mb, mb⟩ sc dir av dv).lambda 0 = c0
    generalize dissipation (eigen ⟨3, D, EqOfState.IDEAL, R, mb, mb⟩ sc dir av dv).lambda 1 = c1
    generalize dissipation (eigen ⟨3, D, EqOfState.IDEAL, R, mb, mb⟩ sc dir av dv).lambda 2 = c2
    generalize dissipation (eigen ⟨3, D, EqOfState.IDEAL, R, mb, mb⟩ sc dir av dv).lambda 3 = c3
    generalize dissipation (eigen ⟨3, D, EqOfState.IDEAL, R, mb, mb⟩ sc dir av dv).lambda 4 = c4
    interval_cases mb <;> interval_cases dir <;> interval_cases nv <;>
      simp [eigen, shearWave, entropyWave, acousticPlus, acousticMinus, set1, set2,
        clearRc_apply, NVAR,
        EXPAND_three, RHO, VX1, VX2, VX3, MX1, MX2, MX3, PRS, ENG, h0, hh, ha, ha2, hvel2, hu1,
        hu2, hu3, hd0, hd1, hd2, hd3, hd4] <;> ring

/-- The mirrored pair run through the kernel (shared by the reflection theorems). -/
theorem ROE_Kernel_reflect (cfg : Config) (hv : cfg.Valid) (hE : cfg.EOS = EqOfState.IDEAL)
    (hR : cfg.ROE_AVERAGE = true)
    (hb : cfg.COMPONENTS = 3 → cfg.MXb = cfg.VXb ∧ 1 ≤ cfg.VXb ∧ cfg.VXb ≤ 3)
    (sc sc' : Scratch ℝ) (dir : Nat) (hdir : dir < cfg.DIMENSIONS) (gamma C2Iso : ℝ)
    (PrimL PrimR : Nat → Nat → Nat → Nat → ℝ) (dx dx' : Nat → ℝ) (k j i : Nat)
    (hrhoL : 0 < PrimL RHO k j i) (hrhoR : 0 < PrimR RHO k j i)
    (st st' : (Nat → Nat → Nat → Nat → ℝ) × (Nat → Nat → Nat → ℝ))
    (hsw : shockSwitch dir (locals cfg Real.sqrt sc dir gamma C2Iso PrimL PrimR k j i).scrh
      (locals cfg Real.sqrt sc dir gamma C2Iso PrimL PrimR k j i).vL
      (locals cfg Real.sqrt sc dir gamma C2Iso PrimL PrimR k j i).vR = false) :
    shockSwitch dir
        (locals cfg Real.sqrt sc' dir gamma C2Iso (reflectPrim dir PrimR) (reflectPrim dir PrimL)
          k j i).scrh
        (locals cfg Real.sqrt sc' dir gamma C2Iso (reflectPrim dir PrimR) (reflectPrim dir PrimL)
          k j i).vL
        (locals cfg Real.sqrt sc' dir gamma C2Iso (reflectPrim dir PrimR) (reflectPrim dir PrimL)
          k j i).vR = false
      ∧ ∀ nv < NVAR cfg,
          (ROE_Kernel cfg Real.sqrt sc' dir gamma C2Iso (reflectPrim dir PrimR)
              (reflectPrim dir PrimL) dx' k j i st').1 nv k j i
            = if nv = VX1 + dir
              then (ROE_Kernel cfg Real.sqrt sc dir gamma C2Iso PrimL PrimR dx k j i st).1 nv k j i
              else -(ROE_Kernel cfg Real.sqrt sc dir gamma C2Iso PrimL PrimR dx k j i st).1
                nv k j i := by
  have hdirC : dir < cfg.COMPONENTS := lt_of_lt_of_le hdir hv.2.1
  have hN := NVAR_ge_two cfg hv
  have hP : PRS cfg < NVAR cfg := by simp [PRS, NVAR, hE]
  have hPn : PRS cfg ≠ VX1 + dir := by simp only [PRS, VX1]; omega
  have hsw' : shockSwitch dir
      (locals cfg Real.sqrt sc' dir gamma C2Iso (reflectPrim dir PrimR) (reflectPrim dir PrimL)
        k j i).scrh
      (locals cfg Real.sqrt sc' dir gamma C2Iso (reflectPrim dir PrimR) (reflectPrim dir PrimL)
        k j i).vL
      (locals cfg Real.sqrt sc' dir gamma C2Iso (reflectPrim dir PrimR) (reflectPrim dir PrimL)
        k j i).vR = false := by
    rw [shockSwitch_ideal cfg hE Real.sqrt sc dir hdirC] at hsw
    rw [shockSwitch_ideal cfg hE Real.sqrt sc' dir hdirC]
    simp only [reflectPrim, if_neg hPn, if_true, neg_lt_neg_iff]
    rw [abs_sub_comm, min_comm]
    exact hsw
  refine ⟨hsw', ?_⟩
  intro nv hnv
  rw [ROE_Kernel_flux_off cfg hN Real.sqrt sc' dir gamma C2Iso _ _ dx' k j i st' hsw' nv hnv,
    ROE_Kernel_flux_off cfg hN Real.sqrt sc dir gamma C2Iso _ _ dx k j i st hsw nv hnv]
  -- the loaded states
  have hvL : ∀ n < NVAR cfg,
      (locals cfg Real.sqrt sc dir gamma C2Iso PrimL PrimR k j i).vL n = PrimL n k j i := by
    intro n hn; simp only [locals, loadStates_eq, if_pos hn]
  have hvR : ∀ n < NVAR cfg,
      (locals cfg Real.sqrt sc dir gamma C2Iso PrimL PrimR k j i).vR n = PrimR n k j i := by
    intro n hn; simp only [locals, loadStates_eq, if_pos hn]
  have hdv : ∀ n < NVAR cfg,
      (locals cfg Real.sqrt sc dir gamma C2Iso PrimL PrimR k j i).dv n
        = PrimR n k j i - PrimL n k j i := by
    intro n hn; simp only [locals, loadStates_eq, if_pos hn]
  have hvL' : ∀ n < NVAR cfg,
      (locals cfg Real.sqrt sc' dir gamma C2Iso (reflectPrim dir PrimR) (reflectPrim dir PrimL)
        k j i).vL n = (if n = VX1 + dir then -1 else 1)
          * (locals cfg Real.sqrt sc dir gamma C2Iso PrimL PrimR k j i).vR n := by
    intro n hn
    rw [hvR n hn]
    simp only [locals, loadStates_eq, if_pos hn, reflectPrim]
    split_ifs <;> ring
  have hvR' : ∀ n < NVAR cfg,
      (locals cfg Real.sqrt sc' dir gamma C2Iso (reflectPrim dir PrimR) (reflectPrim dir PrimL)
        k j i).vR n = (if n = VX1 + dir then -1 else 1)
          * (locals cfg Real.sqrt sc dir gamma C2Iso PrimL PrimR k j i).vL n := by
    intro n hn
    rw [hvL n hn]
    simp only [locals, loadStates_eq, if_pos hn, reflectPrim]
    split_ifs <;> ring
  have hdv' : ∀ n < NVAR cfg,
      (locals cfg Real.sqrt sc' dir gamma C2Iso (reflectPrim dir PrimR) (reflectPrim dir PrimL)
        k j i).dv n = -((if n = VX1 + dir then -1 else 1)
          * (locals cfg Real.sqrt sc dir gamma C2Iso PrimL PrimR k j i).dv n) := by
    intro n hn
    rw [hdv n hn]
    simp only [locals, loadStates_eq, if_pos hn, reflectPrim]
    split_ifs <;> ring
  have hN0 : 0 < NVAR cfg := by omega
  -- the averaged state
  obtain ⟨a0, an, ah, aa, aa2, avel⟩ := average_reflect cfg hv hE hR sc sc' gamma dir hdirC
    (locals cfg Real.sqrt sc dir gamma C2Iso PrimL PrimR k j i).vL
    (locals cfg Real.sqrt sc dir gamma C2Iso PrimL PrimR k j i).vR
    (locals cfg Real.sqrt sc' dir gamma C2Iso (reflectPrim dir PrimR) (reflectPrim dir PrimL)
      k j i).vL
    (locals cfg Real.sqrt sc' dir gamma C2Iso (reflectPrim dir PrimR) (reflectPrim dir PrimL)
      k j i).vR
    (by rw [hvL 0 hN0]; exact hrhoL) (by rw [hvR 0 hN0]; exact hrhoR) hvL' hvR'
  have hfL' : (locals cfg Real.sqrt sc' dir gamma C2Iso (reflectPrim dir PrimR)
      (reflectPrim dir PrimL) k j i).fluxL nv
      = -((if nv = VX1 + dir then -1 else 1)
          * (locals cfg Real.sqrt sc dir gamma C2Iso PrimL PrimR k j i).fluxR nv) :=
    K_Flux_reflect cfg hv hE dir hdirC sc.fluxR sc'.fluxL sc.uR sc'.uL _ _ (gamma - 1) C2Iso
      hvL' nv hnv
  have hfR' : (locals cfg Real.sqrt sc' dir gamma C2Iso (reflectPrim dir PrimR)
      (reflectPrim dir PrimL) k j i).fluxR nv
      = -((if nv = VX1 + dir then -1 else 1)
          * (locals cfg Real.sqrt sc dir gamma C2Iso PrimL PrimR k j i).fluxL nv) :=
    K_Flux_reflect cfg hv hE dir hdirC sc.fluxL sc'.fluxR sc.uL sc'.uR _ _ (gamma - 1) C2Iso
      hvR' nv hnv
  have hS : ∑ m in Finset.range (NVAR cfg),
      dissipation (locals cfg Real.sqrt sc' dir gamma C2Iso (reflectPrim dir PrimR)
          (reflectPrim dir PrimL) k j i).eig.lambda m
        * (locals cfg Real.sqrt sc' dir gamma C2Iso (reflectPrim dir PrimR)
          (reflectPrim dir PrimL) k j i).eig.eta m
        * (locals cfg Real.sqrt sc' dir gamma C2Iso (reflectPrim dir PrimR)
          (reflectPrim dir PrimL) k j i).eig.Rc nv m
      = -((if nv = VX1 + dir then -1 else 1)
          * ∑ m in Finset.range (NVAR cfg),
              dissipation (locals cfg Real.sqrt sc dir gamma C2Iso PrimL PrimR k j i).eig.lambda m
                * (locals cfg Real.sqrt sc dir gamma C2Iso PrimL PrimR k j i).eig.eta m
                * (locals cfg Real.sqrt sc dir gamma C2Iso PrimL PrimR k j i).eig.Rc nv m) :=
    eigen_sum_reflect cfg hv hE hb sc sc' dir hdirC _ _ _ _ a0 an ah aa aa2 avel hdv' nv hnv
  rw [hS, hfL', hfR']
  split_ifs <;> ring



end Reflection

/-! ## The averaged sound speed -/

section SoundSpeed

/-- The algebra behind the comment of lines 94-105, with `c = 1 - w`. -/
theorem roe_a2_algebra (g w aL aR : ℝ) (hg : g - 1 ≠ 0) (qL qR qm dq : ℝ)
    (h : w * qL + (1 - w) * qR - qm = w * (1 - w) * dq) :
    (g - 1) * (w * (1 / 2 * qL + aL * (1 / (g - 1))) + (1 - w) * (1 / 2 * qR + aR * (1 / (g - 1)))
        - 1 / 2 * qm)
      = w * aL + (1 - w) * aR + 1 / 2 * (g - 1) * w * (1 - w) * dq := by
  have e : (g - 1) * (w * (1 / 2 * qL + aL * (1 / (g - 1)))
        + (1 - w) * (1 / 2 * qR + aR * (1 / (g - 1))) - 1 / 2 * qm)
      = (g - 1) * (1 / (g - 1)) * (w * aL + (1 - w) * aR)
        + 1 / 2 * (g - 1) * (w * qL + (1 - w) * qR - qm) := by ring
  rw [e, h, mul_one_div_cancel hg]
  ring

/-- The Roe-averaged `a2` of lines 94-107 equals the blend named in the comment. -/
theorem average_a2_blend (cfg : Config) (hv : cfg.Valid) (hE : cfg.EOS = EqOfState.IDEAL)
    (hR : cfg.ROE_AVERAGE = true) (sc : Scratch ℝ) (gamma : ℝ) (hg : gamma - 1 ≠ 0)
    (vL vR : Nat → ℝ) :
    (average cfg Real.sqrt sc gamma vL vR).a2
      = 1 / (1 + Real.sqrt (vR RHO / vL RHO)) * (gamma * vL (PRS cfg) / vL RHO)
        + (1 - 1 / (1 + Real.sqrt (vR RHO / vL RHO))) * (gamma * vR (PRS cfg) / vR RHO)
        + 1 / 2 * (gamma - 1) * (1 / (1 + Real.sqrt (vR RHO / vL RHO)))
          * (1 - 1 / (1 + Real.sqrt (vR RHO / vL RHO)))
          * EXPANDsum cfg ((vR VX1 - vL VX1) * (vR VX1 - vL VX1))
              ((vR VX2 - vL VX2) * (vR VX2 - vL VX2)) ((vR VX3 - vL VX3) * (vR VX3 - vL VX3)) := by
  obtain ⟨hu0, hun, hvel, hh, ha2, ha⟩ := average_ideal_roe cfg hv hE hR Real.sqrt sc gamma vL vR
  rw [ha2, hh, hvel]
  apply roe_a2_algebra gamma _ _ _ hg
  generalize 1 / (1 + Real.sqrt (vR 0 / vL 0)) = w at *
  obtain ⟨C, D, E, R, vb, mb⟩ := cfg
  obtain ⟨h1, h2, h3⟩ := hv
  simp only at h1 h2 h3 hun
  have hC : C = 1 ∨ C = 2 ∨ C = 3 := by omega
  have k1 := hun 1 (le_refl 1)
  have k2 := hun 2 (by decide)
  have k3 := hun 3 (by decide)
  rcases hC with rfl | rfl | rfl
  · simp only [Nat.reduceLeDiff, true_implies] at k1
    simp only [EXPANDsum_one, k1, VX1]
    ring
  · simp only [Nat.reduceLeDiff, true_implies] at k1 k2
    simp only [EXPANDsum_two, k1, k2, VX1, VX2]
    ring
  · simp only [Nat.reduceLeDiff, true_implies] at k1 k2 k3
    simp only [EXPANDsum_three, k1, k2, k3, VX1, VX2, VX3]
    ring

end SoundSpeed

section SoundSpeed2

theorem EXPANDsum_congr {F : Type} [LinearOrderedField F] (cfg : Config) (hv : cfg.Valid)
    (f f' : Nat → F) (h : ∀ n, 1 ≤ n → n ≤ cfg.COMPONENTS → f n = f' n) :
    EXPANDsum cfg (f 1) (f 2) (f 3) = EXPANDsum cfg (f' 1) (f' 2) (f' 3) := by
  obtain ⟨C, D, E, R, vb, mb⟩ := cfg
  obtain ⟨h1, h2, h3⟩ := hv
  simp only at h1 h2 h3 h
  have hC : C = 1 ∨ C = 2 ∨ C = 3 := by omega
  rcases hC with rfl | rfl | rfl
  · rw [EXPANDsum_one, EXPANDsum_one, h 1 (le_refl 1) (le_refl 1)]
  · rw [EXPANDsum_two, EXPANDsum_two, h 1 (le_refl 1) (by decide), h 2 (by decide) (le_refl 2)]
  · rw [EXPANDsum_three, EXPANDsum_three, h 1 (le_refl 1) (by decide), h 2 (by decide) (by decide),
      h 3 (by decide) (le_refl 3)]

theorem EXPANDsum_sq_nonneg (cfg : Config) (x y z : ℝ) :
    0 ≤ EXPANDsum cfg (x * x) (y * y) (z * z) := by
  unfold EXPANDsum
  split
  · exact mul_self_nonneg x
  · exact add_nonneg (mul_self_nonneg x) (mul_self_nonneg y)
  · exact add_nonneg (add_nonneg (mul_self_nonneg x) (mul_self_nonneg y)) (mul_self_nonneg z)

theorem blend_pos (w aL aR g q : ℝ) (hw0 : 0 < w) (hw1 : w < 1) (haL : 0 < aL) (haR : 0 < aR)
    (hg : 1 < g) (hq : 0 ≤ q) : 0 < w * aL + (1 - w) * aR + 1 / 2 * (g - 1) * w * (1 - w) * q := by
  have h1 : 0 < 1 - w := by linarith
  have h2 : 0 < w * aL := mul_pos hw0 haL
  have h3 : 0 < (1 - w) * aR := mul_pos h1 haR
  have h4 : 0 ≤ 1 / 2 * (g - 1) * w * (1 - w) * q := by
    apply mul_nonneg _ hq
    apply mul_nonneg _ (le_of_lt h1)
    apply mul_nonneg _ (le_of_lt hw0)
    linarith
  linarith

theorem roe_weight_bounds (x y : ℝ) (hx : 0 < x) (hy : 0 < y) :
    0 < 1 / (1 + Real.sqrt (y / x)) ∧ 1 / (1 + Real.sqrt (y / x)) < 1 := by
  have hs : 0 < Real.sqrt (y / x) := Real.sqrt_pos.mpr (div_pos hy hx)
  constructor
  · apply div_pos one_pos; linarith
  · rw [div_lt_one (by linarith)]; linarith

/-- The Roe-averaged `a2` is positive for positive densities and pressures and `γ > 1`. -/
theorem average_a2_pos (cfg : Config) (hv : cfg.Valid) (hE : cfg.EOS = EqOfState.IDEAL)
    (hR : cfg.ROE_AVERAGE = true) (sc : Scratch ℝ) (gamma : ℝ) (hg : 1 < gamma)
    (vL vR : Nat → ℝ) (hrL : 0 < vL RHO) (hrR : 0 < vR RHO) (hpL : 0 < vL (PRS cfg))
    (hpR : 0 < vR (PRS cfg)) :
    0 < (average cfg Real.sqrt sc gamma vL vR).a2 := by
  rw [average_a2_blend cfg hv hE hR sc gamma (sub_ne_zero.mpr (ne_of_gt hg)) vL vR]
  obtain ⟨hw0, hw1⟩ := roe_weight_bounds (vL RHO) (vR RHO) hrL hrR
  exact blend_pos _ _ _ _ _ hw0 hw1 (div_pos (mul_pos (by linarith) hpL) hrL)
    (div_pos (mul_pos (by linarith) hpR) hrR) hg (EXPANDsum_sq_nonneg _ _ _ _)

theorem locals_av (cfg : Config) (sc : Scratch ℝ) (dir : Nat) (gamma C2Iso : ℝ)
    (PrimL PrimR : Nat → Nat → Nat → Nat → ℝ) (k j i : Nat) :
    (locals cfg Real.sqrt sc dir gamma C2Iso PrimL PrimR k j i).av
      = average cfg Real.sqrt sc gamma
          (locals cfg Real.sqrt sc dir gamma C2Iso PrimL PrimR k j i).vL
          (locals cfg Real.sqrt sc dir gamma C2Iso PrimL PrimR k j i).vR := rfl

theorem locals_vL {F : Type} [LinearOrderedField F] (cfg : Config) (sqrt : F → F)
    (sc : Scratch F) (dir : Nat) (gamma C2Iso : F) (PrimL PrimR : Nat → Nat → Nat → Nat → F)
    (k j i nv : Nat) (hnv : nv < NVAR cfg) :
    (locals cfg sqrt sc dir gamma C2Iso PrimL PrimR k j i).vL nv = PrimL nv k j i
      ∧ (locals cfg sqrt sc dir gamma C2Iso PrimL PrimR k j i).vR nv = PrimR nv k j i
      ∧ (locals cfg sqrt sc dir gamma C2Iso PrimL PrimR k j i).dv nv
          = PrimR nv k j i - PrimL nv k j i := by
  simp only [locals, loadStates_eq, if_pos hnv, and_self]

/-- The kernel's `a2` in terms of the input arrays (shared by the sound-speed theorems). -/
theorem locals_a2_blend (cfg : Config) (hv : cfg.Valid) (hE : cfg.EOS = EqOfState.IDEAL)
    (hR : cfg.ROE_AVERAGE = true) (sc : Scratch ℝ) (dir : Nat) (gamma C2Iso : ℝ)
    (hg : gamma - 1 ≠ 0) (PrimL PrimR : Nat → Nat → Nat → Nat → ℝ) (k j i : Nat) :
    (locals cfg Real.sqrt sc dir gamma C2Iso PrimL PrimR k j i).av.a2
      = 1 / (1 + Real.sqrt (PrimR RHO k j i / PrimL RHO k j i))
          * (gamma * PrimL (PRS cfg) k j i / PrimL RHO k j i)
        + (1 - 1 / (1 + Real.sqrt (PrimR RHO k j i / PrimL RHO k j i)))
          * (gamma * PrimR (PRS cfg) k j i / PrimR RHO k j i)
        + 1 / 2 * (gamma - 1) * (1 / (1 + Real.sqrt (PrimR RHO k j i / PrimL RHO k j i)))
          * (1 - 1 / (1 + Real.sqrt (PrimR RHO k j i / PrimL RHO k j i)))
          * EXPANDsum cfg
              ((PrimR VX1 k j i - PrimL VX1 k j i) * (PrimR VX1 k j i - PrimL VX1 k j i))
              ((PrimR VX2 k j i - PrimL VX2 k j i) * (PrimR VX2 k j i - PrimL VX2 k j i))
              ((PrimR VX3 k j i - PrimL VX3 k j i) * (PrimR VX3 k j i - PrimL VX3 k j i)) := by
  have hN := NVAR_ge_two cfg hv
  have hP : PRS cfg < NVAR cfg := by simp [PRS, NVAR, hE]
  have h0 : RHO < NVAR cfg := by simp only [RHO]; omega
  rw [locals_av, average_a2_blend cfg hv hE hR sc gamma hg]
  obtain ⟨l0, r0, -⟩ := locals_vL cfg Real.sqrt sc dir gamma C2Iso PrimL PrimR k j i RHO h0
  obtain ⟨lp, rp, -⟩ := locals_vL cfg Real.sqrt sc dir gamma C2Iso PrimL PrimR k j i (PRS cfg) hP
  rw [l0, r0, lp, rp]
  congr 1
  have hs := EXPANDsum_congr cfg hv
    (fun n => ((locals cfg Real.sqrt sc dir gamma C2Iso PrimL PrimR k j i).vR n
        - (locals cfg Real.sqrt sc dir gamma C2Iso PrimL PrimR k j i).vL n)
      * ((locals cfg Real.sqrt sc dir gamma C2Iso PrimL PrimR k j i).vR n
        - (locals cfg Real.sqrt sc dir gamma C2Iso PrimL PrimR k j i).vL n))
    (fun n => (PrimR n k j i - PrimL n k j i) * (PrimR n k j i - PrimL n k j i))
    (by
      intro n hn1 hn2
      have hn : n < NVAR cfg := by simp only [NVAR, hE]; omega
      obtain ⟨ln, rn, -⟩ := locals_vL cfg Real.sqrt sc dir gamma C2Iso PrimL PrimR k j i n hn
      simp only [ln, rn])
  simp only [VX1, VX2, VX3] at hs ⊢
  rw [hs]

end SoundSpeed2

section SoundSpeed3

/-- C19: Roe-averaged sound speed identity (ideal gas, Roe average, γ ≠ 1).  The value
`a2 = (γ−1)·(h − |u_avg|²/2)` computed by the kernel equals
`w_L·a2L + w_R·a2R + (γ−1)/2 · w_L·w_R·|v_R − v_L|²` with `w_L = 1/(1+√(ρ_R/ρ_L))`,
`w_R = 1 − w_L`, `a2L = γ·p_L/ρ_L`, `a2R = γ·p_R/ρ_R`. -/
theorem roe_sound_speed_identity (cfg : Config) (hv : cfg.Valid)
    (hE : cfg.EOS = EqOfState.IDEAL) (hR : cfg.ROE_AVERAGE = true) (sc : Scratch ℝ) (dir : Nat)
    (gamma C2Iso : ℝ) (hg : gamma ≠ 1) (PrimL PrimR : Nat → Nat → Nat → Nat → ℝ) (k j i : Nat) :
    (locals cfg Real.sqrt sc dir gamma C2Iso PrimL PrimR k j i).av.a2
        = (gamma - 1) * ((locals cfg Real.sqrt sc dir gamma C2Iso PrimL PrimR k j i).av.h
            - 1 / 2 * (locals cfg Real.sqrt sc dir gamma C2Iso PrimL PrimR k j i).av.vel2)
      ∧ (locals cfg Real.sqrt sc dir gamma C2Iso PrimL PrimR k j i).av.a2
        = 1 / (1 + Real.sqrt (PrimR RHO k j i / PrimL RHO k j i))
            * (gamma * PrimL (PRS cfg) k j i / PrimL RHO k j i)
          + (1 - 1 / (1 + Real.sqrt (PrimR RHO k j i / PrimL RHO k j i)))
            * (gamma * PrimR (PRS cfg) k j i / PrimR RHO k j i)
          + 1 / 2 * (gamma - 1) * (1 / (1 + Real.sqrt (PrimR RHO k j i / PrimL RHO k j i)))
            * (1 - 1 / (1 + Real.sqrt (PrimR RHO k j i / PrimL RHO k j i)))
            * EXPANDsum cfg
                ((PrimR VX1 k j i - PrimL VX1 k j i) * (PrimR VX1 k j i - PrimL VX1 k j i))
                ((PrimR VX2 k j i - PrimL VX2 k j i) * (PrimR VX2 k j i - PrimL VX2 k j i))
                ((PrimR VX3 k j i - PrimL VX3 k j i) * (PrimR VX3 k j i - PrimL VX3 k j i)) := by
  refine ⟨?_, locals_a2_blend cfg hv hE hR sc dir gamma C2Iso (sub_ne_zero.mpr hg) PrimL PrimR k j i⟩
  rw [locals_av]
  exact (average_ideal_roe cfg hv hE hR Real.sqrt sc gamma _ _).2.2.2.2.1

/-- Witness of `roe_sound_speed_identity`: the Sod pair in the 1-D build, where the velocity
jump vanishes and `a2` is the weighted mean of 1.4 and 1.12. -/
theorem roe_sound_speed_identity_witness :
    (locals cfg1D Real.sqrt (constScratch 0) 0 (7 / 5) 1 (uniform3 1 0 1)
        (uniform3 (1 / 8) 0 (1 / 10)) 0 0 0).av.a2
      = 1 / (1 + Real.sqrt (1 / 8)) * (7 / 5)
        + (1 - 1 / (1 + Real.sqrt (1 / 8))) * (28 / 25) := by
  have h := (roe_sound_speed_identity cfg1D (by decide) rfl rfl (constScratch 0) 0 (7 / 5) 1
    (by norm_num) (uniform3 1 0 1) (uniform3 (1 / 8) 0 (1 / 10)) 0 0 0).2
  rw [h]
  simp only [uniform3, RHO, PRS, cfg1D, VX1, EXPANDsum]
  norm_num

/-- C20: positivity of the averaged sound speed (ideal gas, Roe average).  For positive
densities and pressures and γ > 1 the kernel's `a2` is strictly positive, so `a = √a2` is
positive with `a·a = a2`, the divisions by `a2` are by a non-zero number, and `λ₀ < λ₁`. -/
theorem roe_sound_speed_positive (cfg : Config) (hv : cfg.Valid)
    (hE : cfg.EOS = EqOfState.IDEAL) (hR : cfg.ROE_AVERAGE = true) (sc : Scratch ℝ) (dir : Nat)
    (gamma C2Iso : ℝ) (hg : 1 < gamma) (PrimL PrimR : Nat → Nat → Nat → Nat → ℝ) (k j i : Nat)
    (hrL : 0 < PrimL RHO k j i) (hrR : 0 < PrimR RHO k j i)
    (hpL : 0 < PrimL (PRS cfg) k j i) (hpR : 0 < PrimR (PRS cfg) k j i) :
    0 < (locals cfg Real.sqrt sc dir gamma C2Iso PrimL PrimR k j i).av.a2
      ∧ 0 < (locals cfg Real.sqrt sc dir gamma C2Iso PrimL PrimR k j i).av.a
      ∧ (locals cfg Real.sqrt sc dir gamma C2Iso PrimL PrimR k j i).av.a
          * (locals cfg Real.sqrt sc dir gamma C2Iso PrimL PrimR k j i).av.a
        = (locals cfg Real.sqrt sc dir gamma C2Iso PrimL PrimR k j i).av.a2
      ∧ (locals cfg Real.sqrt sc dir gamma C2Iso PrimL PrimR k j i).eig.lambda 0
        < (locals cfg Real.sqrt sc dir gamma C2Iso PrimL PrimR k j i).eig.lambda 1 := by
  have hN := NVAR_ge_two cfg hv
  have hP : PRS cfg < NVAR cfg := by simp [PRS, NVAR, hE]
  have h0 : RHO < NVAR cfg := by simp only [RHO]; omega
  obtain ⟨l0, r0, -⟩ := locals_vL cfg Real.sqrt sc dir gamma C2Iso PrimL PrimR k j i RHO h0
  obtain ⟨lp, rp, -⟩ := locals_vL cfg Real.sqrt sc dir gamma C2Iso PrimL PrimR k j i (PRS cfg) hP
  have ha2 : 0 < (locals cfg Real.sqrt sc dir gamma C2Iso PrimL PrimR k j i).av.a2 := by
    rw [locals_av]
    exact average_a2_pos cfg hv hE hR sc gamma hg _ _ (by rw [l0]; exact hrL)
      (by rw [r0]; exact hrR) (by rw [lp]; exact hpL) (by rw [rp]; exact hpR)
  have ha : (locals cfg Real.sqrt sc dir gamma C2Iso PrimL PrimR k j i).av.a
      = Real.sqrt (locals cfg Real.sqrt sc dir gamma C2Iso PrimL PrimR k j i).av.a2 := by
    rw [locals_av]
    exact (average_ideal_roe cfg hv hE hR Real.sqrt sc gamma _ _).2.2.2.2.2
  have hapos : 0 < (locals cfg Real.sqrt sc dir gamma C2Iso PrimL PrimR k j i).av.a := by
    rw [ha]; exact Real.sqrt_pos.mpr ha2
  refine ⟨ha2, hapos, ?_, ?_⟩
  · rw [ha]; exact Real.mul_self_sqrt (le_of_lt ha2)
  · have hl := eigen_lambda_acoustic cfg sc dir
      (locals cfg Real.sqrt sc dir gamma C2Iso PrimL PrimR k j i).av
      (locals cfg Real.sqrt sc dir gamma C2Iso PrimL PrimR k j i).dv
    have he : (locals cfg Real.sqrt sc dir gamma C2Iso PrimL PrimR k j i).eig
        = eigen cfg sc dir (locals cfg Real.sqrt sc dir gamma C2Iso PrimL PrimR k j i).av
            (locals cfg Real.sqrt sc dir gamma C2Iso PrimL PrimR k j i).dv := rfl
    rw [he, hl.1, hl.2]
    linarith

/-- Witness of `roe_sound_speed_positive`: the Sod pair in the 1-D build. -/
theorem roe_sound_speed_positive_witness :
    0 < (locals cfg1D Real.sqrt (constScratch 0) 0 (7 / 5) 1 (uniform3 1 0 1)
        (uniform3 (1 / 8) 0 (1 / 10)) 0 0 0).av.a2 :=
  (roe_sound_speed_positive cfg1D (by decide) rfl rfl (constScratch 0) 0 (7 / 5) 1
    (by norm_num) (uniform3 1 0 1) (uniform3 (1 / 8) 0 (1 / 10)) 0 0 0
    (by norm_num [uniform3, RHO]) (by norm_num [uniform3, RHO])
    (by norm_num [uniform3, PRS, cfg1D]) (by norm_num [uniform3, PRS, cfg1D])).1

end SoundSpeed3

/-! ## Eigenvalue layout -/

section EigenLayout

theorem eigen_lambda_shear {F : Type} [LinearOrderedField F] (cfg : Config) (hv : cfg.Valid)
    (sc : Scratch F) (dir : Nat) (av : Average F) (dv : Nat → F) (m : Nat) (hm2 : 2 ≤ m)
    (hm : m < NVAR cfg) : (eigen cfg sc dir av dv).lambda m = av.um (VX1 + dir) := by
  obtain ⟨C, D, E, R, vb, mb⟩ := cfg
  obtain ⟨h1, h2, h3⟩ := hv
  simp only at h1 h2 h3
  have hC : C = 1 ∨ C = 2 ∨ C = 3 := by omega
  cases E <;> rcases hC with rfl | rfl | rfl <;> simp only [NVAR] at hm <;> interval_cases m <;>
    simp [eigen, shearWave, entropyWave, acousticPlus, acousticMinus, set1]

/-- C11: eigenvalue layout and ordering.  For every valid build and every averaged state with
sound speed `a ≥ 0`, slot 0 holds `u_n − a`, slot 1 holds `u_n + a`, every other slot
`2 ≤ m < NVAR` holds `u_n`; hence `λ₀ ≤ λ_m ≤ λ₁` and `λ₁ − λ₀ = 2a`, with strict inequalities
when `a > 0`. -/
theorem eigenvalue_layout (cfg : Config) (hv : cfg.Valid) (sc : Scratch ℝ) (dir : Nat)
    (av : Average ℝ) (dv : Nat → ℝ) (ha : 0 ≤ av.a) :
    (eigen cfg sc dir av dv).lambda 0 = av.um (VX1 + dir) - av.a
      ∧ (eigen cfg sc dir av dv).lambda 1 = av.um (VX1 + dir) + av.a
      ∧ (eigen cfg sc dir av dv).lambda 1 - (eigen cfg sc dir av dv).lambda 0 = 2 * av.a
      ∧ ∀ m, 2 ≤ m → m < NVAR cfg →
          (eigen cfg sc dir av dv).lambda m = av.um (VX1 + dir)
            ∧ (eigen cfg sc dir av dv).lambda 0 ≤ (eigen cfg sc dir av dv).lambda m
            ∧ (eigen cfg sc dir av dv).lambda m ≤ (eigen cfg sc dir av dv).lambda 1
            ∧ (0 < av.a → (eigen cfg sc dir av dv).lambda 0 < (eigen cfg sc dir av dv).lambda m
                ∧ (eigen cfg sc dir av dv).lambda m < (eigen cfg sc dir av dv).lambda 1) := by
  obtain ⟨h0, h1⟩ := eigen_lambda_acoustic cfg sc dir av dv
  refine ⟨h0, h1, by rw [h0, h1]; ring, ?_⟩
  intro m hm2 hm
  have hmm := eigen_lambda_shear cfg hv sc dir av dv m hm2 hm
  rw [h0, h1, hmm]
  refine ⟨rfl, by linarith, by linarith, fun hpos => ⟨by linarith, by linarith⟩⟩

/-- Witness of `eigenvalue_layout`: the Sod pair in the 1-D build, whose averaged sound speed
is a square root; the entropy slot lies between the acoustic slots. -/
theorem eigenvalue_layout_witness :
    (locals cfg1D Real.sqrt (constScratch 0) 0 (7 / 5) 1 (uniform3 1 0 1)
        (uniform3 (1 / 8) 0 (1 / 10)) 0 0 0).eig.lambda 0
      ≤ (locals cfg1D Real.sqrt (constScratch 0) 0 (7 / 5) 1 (uniform3 1 0 1)
        (uniform3 (1 / 8) 0 (1 / 10)) 0 0 0).eig.lambda 2 :=
  ((eigenvalue_layout cfg1D (by decide) (constScratch 0) 0
    (locals cfg1D Real.sqrt (constScratch 0) 0 (7 / 5) 1 (uniform3 1 0 1)
      (uniform3 (1 / 8) 0 (1 / 10)) 0 0 0).av
    (locals cfg1D Real.sqrt (constScratch 0) 0 (7 / 5) 1 (uniform3 1 0 1)
      (uniform3 (1 / 8) 0 (1 / 10)) 0 0 0).dv
    (average_a_nonneg _ _ _ _ _)).2.2.2 2 (le_refl 2) (by decide)).2.1

end EigenLayout

/-! ## The sweep as a fold; the stage reset -/

section SweepList

theorem forLoop_eq_foldl {σ : Type} (body : Nat → σ → σ) (n : Nat) (s : σ) :
    forLoop body n s = (List.range n).foldl (fun s t => body t s) s := by
  induction n with
  | zero => rfl
  | succ n ih => rw [List.range_succ, List.foldl_append, ← ih]; rfl

theorem foldl_flatMap_eq {α β γ : Type} (l : List α) (f : α → List β) (g : γ → β → γ) (b : γ) :
    (l.flatMap f).foldl g b = l.foldl (fun b a => (f a).foldl g b) b := by
  rw [List.flatMap_def, List.foldl_flatten, List.foldl_map]

/-- The loop nest `idefix_for` is the left fold of its body over `interfaces`. -/
theorem idefix_for_eq_foldl {σ : Type} (kb ke jb je ib ie : Nat)
    (body : Nat → Nat → Nat → σ → σ) (s : σ) :
    idefix_for kb ke jb je ib ie body s
      = (interfaces kb ke jb je ib ie).foldl (fun s p => body p.1 p.2.1 p.2.2 s) s := by
  unfold idefix_for forRange interfaces
  rw [forLoop_eq_foldl, foldl_flatMap_eq]
  congr 1
  funext s tk
  show forLoop _ _ _ = _
  rw [forLoop_eq_foldl, foldl_flatMap_eq]
  congr 1
  funext s tj
  show forLoop _ _ _ = _
  rw [forLoop_eq_foldl, List.foldl_map]

theorem mem_interfaces (kb ke jb je ib ie a b c : Nat) :
    (a, b, c) ∈ interfaces kb ke jb je ib ie
      ↔ (kb ≤ a ∧ a < ke) ∧ (jb ≤ b ∧ b < je) ∧ (ib ≤ c ∧ c < ie) := by
  simp only [interfaces, List.mem_flatMap, List.mem_map, List.mem_range, Prod.mk.injEq]
  constructor
  · rintro ⟨tk, htk, tj, htj, ti, hti, rfl, rfl, rfl⟩
    omega
  · rintro ⟨⟨h1, h2⟩, ⟨h3, h4⟩, ⟨h5, h6⟩⟩
    exact ⟨a - kb, by omega, b - jb, by omega, c - ib, by omega, by omega, by omega, by omega⟩

end SweepList

section Reset

theorem resetFold_apply {F : Type} [LinearOrderedField F] (hp : Bool)
    (l : List (Nat × Nat × Nat)) (st : StageArrays F) (a b c : Nat) :
    (l.foldl (fun (st : StageArrays F) p =>
        (⟨set3 st.InvDt p.1 p.2.1 p.2.2 0,
          if hp then set3 st.dMax p.1 p.2.1 p.2.2 0 else st.dMax⟩ : StageArrays F)) st).InvDt a b c
        = (if (a, b, c) ∈ l then 0 else st.InvDt a b c)
      ∧ (l.foldl (fun (st : StageArrays F) p =>
        (⟨set3 st.InvDt p.1 p.2.1 p.2.2 0,
          if hp then set3 st.dMax p.1 p.2.1 p.2.2 0 else st.dMax⟩ : StageArrays F)) st).dMax a b c
        = (if hp = true ∧ (a, b, c) ∈ l then 0 else st.dMax a b c) := by
  induction l generalizing st with
  | nil => simp
  | cons x xs ih =>
    obtain ⟨x1, x2, x3⟩ := x
    simp only [List.foldl_cons, List.mem_cons, Prod.mk.injEq]
    rw [(ih _).1, (ih _).2]
    constructor
    · by_cases h1 : (a, b, c) ∈ xs
      · simp [h1]
      · by_cases h2 : a = x1 ∧ b = x2 ∧ c = x3
        · simp [h1, h2, set3]
        · simp [h1, h2, set3]
    · cases hp
      · simp
      · by_cases h1 : (a, b, c) ∈ xs
        · simp [h1]
        · by_cases h2 : a = x1 ∧ b = x2 ∧ c = x3
          · simp [h1, h2, set3]
          · simp [h1, h2, set3]

/-- C15: after `Hydro::ResetStage`, `InvDt(k,j,i) = 0` in every cell of the total grid (ghost
cells included) whatever it held before; `dMax` is 0 in every such cell when parabolic terms
are enabled and is the array it was, in every cell, when they are not. -/
theorem reset_stage (np_tot : Nat → Nat) (haveParabolicTerms : Bool) (st : StageArrays ℝ) :
    (∀ k j i, k < np_tot KDIR → j < np_tot JDIR → i < np_tot IDIR →
        (ResetStage np_tot haveParabolicTerms st).InvDt k j i = 0)
      ∧ (haveParabolicTerms = true →
          ∀ k j i, k < np_tot KDIR → j < np_tot JDIR → i < np_tot IDIR →
            (ResetStage np_tot haveParabolicTerms st).dMax k j i = 0)
      ∧ (haveParabolicTerms = false →
          (ResetStage np_tot haveParabolicTerms st).dMax = st.dMax) := by
  unfold ResetStage
  rw [idefix_for_eq_foldl]
  refine ⟨?_, ?_, ?_⟩
  · intro k j i hk hj hi
    have hm : (k, j, i) ∈ interfaces 0 (np_tot KDIR) 0 (np_tot JDIR) 0 (np_tot IDIR) := by
      rw [mem_interfaces]; omega
    rw [(resetFold_apply haveParabolicTerms _ st k j i).1, if_pos hm]
  · intro hpar k j i hk hj hi
    have hm : (k, j, i) ∈ interfaces 0 (np_tot KDIR) 0 (np_tot JDIR) 0 (np_tot IDIR) := by
      rw [mem_interfaces]; omega
    rw [(resetFold_apply haveParabolicTerms _ st k j i).2, if_pos ⟨hpar, hm⟩]
  · intro hpar
    funext k j i
    rw [(resetFold_apply haveParabolicTerms _ st k j i).2, if_neg (by simp [hpar])]

/-- Witness of `reset_stage`: a 2 × 3 × 4 grid with parabolic terms enabled. -/
theorem reset_stage_witness :
    (ResetStage (fun d => d + 2) true
        (⟨fun _ _ _ => 5, fun _ _ _ => 7⟩ : StageArrays ℝ)).InvDt 3 2 1 = 0
      ∧ (ResetStage (fun d => d + 2) true
        (⟨fun _ _ _ => 5, fun _ _ _ => 7⟩ : StageArrays ℝ)).dMax 3 2 1 = 0 :=
  ⟨(reset_stage (fun d => d + 2) true ⟨fun _ _ _ => 5, fun _ _ _ => 7⟩).1 3 2 1
      (by decide) (by decide) (by decide),
    (reset_stage (fun d => d + 2) true ⟨fun _ _ _ => 5, fun _ _ _ => 7⟩).2.1 rfl 3 2 1
      (by decide) (by decide) (by decide)⟩

end Reset

/-! ## Frame of one interface evaluation -/

section Frame

/-- One interface evaluation as a pair of writes: whether the flux slot is written, the values
written and the increment of the accumulator do not depend on the arrays being written. -/
theorem ROE_Kernel_shape {F : Type} [LinearOrderedField F] (cfg : Config) (sqrt : F → F)
    (sc : Scratch F) (dir : Nat) (gamma C2Iso : F) (PrimL PrimR : Nat → Nat → Nat → Nat → F)
    (dx : Nat → F) (k j i : Nat) :
    ∃ (wr : Bool) (val : Nat → F) (inc : F),
      ∀ st : (Nat → Nat → Nat → Nat → F) × (Nat → Nat → Nat → F),
        ROE_Kernel cfg sqrt sc dir gamma C2Iso PrimL PrimR dx k j i st
          = (fun n a b c => if (n < NVAR cfg ∧ a = k ∧ b = j ∧ c = i) ∧ wr = true then val n
              else st.1 n a b c,
            set3 st.2 k j i (st.2 k j i + inc)) := by
  by_cases hsw : shockSwitch dir (locals cfg sqrt sc dir gamma C2Iso PrimL PrimR k j i).scrh
      (locals cfg sqrt sc dir gamma C2Iso PrimL PrimR k j i).vL
      (locals cfg sqrt sc dir gamma C2Iso PrimL PrimR k j i).vR = true
  · by_cases hd : cfg.DIMENSIONS > 1
    · refine ⟨true, (fun n => (min 0 ((locals cfg sqrt sc dir gamma C2Iso PrimL PrimR k j i).eig.lambda 0)
            * max 0 ((locals cfg sqrt sc dir gamma C2Iso PrimL PrimR k j i).eig.lambda 1)
            * ((locals cfg sqrt sc dir gamma C2Iso PrimL PrimR k j i).uR n
              - (locals cfg sqrt sc dir gamma C2Iso PrimL PrimR k j i).uL n)
          + max 0 ((locals cfg sqrt sc dir gamma C2Iso PrimL PrimR k j i).eig.lambda 1)
            * (locals cfg sqrt sc dir gamma C2Iso PrimL PrimR k j i).fluxL n
          - min 0 ((locals cfg sqrt sc dir gamma C2Iso PrimL PrimR k j i).eig.lambda 0)
            * (locals cfg sqrt sc dir gamma C2Iso PrimL PrimR k j i).fluxR n)
        * (1 / (max 0 ((locals cfg sqrt sc dir gamma C2Iso PrimL PrimR k j i).eig.lambda 1)
          - min 0 ((locals cfg sqrt sc dir gamma C2Iso PrimL PrimR k j i).eig.lambda 0)))),
        ((locals cfg sqrt sc dir gamma C2Iso PrimL PrimR k j i).cmax
        / dx ((if dir = IDIR then 1 else 0) * i + (if dir = JDIR then 1 else 0) * j
          + (if dir = KDIR then 1 else 0) * k)), fun st => ?_⟩
      unfold ROE_Kernel
      simp only [hsw, hd, if_true]
      refine Prod.ext ?_ rfl
      funext n a b c
      simp only [hllWrite_apply, and_true]
    · refine ⟨false, fun _ => 0,
        ((locals cfg sqrt sc dir gamma C2Iso PrimL PrimR k j i).cmax
        / dx ((if dir = IDIR then 1 else 0) * i + (if dir = JDIR then 1 else 0) * j
          + (if dir = KDIR then 1 else 0) * k)), fun st => ?_⟩
      unfold ROE_Kernel
      simp only [hsw, hd, if_true, if_false]
      refine Prod.ext ?_ rfl
      funext n a b c
      simp
  · refine ⟨true, (fun n => ((locals cfg sqrt sc dir gamma C2Iso PrimL PrimR k j i).fluxL n
          + (locals cfg sqrt sc dir gamma C2Iso PrimL PrimR k j i).fluxR n
          - ∑ m in Finset.range (NVAR cfg),
              entropyFix cfg (locals cfg sqrt sc dir gamma C2Iso PrimL PrimR k j i).eig.lambda
                  sc.alambda m
                * (locals cfg sqrt sc dir gamma C2Iso PrimL PrimR k j i).eig.eta m
                * (locals cfg sqrt sc dir gamma C2Iso PrimL PrimR k j i).eig.Rc n m) * (1 / 2)),
      ((locals cfg sqrt sc dir gamma C2Iso PrimL PrimR k j i).cmax
        / dx ((if dir = IDIR then 1 else 0) * i + (if dir = JDIR then 1 else 0) * j
          + (if dir = KDIR then 1 else 0) * k)), fun st => ?_⟩
    unfold ROE_Kernel
    have hsw' := Bool.eq_false_iff.mpr hsw
    simp only [hsw', Bool.false_eq_true, if_false]
    refine Prod.ext ?_ rfl
    funext n a b c
    simp only [roeWrite_apply, and_true]

theorem writes_commute {F : Type} [LinearOrderedField F] (N : Nat) (k j i k' j' i' : Nat)
    (hne : ¬ (k = k' ∧ j = j' ∧ i = i')) (wr wr' : Bool) (val val' : Nat → F) (inc inc' : F)
    (st : (Nat → Nat → Nat → Nat → F) × (Nat → Nat → Nat → F)) :
    ((fun n a b c => if (n < N ∧ a = k ∧ b = j ∧ c = i) ∧ wr = true then val n
          else (if (n < N ∧ a = k' ∧ b = j' ∧ c = i') ∧ wr' = true then val' n
            else st.1 n a b c)),
        set3 (set3 st.2 k' j' i' (st.2 k' j' i' + inc')) k j i
          (set3 st.2 k' j' i' (st.2 k' j' i' + inc') k j i + inc))
      = ((fun n a b c => if (n < N ∧ a = k' ∧ b = j' ∧ c = i') ∧ wr' = true then val' n
          else (if (n < N ∧ a = k ∧ b = j ∧ c = i) ∧ wr = true then val n
            else st.1 n a b c)),
        set3 (set3 st.2 k j i (st.2 k j i + inc)) k' j' i'
          (set3 st.2 k j i (st.2 k j i + inc) k' j' i' + inc')) := by
  have hne' : ¬ (k' = k ∧ j' = j ∧ i' = i) := fun h => hne ⟨h.1.symm, h.2.1.symm, h.2.2.symm⟩
  refine Prod.ext ?_ ?_
  · funext n a b c
    simp only
    by_cases h1 : (n < N ∧ a = k ∧ b = j ∧ c = i) ∧ wr = true
    · have h2 : ¬ ((n < N ∧ a = k' ∧ b = j' ∧ c = i') ∧ wr' = true) := by
        rintro ⟨⟨-, rfl, rfl, rfl⟩, -⟩
        exact hne' ⟨h1.1.2.1, h1.1.2.2.1, h1.1.2.2.2⟩
      rw [if_pos h1, if_neg h2, if_pos h1]
    · rw [if_neg h1, if_neg h1]
  · funext a b c
    simp only [set3]
    by_cases h1 : a = k ∧ b = j ∧ c = i
    · have h2 : ¬ (a = k' ∧ b = j' ∧ c = i') := by
        rintro ⟨rfl, rfl, rfl⟩
        exact hne' h1
      simp [h1, h2, hne]
    · by_cases h2 : a = k' ∧ b = j' ∧ c = i'
      · simp [h1, h2, hne']
      · simp [h1, h2]

/-- Two interface evaluations of the same sweep commute. -/
theorem ROE_Kernel_comm {F : Type} [LinearOrderedField F] (cfg : Config) (sqrt : F → F)
    (sc : Scratch F) (dir : Nat) (gamma C2Iso : F) (PrimL PrimR : Nat → Nat → Nat → Nat → F)
    (dx : Nat → F) (p q : Nat × Nat × Nat)
    (st : (Nat → Nat → Nat → Nat → F) × (Nat → Nat → Nat → F)) :
    ROE_Kernel cfg sqrt sc dir gamma C2Iso PrimL PrimR dx q.1 q.2.1 q.2.2
        (ROE_Kernel cfg sqrt sc dir gamma C2Iso PrimL PrimR dx p.1 p.2.1 p.2.2 st)
      = ROE_Kernel cfg sqrt sc dir gamma C2Iso PrimL PrimR dx p.1 p.2.1 p.2.2
        (ROE_Kernel cfg sqrt sc dir gamma C2Iso PrimL PrimR dx q.1 q.2.1 q.2.2 st) := by
  by_cases hpq : q.1 = p.1 ∧ q.2.1 = p.2.1 ∧ q.2.2 = p.2.2
  · rw [hpq.1, hpq.2.1, hpq.2.2]
  · obtain ⟨wr, val, inc, h⟩ :=
      ROE_Kernel_shape cfg sqrt sc dir gamma C2Iso PrimL PrimR dx p.1 p.2.1 p.2.2
    obtain ⟨wr', val', inc', h'⟩ :=
      ROE_Kernel_shape cfg sqrt sc dir gamma C2Iso PrimL PrimR dx q.1 q.2.1 q.2.2
    rw [h st, h' st, h, h']
    exact writes_commute (NVAR cfg) q.1 q.2.1 q.2.2 p.1 p.2.1 p.2.2 hpq wr' wr val' val inc' inc st

end Frame

section Frame2

/-- C14: frame of one interface evaluation.  A sweep returns `PrimL`, `PrimR` and the cell
widths as it received them; evaluating the kernel at `(k,j,i)` changes no flux entry other than
`Flux(nv,k,j,i)` with `nv < NVAR` and no accumulator entry other than `invDt(k,j,i)`; two
evaluations of the same sweep commute, and folding the kernel over the interfaces of the sweep
in any order gives the flux and the accumulator that `Tvdlf` returns. -/
theorem interface_frame (cfg : Config) (sc : Scratch ℝ) (data : DataBlock ℝ) (dir : Nat)
    (gamma C2Iso : ℝ) :
    ((Tvdlf cfg Real.sqrt sc data dir gamma C2Iso).PrimL = data.PrimL
        ∧ (Tvdlf cfg Real.sqrt sc data dir gamma C2Iso).PrimR = data.PrimR
        ∧ (Tvdlf cfg Real.sqrt sc data dir gamma C2Iso).dx = data.dx)
      ∧ (∀ (k j i : Nat) (st : (Nat → Nat → Nat → Nat → ℝ) × (Nat → Nat → Nat → ℝ))
          (n a b c : Nat), ¬ (n < NVAR cfg ∧ a = k ∧ b = j ∧ c = i) →
          (ROE_Kernel cfg Real.sqrt sc dir gamma C2Iso data.PrimL data.PrimR (data.dx dir)
            k j i st).1 n a b c = st.1 n a b c)
      ∧ (∀ (k j i : Nat) (st : (Nat → Nat → Nat → Nat → ℝ) × (Nat → Nat → Nat → ℝ))
          (a b c : Nat), ¬ (a = k ∧ b = j ∧ c = i) →
          (ROE_Kernel cfg Real.sqrt sc dir gamma C2Iso data.PrimL data.PrimR (data.dx dir)
            k j i st).2 a b c = st.2 a b c)
      ∧ (∀ (p q : Nat × Nat × Nat) (st : (Nat → Nat → Nat → Nat → ℝ) × (Nat → Nat → Nat → ℝ)),
          ROE_Kernel cfg Real.sqrt sc dir gamma C2Iso data.PrimL data.PrimR (data.dx dir)
              q.1 q.2.1 q.2.2
              (ROE_Kernel cfg Real.sqrt sc dir gamma C2Iso data.PrimL data.PrimR (data.dx dir)
                p.1 p.2.1 p.2.2 st)
            = ROE_Kernel cfg Real.sqrt sc dir gamma C2Iso data.PrimL data.PrimR (data.dx dir)
              p.1 p.2.1 p.2.2
              (ROE_Kernel cfg Real.sqrt sc dir gamma C2Iso data.PrimL data.PrimR (data.dx dir)
                q.1 q.2.1 q.2.2 st))
      ∧ (∀ l : List (Nat × Nat × Nat),
          l.Perm (interfaces (data.beg KDIR) (data.end_ KDIR + (if dir = KDIR then 1 else 0))
            (data.beg JDIR) (data.end_ JDIR + (if dir = JDIR then 1 else 0))
            (data.beg IDIR) (data.end_ IDIR + (if dir = IDIR then 1 else 0))) →
          l.foldl (fun st p => ROE_Kernel cfg Real.sqrt sc dir gamma C2Iso data.PrimL data.PrimR
              (data.dx dir) p.1 p.2.1 p.2.2 st) (data.FluxRiemann, data.InvDtHyp)
            = ((Tvdlf cfg Real.sqrt sc data dir gamma C2Iso).FluxRiemann,
                (Tvdlf cfg Real.sqrt sc data dir gamma C2Iso).InvDtHyp)) := by
  refine ⟨⟨rfl, rfl, rfl⟩, ?_, ?_, ?_, ?_⟩
  · intro k j i st n a b c hne
    obtain ⟨wr, val, inc, h⟩ := ROE_Kernel_shape cfg Real.sqrt sc dir gamma C2Iso data.PrimL
      data.PrimR (data.dx dir) k j i
    rw [h st]
    simp only
    rw [if_neg (fun hh => hne hh.1)]
  · intro k j i st a b c hne
    obtain ⟨wr, val, inc, h⟩ := ROE_Kernel_shape cfg Real.sqrt sc dir gamma C2Iso data.PrimL
      data.PrimR (data.dx dir) k j i
    rw [h st]
    simp only [set3]
    rw [if_neg hne]
  · intro p q st
    exact ROE_Kernel_comm cfg Real.sqrt sc dir gamma C2Iso data.PrimL data.PrimR (data.dx dir)
      p q st
  · intro l hl
    unfold Tvdlf
    simp only [idefix_for_eq_foldl]
    exact List.Perm.foldl_eq' hl
      (fun x _ y _ z => ROE_Kernel_comm cfg Real.sqrt sc dir gamma C2Iso data.PrimL data.PrimR
        (data.dx dir) x y z) _

end Frame2

/-! ## Setup errors of the constructor -/

section Setup

/-- C16 (the claim as stated fails): in the isothermal pure-hydro build with no `csiso` entry
and the solver string `foo`, the constructor stops at the `csiso` check: the error it raises is
the ISOTHERMAL one, not `Unknown HD solver type foo`. -/
theorem unknown_solver_error_preempted :
    Hydro_setup false false (⟨none, none, "foo"⟩ : HydroInput ℝ)
        = Except.error ("You are using the ISOTHERMAL approximation "
            ++ "but have not set csiso in the ini file.")
      ∧ Hydro_setup false false (⟨none, none, "foo"⟩ : HydroInput ℝ)
        ≠ Except.error ("Unknown HD solver type " ++ "foo") := by
  have h : Hydro_setup false false (⟨none, none, "foo"⟩ : HydroInput ℝ)
      = Except.error ("You are using the ISOTHERMAL approximation "
          ++ "but have not set csiso in the ini file.") := rfl
  refine ⟨h, ?_⟩
  rw [h]
  intro hh
  injection hh with hh
  revert hh
  decide

/-- C16 (amended): in the pure-hydro build, whenever the `csiso` check passes (energy build, or
`csiso` present), a solver string other than `tvdlf`, `hll`, `hllc`, `roe` makes the
constructor fail with `Unknown HD solver type <string>` and the string `roe` selects `ROE`; in
the isothermal build a missing `csiso` entry fails with the ISOTHERMAL error whatever the solver
string, and a present `csiso` value `cs` gives `C2Iso = cs·cs` in every setup that succeeds. -/
theorem hydro_setup_errors (HAVE_ENERGY : Bool) (input : HydroInput ℝ) :
    ((HAVE_ENERGY = true ∨ input.csiso.isSome = true) →
        input.Solver ≠ "tvdlf" → input.Solver ≠ "hll" → input.Solver ≠ "hllc" →
        input.Solver ≠ "roe" →
        Hydro_setup HAVE_ENERGY false input
          = Except.error ("Unknown HD solver type " ++ input.Solver))
      ∧ ((HAVE_ENERGY = true ∨ input.csiso.isSome = true) → input.Solver = "roe" →
          ∃ s : HydroSetup ℝ, Hydro_setup HAVE_ENERGY false input = Except.ok s
            ∧ s.mySolver = Solver.ROE)
      ∧ (HAVE_ENERGY = false → input.csiso = none →
          Hydro_setup HAVE_ENERGY false input
            = Except.error ("You are using the ISOTHERMAL approximation "
                ++ "but have not set csiso in the ini file."))
      ∧ (∀ (cs : ℝ) (s : HydroSetup ℝ), input.csiso = some cs →
          Hydro_setup HAVE_ENERGY false input = Except.ok s → s.C2Iso = cs * cs) := by
  obtain ⟨g, c, sv⟩ := input
  refine ⟨?_, ?_, ?_, ?_⟩
  · intro hc h1 h2 h3 h4
    simp only at h1 h2 h3 h4 hc
    cases c with
    | none =>
      rcases hc with hc | hc
      · subst hc
        simp [Hydro_setup, h1, h2, h3, h4]
      · simp at hc
    | some cs => simp [Hydro_setup, h1, h2, h3, h4]
  · intro hc h1
    simp only at h1 hc
    subst h1
    cases c with
    | none =>
      rcases hc with hc | hc
      · subst hc
        exact ⟨_, rfl, rfl⟩
      · simp at hc
    | some cs => exact ⟨_, rfl, rfl⟩
  · intro hE hc
    simp only at hc
    subst hE hc
    rfl
  · intro cs s hc hs
    simp only at hc
    subst hc
    simp only [Hydro_setup] at hs
    split_ifs at hs <;> injection hs with hs <;> rw [← hs]

/-- Witness of `hydro_setup_errors`: the isothermal build with `csiso = 3` and the solver
string `roe`: the setup succeeds with the ROE solver. -/
theorem hydro_setup_errors_witness :
    ∃ s : HydroSetup ℝ, Hydro_setup false false (⟨none, some 3, "roe"⟩ : HydroInput ℝ)
        = Except.ok s ∧ s.mySolver = Solver.ROE :=
  (hydro_setup_errors false ⟨none, some 3, "roe"⟩).2.1 (Or.inr rfl) rfl

end Setup

/-! ## The second sweep axis and the isothermal sound speed -/

section Bugs

/-- C17 (the code at the failing input): two velocity components, sweep along the second axis
(`dir = JDIR`), uniform state (ρ 1, v 1 2, p 1), γ = 1.4.  The averaged velocity is (1, 2) and
`a > 0`, yet the acoustic column 0 holds `u_n = 2` (not `u_n − a`) in the swept-momentum slot
and 0 (not `u_t = 1`) in the transverse-momentum slot, and the shear column 3 has its unit entry
in the swept-momentum slot. -/
theorem eigenvectors_second_axis (sc : Scratch ℝ) (C2Iso : ℝ) (k j i : Nat) :
    (locals cfg2D Real.sqrt sc 1 (7 / 5) C2Iso (uniform4 1 1 2 1) (uniform4 1 1 2 1)
        k j i).av.um VX1 = 1
      ∧ (locals cfg2D Real.sqrt sc 1 (7 / 5) C2Iso (uniform4 1 1 2 1) (uniform4 1 1 2 1)
        k j i).av.um VX2 = 2
      ∧ 0 < (locals cfg2D Real.sqrt sc 1 (7 / 5) C2Iso (uniform4 1 1 2 1) (uniform4 1 1 2 1)
        k j i).av.a
      ∧ (locals cfg2D Real.sqrt sc 1 (7 / 5) C2Iso (uniform4 1 1 2 1) (uniform4 1 1 2 1)
        k j i).eig.Rc MX2 0 = 2
      ∧ (locals cfg2D Real.sqrt sc 1 (7 / 5) C2Iso (uniform4 1 1 2 1) (uniform4 1 1 2 1)
        k j i).eig.Rc MX1 0 = 0
      ∧ (locals cfg2D Real.sqrt sc 1 (7 / 5) C2Iso (uniform4 1 1 2 1) (uniform4 1 1 2 1)
        k j i).eig.Rc MX2 3 = 1
      ∧ (locals cfg2D Real.sqrt sc 1 (7 / 5) C2Iso (uniform4 1 1 2 1) (uniform4 1 1 2 1)
        k j i).eig.Rc MX1 3 = 0 := by
  have hv : cfg2D.Valid := by decide
  obtain ⟨hu0, hun, -, -, -, ha⟩ := average_ideal_roe cfg2D hv rfl rfl Real.sqrt sc (7 / 5)
    (locals cfg2D Real.sqrt sc 1 (7 / 5) C2Iso (uniform4 1 1 2 1) (uniform4 1 1 2 1) k j i).vL
    (locals cfg2D Real.sqrt sc 1 (7 / 5) C2Iso (uniform4 1 1 2 1) (uniform4 1 1 2 1) k j i).vR
  have hvals : ∀ n, n < 4 →
      (locals cfg2D Real.sqrt sc 1 (7 / 5) C2Iso (uniform4 1 1 2 1) (uniform4 1 1 2 1) k j i).vL n
          = uniform4 (1 : ℝ) 1 2 1 n k j i
        ∧ (locals cfg2D Real.sqrt sc 1 (7 / 5) C2Iso (uniform4 1 1 2 1) (uniform4 1 1 2 1)
          k j i).vR n = uniform4 (1 : ℝ) 1 2 1 n k j i := by
    intro n hn
    obtain ⟨h1, h2, -⟩ := locals_vL cfg2D Real.sqrt sc 1 (7 / 5) C2Iso (uniform4 1 1 2 1)
      (uniform4 1 1 2 1) k j i n hn
    exact ⟨h1, h2⟩
  have hum1 : (locals cfg2D Real.sqrt sc 1 (7 / 5) C2Iso (uniform4 1 1 2 1) (uniform4 1 1 2 1)
      k j i).av.um VX1 = 1 := by
    rw [locals_av]
    have := hun 1 (le_refl 1) (by decide)
    rw [(hvals 1 (by decide)).1, (hvals 1 (by decide)).2] at this
    rw [VX1, this]
    simp only [uniform4]
    norm_num
  have hum2 : (locals cfg2D Real.sqrt sc 1 (7 / 5) C2Iso (uniform4 1 1 2 1) (uniform4 1 1 2 1)
      k j i).av.um VX2 = 2 := by
    rw [locals_av]
    have := hun 2 (by decide) (le_refl 2)
    rw [(hvals 2 (by decide)).1, (hvals 2 (by decide)).2] at this
    rw [VX2, this]
    simp only [uniform4]
    norm_num
    ring
  have hpos := (average_a2_pos cfg2D hv rfl rfl sc (7 / 5) (by norm_num)
    (locals cfg2D Real.sqrt sc 1 (7 / 5) C2Iso (uniform4 1 1 2 1) (uniform4 1 1 2 1) k j i).vL
    (locals cfg2D Real.sqrt sc 1 (7 / 5) C2Iso (uniform4 1 1 2 1) (uniform4 1 1 2 1) k j i).vR
    (by rw [RHO, (hvals 0 (by decide)).1]; norm_num [uniform4])
    (by rw [RHO, (hvals 0 (by decide)).2]; norm_num [uniform4])
    (by rw [show PRS cfg2D = 3 from rfl, (hvals 3 (by decide)).1]; norm_num [uniform4])
    (by rw [show PRS cfg2D = 3 from rfl, (hvals 3 (by decide)).2]; norm_num [uniform4]))
  refine ⟨hum1, hum2, ?_, ?_, ?_, ?_, ?_⟩
  · rw [locals_av, ha]
    exact Real.sqrt_pos.mpr hpos
  · have h : (locals cfg2D Real.sqrt sc 1 (7 / 5) C2Iso (uniform4 1 1 2 1) (uniform4 1 1 2 1)
        k j i).eig.Rc MX2 0
        = (locals cfg2D Real.sqrt sc 1 (7 / 5) C2Iso (uniform4 1 1 2 1) (uniform4 1 1 2 1)
          k j i).av.um VX2 := by
      simp [locals, eigen, cfg2D, shearWave, entropyWave, acousticPlus, acousticMinus, set2,
        EXPAND, VX1, VX2, MX2, RHO, PRS, ENG]
    rw [h, hum2]
  · simp [locals, eigen, cfg2D, shearWave, entropyWave, acousticPlus, acousticMinus, set2,
      EXPAND, VX1, VX2, MX1, MX2, RHO, PRS, ENG, clearRc_apply, NVAR]
  · simp [locals, eigen, cfg2D, shearWave, entropyWave, acousticPlus, acousticMinus, set2,
      EXPAND, VX1, VX2, MX1, MX2, RHO, PRS, ENG, clearRc_apply, NVAR]
  · simp [locals, eigen, cfg2D, shearWave, entropyWave, acousticPlus, acousticMinus, set2,
      EXPAND, VX1, VX2, MX1, MX2, RHO, PRS, ENG, clearRc_apply, NVAR]

/-- C18 (the code at the failing input): isothermal 1-D build, γ = 5/3, Left = (ρ 1, v 0),
Right = (ρ 2, v 0), every uninitialised slot holding 3.  Whatever `C2Iso` is, the kernel's `a2`
is `½·(γ·3/1 + γ·3/2) = 15/4`: it is built from `γ`, the slot `PRS` and the two densities, and
`C2Iso` is not read. -/
theorem isothermal_a2_ignores_C2Iso (C2Iso : ℝ) (k j i : Nat) :
    (locals cfgIso1D Real.sqrt (constScratch 3) 0 (5 / 3) C2Iso (uniform2 1 0) (uniform2 2 0)
        k j i).av.a2 = 15 / 4 := by
  simp only [locals, loadStates_eq, average, cfgIso1D, NVAR, PRS, RHO, uniform2, constScratch]
  norm_num

end Bugs

/-! ## Characteristic decomposition and the Roe matrix condition -/

section WaveAlgebra

/-- The two acoustic waves taken together: `a` survives only through `a·a = a2`. -/
theorem acoustic_pair (P Q rb a a2 d1 dp : ℝ) (haa : a * a = a2) (ha2 : a2 ≠ 0) :
    1 / 2 / a2 * (dp - d1 * rb * a) * (P - Q * a) + 1 / 2 / a2 * (dp + d1 * rb * a) * (P + Q * a)
      = P * (dp / a2) + Q * (rb * d1) := by
  have h : 1 / 2 / a2 * (dp - d1 * rb * a) * (P - Q * a)
      + 1 / 2 / a2 * (dp + d1 * rb * a) * (P + Q * a)
      = P * (dp / a2) + Q * (rb * d1) * (a * a / a2) := by ring
  rw [h, haa, div_self ha2, mul_one]

theorem enthalpy_gap (h vel2 a2 g dp : ℝ) (ha2 : a2 ≠ 0) (hg : g - 1 ≠ 0)
    (hrel : a2 = (g - 1) * (h - 1 / 2 * vel2)) :
    dp / a2 * (h - 1 / 2 * vel2) = dp / (g - 1) := by
  have e : h - 1 / 2 * vel2 = a2 / (g - 1) := by rw [hrel]; field_simp; ring
  rw [e]; field_simp

/-- The wave sums of the ideal-gas eigensystem along the first axis, two velocity components,
in terms of the averaged state: once `a·a = a2 ≠ 0` and `a2 = (γ−1)(h − ½|u|²)`. -/
theorem wave_sums (u1 u2 h vel2 rb a a2 g d0 d1 d2 dp : ℝ) (haa : a * a = a2) (ha2 : a2 ≠ 0)
    (hg : g - 1 ≠ 0) (hrel : a2 = (g - 1) * (h - 1 / 2 * vel2)) :
    (1 / 2 / a2 * (dp - d1 * rb * a) * 1 + 1 / 2 / a2 * (dp + d1 * rb * a) * 1
        + (d0 - dp / a2) * 1 + rb * d2 * 0 = d0
      ∧ 1 / 2 / a2 * (dp - d1 * rb * a) * (u1 - a) + 1 / 2 / a2 * (dp + d1 * rb * a) * (u1 + a)
        + (d0 - dp / a2) * u1 + rb * d2 * 0 = u1 * d0 + rb * d1
      ∧ 1 / 2 / a2 * (dp - d1 * rb * a) * u2 + 1 / 2 / a2 * (dp + d1 * rb * a) * u2
        + (d0 - dp / a2) * u2 + rb * d2 * 1 = u2 * d0 + rb * d2
      ∧ 1 / 2 / a2 * (dp - d1 * rb * a) * (h - u1 * a)
        + 1 / 2 / a2 * (dp + d1 * rb * a) * (h + u1 * a)
        + (d0 - dp / a2) * (1 / 2 * vel2) + rb * d2 * u2
          = dp / (g - 1) + rb * (u1 * d1 + u2 * d2) + d0 * vel2 / 2)
    ∧ ((u1 - a) * (1 / 2 / a2 * (dp - d1 * rb * a)) * 1
        + (u1 + a) * (1 / 2 / a2 * (dp + d1 * rb * a)) * 1
        + u1 * (d0 - dp / a2) * 1 + u1 * (rb * d2) * 0 = u1 * d0 + rb * d1
      ∧ (u1 - a) * (1 / 2 / a2 * (dp - d1 * rb * a)) * (u1 - a)
        + (u1 + a) * (1 / 2 / a2 * (dp + d1 * rb * a)) * (u1 + a)
        + u1 * (d0 - dp / a2) * u1 + u1 * (rb * d2) * 0 = u1 * u1 * d0 + 2 * u1 * rb * d1 + dp
      ∧ (u1 - a) * (1 / 2 / a2 * (dp - d1 * rb * a)) * u2
        + (u1 + a) * (1 / 2 / a2 * (dp + d1 * rb * a)) * u2
        + u1 * (d0 - dp / a2) * u2 + u1 * (rb * d2) * 1
          = u1 * u2 * d0 + u2 * rb * d1 + u1 * rb * d2
      ∧ (u1 - a) * (1 / 2 / a2 * (dp - d1 * rb * a)) * (h - u1 * a)
        + (u1 + a) * (1 / 2 / a2 * (dp + d1 * rb * a)) * (h + u1 * a)
        + u1 * (d0 - dp / a2) * (1 / 2 * vel2) + u1 * (rb * d2) * u2
          = u1 * dp * g / (g - 1) + (u1 * u1 + h) * rb * d1 + u1 * u2 * rb * d2
            + u1 * vel2 * d0 / 2) := by
  have ent := enthalpy_gap h vel2 a2 g dp ha2 hg hrel
  have hone : a2 * a2⁻¹ = 1 := mul_inv_cancel₀ ha2
  have hgi : (g - 1) * (g - 1)⁻¹ = 1 := mul_inv_cancel₀ hg
  refine ⟨⟨?_, ?_, ?_, ?_⟩, ?_, ?_, ?_, ?_⟩
  · linear_combination acoustic_pair 1 0 rb a a2 d1 dp haa ha2
  · linear_combination acoustic_pair u1 1 rb a a2 d1 dp haa ha2
  · linear_combination acoustic_pair u2 0 rb a a2 d1 dp haa ha2
  · linear_combination acoustic_pair h u1 rb a a2 d1 dp haa ha2 + ent
  · linear_combination acoustic_pair u1 1 rb a a2 d1 dp haa ha2
  · linear_combination acoustic_pair (u1 * u1 + a2) (2 * u1) rb a a2 d1 dp haa ha2
      + (1 / 2 / a2 * (dp - d1 * rb * a) + 1 / 2 / a2 * (dp + d1 * rb * a)) * haa + dp * hone
  · linear_combination acoustic_pair (u1 * u2) u2 rb a a2 d1 dp haa ha2
  · linear_combination acoustic_pair (u1 * h + u1 * a2) (u1 * u1 + h) rb a a2 d1 dp haa ha2
      + (1 / 2 / a2 * (dp - d1 * rb * a) + 1 / 2 / a2 * (dp + d1 * rb * a)) * u1 * haa
      + u1 * dp * hone + u1 * ent - u1 * dp * hgi

end WaveAlgebra

section RoeAlgebra

/-- Roe's identity for a product: `Δ(ρ x) = x̄ Δρ + ρ̄ Δx` with `ρ_R = ρ_L s²`. -/
theorem roe_jump_one (rL rR s xL xR : ℝ) (hs : 0 < s) (hR : rR = rL * s ^ 2) :
    (1 / (1 + s) * xL + (1 - 1 / (1 + s)) * xR) * (rR - rL) + rL * s * (xR - xL)
      = rR * xR - rL * xL := by
  have h1 : 1 + s ≠ 0 := by linarith
  subst hR
  field_simp
  ring

/-- Roe's identity for a triple product: `Δ(ρ x y) = x̄ ȳ Δρ + ρ̄ (x̄ Δy + ȳ Δx)`. -/
theorem roe_jump_two (rL rR s xL xR yL yR : ℝ) (hs : 0 < s) (hR : rR = rL * s ^ 2) :
    (1 / (1 + s) * xL + (1 - 1 / (1 + s)) * xR) * (1 / (1 + s) * yL + (1 - 1 / (1 + s)) * yR)
        * (rR - rL)
      + rL * s * ((1 / (1 + s) * xL + (1 - 1 / (1 + s)) * xR) * (yR - yL)
        + (1 / (1 + s) * yL + (1 - 1 / (1 + s)) * yR) * (xR - xL))
      = rR * xR * yR - rL * xL * yL := by
  have h1 : 1 + s ≠ 0 := by linarith
  subst hR
  field_simp
  ring

/-- Density times specific enthalpy is total energy plus pressure. -/
theorem enthalpy_density (r x y p g : ℝ) (hr : r ≠ 0) (hg : g - 1 ≠ 0) :
    r * (1 / 2 * (x * x + y * y) + g * p / r * (1 / (g - 1)))
      = g * p / (g - 1) + 1 / 2 * r * (x * x + y * y) := by
  field_simp
  ring

/-- The Roe-average identities behind the decomposition of the jump and the matrix condition:
the averaged state turns the wave sums into the jumps of the conserved variables and of the
fluxes.  Two velocity components, sweep along the first one. -/
theorem roe_identities (rL rR s vL1 vL2 pL vR1 vR2 pR g u1 u2 h rb : ℝ) (hrL : rL ≠ 0)
    (hrR : rR ≠ 0) (hs : 0 < s) (hg : g - 1 ≠ 0) (hR : rR = rL * s ^ 2) (hrb : rb = rL * s)
    (hu1 : u1 = 1 / (1 + s) * vL1 + (1 - 1 / (1 + s)) * vR1)
    (hu2 : u2 = 1 / (1 + s) * vL2 + (1 - 1 / (1 + s)) * vR2)
    (hh : h = 1 / (1 + s) * (1 / 2 * (vL1 * vL1 + vL2 * vL2) + g * pL / rL * (1 / (g - 1)))
      + (1 - 1 / (1 + s)) * (1 / 2 * (vR1 * vR1 + vR2 * vR2) + g * pR / rR * (1 / (g - 1)))) :
    (u1 * (rR - rL) + rb * (vR1 - vL1) = rR * vR1 - rL * vL1
      ∧ u2 * (rR - rL) + rb * (vR2 - vL2) = rR * vR2 - rL * vL2
      ∧ (pR - pL) / (g - 1) + rb * (u1 * (vR1 - vL1) + u2 * (vR2 - vL2))
          + (rR - rL) * (u1 * u1 + u2 * u2) / 2
        = (pR / (g - 1) + 1 / 2 * rR * (vR1 * vR1 + vR2 * vR2))
          - (pL / (g - 1) + 1 / 2 * rL * (vL1 * vL1 + vL2 * vL2)))
    ∧ (u1 * u1 * (rR - rL) + 2 * u1 * rb * (vR1 - vL1) + (pR - pL)
        = (rR * vR1 * vR1 + pR) - (rL * vL1 * vL1 + pL)
      ∧ u1 * u2 * (rR - rL) + u2 * rb * (vR1 - vL1) + u1 * rb * (vR2 - vL2)
        = rR * vR2 * vR1 - rL * vL2 * vL1
      ∧ u1 * (pR - pL) * g / (g - 1) + (u1 * u1 + h) * rb * (vR1 - vL1)
          + u1 * u2 * rb * (vR2 - vL2) + u1 * (u1 * u1 + u2 * u2) * (rR - rL) / 2
        = (pR / (g - 1) + 1 / 2 * rR * (vR1 * vR1 + vR2 * vR2) + pR) * vR1
          - (pL / (g - 1) + 1 / 2 * rL * (vL1 * vL1 + vL2 * vL2) + pL) * vL1) := by
  have j1 := roe_jump_one rL rR s vL1 vR1 hs hR
  have j2 := roe_jump_one rL rR s vL2 vR2 hs hR
  have j11 := roe_jump_two rL rR s vL1 vR1 vL1 vR1 hs hR
  have j22 := roe_jump_two rL rR s vL2 vR2 vL2 vR2 hs hR
  have j12 := roe_jump_two rL rR s vL1 vR1 vL2 vR2 hs hR
  have jH := roe_jump_one rL rR s
    (1 / 2 * (vL1 * vL1 + vL2 * vL2) + g * pL / rL * (1 / (g - 1)))
    (1 / 2 * (vR1 * vR1 + vR2 * vR2) + g * pR / rR * (1 / (g - 1))) hs hR
  have jH1 := roe_jump_two rL rR s
    (1 / 2 * (vL1 * vL1 + vL2 * vL2) + g * pL / rL * (1 / (g - 1)))
    (1 / 2 * (vR1 * vR1 + vR2 * vR2) + g * pR / rR * (1 / (g - 1))) vL1 vR1 hs hR
  have eL := enthalpy_density rL vL1 vL2 pL g hrL hg
  have eR := enthalpy_density rR vR1 vR2 pR g hrR hg
  have hgi : (g - 1) * (g - 1)⁻¹ = 1 := mul_inv_cancel₀ hg
  rw [← hu1] at j1 j11 j12 jH1
  rw [← hu2] at j2 j22 j12
  rw [← hh] at jH jH1
  rw [← hrb] at j1 j2 j11 j22 j12 jH jH1
  generalize 1 / 2 * (vL1 * vL1 + vL2 * vL2) + g * pL / rL * (1 / (g - 1)) = HL at jH jH1 eL
  generalize 1 / 2 * (vR1 * vR1 + vR2 * vR2) + g * pR / rR * (1 / (g - 1)) = HR at jH jH1 eR
  refine ⟨⟨?_, ?_, ?_⟩, ?_, ?_, ?_⟩
  · linear_combination j1
  · linear_combination j2
  · linear_combination 1 / 2 * j11 + 1 / 2 * j22
  · linear_combination j11
  · linear_combination j12
  · linear_combination jH1 + u1 * (1 / 2 * j11 + 1 / 2 * j22 - jH) + (vR1 - u1) * eR
      - (vL1 - u1) * eL + (vR1 * pR - vL1 * pL) * hgi

end RoeAlgebra

section EigenTables

/-- The eigensystem of the ideal-gas build with two velocity components, sweep along the first
axis: every entry of `lambda`, `eta` and `Rc` below `NVAR = 4`. -/
theorem eigen_two {F : Type} [LinearOrderedField F] (D : Nat) (R : Bool) (vb mb : Nat)
    (sc : Scratch F) (av : Average F) (dv : Nat → F) :
    ((eigen ⟨2, D, EqOfState.IDEAL, R, vb, mb⟩ sc 0 av dv).lambda 0 = av.um 1 - av.a
      ∧ (eigen ⟨2, D, EqOfState.IDEAL, R, vb, mb⟩ sc 0 av dv).lambda 1 = av.um 1 + av.a
      ∧ (eigen ⟨2, D, EqOfState.IDEAL, R, vb, mb⟩ sc 0 av dv).lambda 2 = av.um 1
      ∧ (eigen ⟨2, D, EqOfState.IDEAL, R, vb, mb⟩ sc 0 av dv).lambda 3 = av.um 1)
    ∧ ((eigen ⟨2, D, EqOfState.IDEAL, R, vb, mb⟩ sc 0 av dv).eta 0
          = 1 / 2 / av.a2 * (dv 3 - dv 1 * av.um 0 * av.a)
      ∧ (eigen ⟨2, D, EqOfState.IDEAL, R, vb, mb⟩ sc 0 av dv).eta 1
          = 1 / 2 / av.a2 * (dv 3 + dv 1 * av.um 0 * av.a)
      ∧ (eigen ⟨2, D, EqOfState.IDEAL, R, vb, mb⟩ sc 0 av dv).eta 2 = dv 0 - dv 3 / av.a2
      ∧ (eigen ⟨2, D, EqOfState.IDEAL, R, vb, mb⟩ sc 0 av dv).eta 3 = av.um 0 * dv 2)
    ∧ ((eigen ⟨2, D, EqOfState.IDEAL, R, vb, mb⟩ sc 0 av dv).Rc 0 0 = 1
      ∧ (eigen ⟨2, D, EqOfState.IDEAL, R, vb, mb⟩ sc 0 av dv).Rc 0 1 = 1
      ∧ (eigen ⟨2, D, EqOfState.IDEAL, R, vb, mb⟩ sc 0 av dv).Rc 0 2 = 1
      ∧ (eigen ⟨2, D, EqOfState.IDEAL, R, vb, mb⟩ sc 0 av dv).Rc 0 3 = 0)
    ∧ ((eigen ⟨2, D, EqOfState.IDEAL, R, vb, mb⟩ sc 0 av dv).Rc 1 0 = av.um 1 - av.a
      ∧ (eigen ⟨2, D, EqOfState.IDEAL, R, vb, mb⟩ sc 0 av dv).Rc 1 1 = av.um 1 + av.a
      ∧ (eigen ⟨2, D, EqOfState.IDEAL, R, vb, mb⟩ sc 0 av dv).Rc 1 2 = av.um 1
      ∧ (eigen ⟨2, D, EqOfState.IDEAL, R, vb, mb⟩ sc 0 av dv).Rc 1 3 = 0)
    ∧ ((eigen ⟨2, D, EqOfState.IDEAL, R, vb, mb⟩ sc 0 av dv).Rc 2 0 = av.um 2
      ∧ (eigen ⟨2, D, EqOfState.IDEAL, R, vb, mb⟩ sc 0 av dv).Rc 2 1 = av.um 2
      ∧ (eigen ⟨2, D, EqOfState.IDEAL, R, vb, mb⟩ sc 0 av dv).Rc 2 2 = av.um 2
      ∧ (eigen ⟨2, D, EqOfState.IDEAL, R, vb, mb⟩ sc 0 av dv).Rc 2 3 = 1)
    ∧ ((eigen ⟨2, D, EqOfState.IDEAL, R, vb, mb⟩ sc 0 av dv).Rc 3 0 = av.h - av.um 1 * av.a
      ∧ (eigen ⟨2, D, EqOfState.IDEAL, R, vb, mb⟩ sc 0 av dv).Rc 3 1 = av.h + av.um 1 * av.a
      ∧ (eigen ⟨2, D, EqOfState.IDEAL, R, vb, mb⟩ sc 0 av dv).Rc 3 2 = 1 / 2 * av.vel2
      ∧ (eigen ⟨2, D, EqOfState.IDEAL, R, vb, mb⟩ sc 0 av dv).Rc 3 3 = av.um 2) := by
  simp [eigen, shearWave, entropyWave, acousticPlus, acousticMinus, set1, set2, EXPAND_two,
    clearRc_apply, NVAR, VX1, VX2, MX1, MX2, RHO, PRS, ENG]

/-- The eigensystem of the ideal-gas build with one velocity component: every entry below
`NVAR = 3`. -/
theorem eigen_one {F : Type} [LinearOrderedField F] (D : Nat) (R : Bool) (vb mb : Nat)
    (sc : Scratch F) (av : Average F) (dv : Nat → F) :
    ((eigen ⟨1, D, EqOfState.IDEAL, R, vb, mb⟩ sc 0 av dv).lambda 0 = av.um 1 - av.a
      ∧ (eigen ⟨1, D, EqOfState.IDEAL, R, vb, mb⟩ sc 0 av dv).lambda 1 = av.um 1 + av.a
      ∧ (eigen ⟨1, D, EqOfState.IDEAL, R, vb, mb⟩ sc 0 av dv).lambda 2 = av.um 1)
    ∧ ((eigen ⟨1, D, EqOfState.IDEAL, R, vb, mb⟩ sc 0 av dv).eta 0
          = 1 / 2 / av.a2 * (dv 2 - dv 1 * av.um 0 * av.a)
      ∧ (eigen ⟨1, D, EqOfState.IDEAL, R, vb, mb⟩ sc 0 av dv).eta 1
          = 1 / 2 / av.a2 * (dv 2 + dv 1 * av.um 0 * av.a)
      ∧ (eigen ⟨1, D, EqOfState.IDEAL, R, vb, mb⟩ sc 0 av dv).eta 2 = dv 0 - dv 2 / av.a2)
    ∧ ((eigen ⟨1, D, EqOfState.IDEAL, R, vb, mb⟩ sc 0 av dv).Rc 0 0 = 1
      ∧ (eigen ⟨1, D, EqOfState.IDEAL, R, vb, mb⟩ sc 0 av dv).Rc 0 1 = 1
      ∧ (eigen ⟨1, D, EqOfState.IDEAL, R, vb, mb⟩ sc 0 av dv).Rc 0 2 = 1)
    ∧ ((eigen ⟨1, D, EqOfState.IDEAL, R, vb, mb⟩ sc 0 av dv).Rc 1 0 = av.um 1 - av.a
      ∧ (eigen ⟨1, D, EqOfState.IDEAL, R, vb, mb⟩ sc 0 av dv).Rc 1 1 = av.um 1 + av.a
      ∧ (eigen ⟨1, D, EqOfState.IDEAL, R, vb, mb⟩ sc 0 av dv).Rc 1 2 = av.um 1)
    ∧ ((eigen ⟨1, D, EqOfState.IDEAL, R, vb, mb⟩ sc 0 av dv).Rc 2 0 = av.h - av.um 1 * av.a
      ∧ (eigen ⟨1, D, EqOfState.IDEAL, R, vb, mb⟩ sc 0 av dv).Rc 2 1 = av.h + av.um 1 * av.a
      ∧ (eigen ⟨1, D, EqOfState.IDEAL, R, vb, mb⟩ sc 0 av dv).Rc 2 2 = 1 / 2 * av.vel2) := by
  simp [eigen, shearWave, entropyWave, acousticPlus, acousticMinus, set1, set2, EXPAND_one,
    clearRc_apply, NVAR, VX1, VX2, MX1, MX2, RHO, PRS, ENG]

/-- The conservative state and the flux along the first axis, two velocity components. -/
theorem cons_flux_two {F : Type} [LinearOrderedField F] (D : Nat) (R : Bool) (vb mb : Nat)
    (U Fl V : Nat → F) (gm1 Cs2Iso : F) :
    (K_PrimToCons ⟨2, D, EqOfState.IDEAL, R, vb, mb⟩ U V gm1 0 = V 0
      ∧ K_PrimToCons ⟨2, D, EqOfState.IDEAL, R, vb, mb⟩ U V gm1 1 = V 0 * V 1
      ∧ K_PrimToCons ⟨2, D, EqOfState.IDEAL, R, vb, mb⟩ U V gm1 2 = V 0 * V 2
      ∧ K_PrimToCons ⟨2, D, EqOfState.IDEAL, R, vb, mb⟩ U V gm1 3
          = V 3 / gm1 + 1 / 2 * V 0 * (V 1 * V 1 + V 2 * V 2))
    ∧ (K_Flux ⟨2, D, EqOfState.IDEAL, R, vb, mb⟩ Fl V
          (K_PrimToCons ⟨2, D, EqOfState.IDEAL, R, vb, mb⟩ U V gm1) Cs2Iso 0 0 = V 0 * V 1
      ∧ K_Flux ⟨2, D, EqOfState.IDEAL, R, vb, mb⟩ Fl V
          (K_PrimToCons ⟨2, D, EqOfState.IDEAL, R, vb, mb⟩ U V gm1) Cs2Iso 0 1
            = V 0 * V 1 * V 1 + V 3
      ∧ K_Flux ⟨2, D, EqOfState.IDEAL, R, vb, mb⟩ Fl V
          (K_PrimToCons ⟨2, D, EqOfState.IDEAL, R, vb, mb⟩ U V gm1) Cs2Iso 0 2
            = V 0 * V 2 * V 1
      ∧ K_Flux ⟨2, D, EqOfState.IDEAL, R, vb, mb⟩ Fl V
          (K_PrimToCons ⟨2, D, EqOfState.IDEAL, R, vb, mb⟩ U V gm1) Cs2Iso 0 3
            = (V 3 / gm1 + 1 / 2 * V 0 * (V 1 * V 1 + V 2 * V 2) + V 3) * V 1) := by
  simp [K_Flux, K_PrimToCons, EXPAND_two, EXPANDsum_two, set1, VX1, VX2, MX1, MX2, RHO, PRS, ENG]

/-- The conservative state and the flux along the first axis, one velocity component. -/
theorem cons_flux_one {F : Type} [LinearOrderedField F] (D : Nat) (R : Bool) (vb mb : Nat)
    (U Fl V : Nat → F) (gm1 Cs2Iso : F) :
    (K_PrimToCons ⟨1, D, EqOfState.IDEAL, R, vb, mb⟩ U V gm1 0 = V 0
      ∧ K_PrimToCons ⟨1, D, EqOfState.IDEAL, R, vb, mb⟩ U V gm1 1 = V 0 * V 1
      ∧ K_PrimToCons ⟨1, D, EqOfState.IDEAL, R, vb, mb⟩ U V gm1 2
          = V 2 / gm1 + 1 / 2 * V 0 * (V 1 * V 1))
    ∧ (K_Flux ⟨1, D, EqOfState.IDEAL, R, vb, mb⟩ Fl V
          (K_PrimToCons ⟨1, D, EqOfState.IDEAL, R, vb, mb⟩ U V gm1) Cs2Iso 0 0 = V 0 * V 1
      ∧ K_Flux ⟨1, D, EqOfState.IDEAL, R, vb, mb⟩ Fl V
          (K_PrimToCons ⟨1, D, EqOfState.IDEAL, R, vb, mb⟩ U V gm1) Cs2Iso 0 1
            = V 0 * V 1 * V 1 + V 2
      ∧ K_Flux ⟨1, D, EqOfState.IDEAL, R, vb, mb⟩ Fl V
          (K_PrimToCons ⟨1, D, EqOfState.IDEAL, R, vb, mb⟩ U V gm1) Cs2Iso 0 2
            = (V 2 / gm1 + 1 / 2 * V 0 * (V 1 * V 1) + V 2) * V 1) := by
  simp [K_Flux, K_PrimToCons, EXPAND_one, EXPANDsum_one, set1, VX1, MX1, RHO, PRS, ENG]

end EigenTables

section RoeSums

set_option maxHeartbeats 1600000 in
/-- Two velocity components, sweep along the first axis: the wave sums built from the
Roe-averaged state are the jumps of the conservative state and of the flux. -/
theorem roe_sums_two (D : Nat) (hD : 1 ≤ D ∧ D ≤ 2) (vb mb : Nat) (sc : Scratch ℝ)
    (gamma C2Iso : ℝ) (hg : 1 < gamma) (vL vR dv : Nat → ℝ)
    (hdv : ∀ n, n < 4 → dv n = vR n - vL n) (hrL : 0 < vL 0) (hrR : 0 < vR 0)
    (hpL : 0 < vL 3) (hpR : 0 < vR 3) (UL UR FL FR : Nat → ℝ) (nv : Nat) (hnv : nv < 4) :
    (∑ m in Finset.range 4,
        (eigen ⟨2, D, EqOfState.IDEAL, true, vb, mb⟩ sc 0
            (average ⟨2, D, EqOfState.IDEAL, true, vb, mb⟩ Real.sqrt sc gamma vL vR) dv).eta m
          * (eigen ⟨2, D, EqOfState.IDEAL, true, vb, mb⟩ sc 0
            (average ⟨2, D, EqOfState.IDEAL, true, vb, mb⟩ Real.sqrt sc gamma vL vR) dv).Rc nv m
        = K_PrimToCons ⟨2, D, EqOfState.IDEAL, true, vb, mb⟩ UR vR (gamma - 1) nv
          - K_PrimToCons ⟨2, D, EqOfState.IDEAL, true, vb, mb⟩ UL vL (gamma - 1) nv)
    ∧ (∑ m in Finset.range 4,
        (eigen ⟨2, D, EqOfState.IDEAL, true, vb, mb⟩ sc 0
            (average ⟨2, D, EqOfState.IDEAL, true, vb, mb⟩ Real.sqrt sc gamma vL vR) dv).lambda m
          * (eigen ⟨2, D, EqOfState.IDEAL, true, vb, mb⟩ sc 0
            (average ⟨2, D, EqOfState.IDEAL, true, vb, mb⟩ Real.sqrt sc gamma vL vR) dv).eta m
          * (eigen ⟨2, D, EqOfState.IDEAL, true, vb, mb⟩ sc 0
            (average ⟨2, D, EqOfState.IDEAL, true, vb, mb⟩ Real.sqrt sc gamma vL vR) dv).Rc nv m
        = K_Flux ⟨2, D, EqOfState.IDEAL, true, vb, mb⟩ FR vR
            (K_PrimToCons ⟨2, D, EqOfState.IDEAL, true, vb, mb⟩ UR vR (gamma - 1)) C2Iso 0 nv
          - K_Flux ⟨2, D, EqOfState.IDEAL, true, vb, mb⟩ FL vL
            (K_PrimToCons ⟨2, D, EqOfState.IDEAL, true, vb, mb⟩ UL vL (gamma - 1)) C2Iso 0 nv) := by
  have hv : (⟨2, D, EqOfState.IDEAL, true, vb, mb⟩ : Config).Valid := ⟨hD.1, hD.2, Nat.le_succ 2⟩
  have ha2pos := average_a2_pos ⟨2, D, EqOfState.IDEAL, true, vb, mb⟩ hv rfl rfl sc gamma hg
    vL vR hrL hrR hpL hpR
  obtain ⟨hum0, humn, hvel, hh, ha2, ha⟩ := average_ideal_roe
    ⟨2, D, EqOfState.IDEAL, true, vb, mb⟩ hv rfl rfl Real.sqrt sc gamma vL vR
  have hum1 := humn 1 (le_refl 1) (Nat.le_succ 1)
  have hum2 := humn 2 (Nat.le_succ 1) (le_refl 2)
  rw [EXPANDsum_two] at hvel
  rw [EXPANDsum_two, EXPANDsum_two] at hh
  obtain ⟨⟨l0, l1, l2, l3⟩, ⟨e0, e1, e2, e3⟩, ⟨r00, r01, r02, r03⟩, ⟨r10, r11, r12, r13⟩,
    ⟨r20, r21, r22, r23⟩, ⟨r30, r31, r32, r33⟩⟩ := eigen_two D true vb mb sc
      (average ⟨2, D, EqOfState.IDEAL, true, vb, mb⟩ Real.sqrt sc gamma vL vR) dv
  obtain ⟨⟨cL0, cL1, cL2, cL3⟩, fL0, fL1, fL2, fL3⟩ :=
    cons_flux_two D true vb mb UL FL vL (gamma - 1) C2Iso
  obtain ⟨⟨cR0, cR1, cR2, cR3⟩, fR0, fR1, fR2, fR3⟩ :=
    cons_flux_two D true vb mb UR FR vR (gamma - 1) C2Iso
  obtain ⟨hs, -, hR⟩ := sqrt_swap (vL 0) (vR 0) hrL hrR
  have hg1 : gamma - 1 ≠ 0 := by linarith
  have haa : (average ⟨2, D, EqOfState.IDEAL, true, vb, mb⟩ Real.sqrt sc gamma vL vR).a
      * (average ⟨2, D, EqOfState.IDEAL, true, vb, mb⟩ Real.sqrt sc gamma vL vR).a
      = (average ⟨2, D, EqOfState.IDEAL, true, vb, mb⟩ Real.sqrt sc gamma vL vR).a2 := by
    rw [ha]; exact Real.mul_self_sqrt (le_of_lt ha2pos)
  obtain ⟨⟨w0, w1, w2, w3⟩, x0, x1, x2, x3⟩ := wave_sums
    ((average ⟨2, D, EqOfState.IDEAL, true, vb, mb⟩ Real.sqrt sc gamma vL vR).um 1)
    ((average ⟨2, D, EqOfState.IDEAL, true, vb, mb⟩ Real.sqrt sc gamma vL vR).um 2)
    (average ⟨2, D, EqOfState.IDEAL, true, vb, mb⟩ Real.sqrt sc gamma vL vR).h
    (average ⟨2, D, EqOfState.IDEAL, true, vb, mb⟩ Real.sqrt sc gamma vL vR).vel2
    ((average ⟨2, D, EqOfState.IDEAL, true, vb, mb⟩ Real.sqrt sc gamma vL vR).um 0)
    (average ⟨2, D, EqOfState.IDEAL, true, vb, mb⟩ Real.sqrt sc gamma vL vR).a
    (average ⟨2, D, EqOfState.IDEAL, true, vb, mb⟩ Real.sqrt sc gamma vL vR).a2
    gamma (dv 0) (dv 1) (dv 2) (dv 3) haa (ne_of_gt ha2pos) hg1 ha2
  obtain ⟨⟨i1, i2, i3⟩, k1, k2, k3⟩ := roe_identities (vL 0) (vR 0) (Real.sqrt (vR 0 / vL 0))
    (vL 1) (vL 2) (vL 3) (vR 1) (vR 2) (vR 3) gamma
    ((average ⟨2, D, EqOfState.IDEAL, true, vb, mb⟩ Real.sqrt sc gamma vL vR).um 1)
    ((average ⟨2, D, EqOfState.IDEAL, true, vb, mb⟩ Real.sqrt sc gamma vL vR).um 2)
    (average ⟨2, D, EqOfState.IDEAL, true, vb, mb⟩ Real.sqrt sc gamma vL vR).h
    ((average ⟨2, D, EqOfState.IDEAL, true, vb, mb⟩ Real.sqrt sc gamma vL vR).um 0)
    (ne_of_gt hrL) (ne_of_gt hrR) hs hg1 hR hum0 hum1 hum2 hh
  have d0 := hdv 0 (by decide)
  have d1 := hdv 1 (by decide)
  have d2 := hdv 2 (by decide)
  have d3 := hdv 3 (by decide)
  generalize (average ⟨2, D, EqOfState.IDEAL, true, vb, mb⟩ Real.sqrt sc gamma vL vR) = av at *
  generalize (eigen ⟨2, D, EqOfState.IDEAL, true, vb, mb⟩ sc 0 av dv) = eg at *
  simp only [Finset.sum_range_succ, Finset.sum_range_zero, zero_add]
  simp only [← d0, ← d1, ← d2, ← d3, ← hvel] at i1 i2 i3 k1 k2 k3
  interval_cases nv
  · rw [l0, l1, l2, l3, e0, e1, e2, e3, r00, r01, r02, r03, cL0, cR0, fL0, fR0]
    exact ⟨by linear_combination w0 + d0, by linear_combination x0 + i1⟩
  · rw [l0, l1, l2, l3, e0, e1, e2, e3, r10, r11, r12, r13, cL1, cR1, fL1, fR1]
    exact ⟨by linear_combination w1 + i1, by linear_combination x1 + k1⟩
  · rw [l0, l1, l2, l3, e0, e1, e2, e3, r20, r21, r22, r23, cL2, cR2, fL2, fR2]
    exact ⟨by linear_combination w2 + i2, by linear_combination x2 + k2⟩
  · rw [l0, l1, l2, l3, e0, e1, e2, e3, r30, r31, r32, r33, cL3, cR3, fL3, fR3]
    exact ⟨by linear_combination w3 + i3, by linear_combination x3 + k3⟩

end RoeSums

section RoeSumsOne

set_option maxHeartbeats 1600000 in
/-- One velocity component: the wave sums built from the Roe-averaged state are the jumps of
the conservative state and of the flux. -/
theorem roe_sums_one (vb mb : Nat) (sc : Scratch ℝ)
    (gamma C2Iso : ℝ) (hg : 1 < gamma) (vL vR dv : Nat → ℝ)
    (hdv : ∀ n, n < 3 → dv n = vR n - vL n) (hrL : 0 < vL 0) (hrR : 0 < vR 0)
    (hpL : 0 < vL 2) (hpR : 0 < vR 2) (UL UR FL FR : Nat → ℝ) (nv : Nat) (hnv : nv < 3) :
    (∑ m in Finset.range 3,
        (eigen ⟨1, 1, EqOfState.IDEAL, true, vb, mb⟩ sc 0
            (average ⟨1, 1, EqOfState.IDEAL, true, vb, mb⟩ Real.sqrt sc gamma vL vR) dv).eta m
          * (eigen ⟨1, 1, EqOfState.IDEAL, true, vb, mb⟩ sc 0
            (average ⟨1, 1, EqOfState.IDEAL, true, vb, mb⟩ Real.sqrt sc gamma vL vR) dv).Rc nv m
        = K_PrimToCons ⟨1, 1, EqOfState.IDEAL, true, vb, mb⟩ UR vR (gamma - 1) nv
          - K_PrimToCons ⟨1, 1, EqOfState.IDEAL, true, vb, mb⟩ UL vL (gamma - 1) nv)
    ∧ (∑ m in Finset.range 3,
        (eigen ⟨1, 1, EqOfState.IDEAL, true, vb, mb⟩ sc 0
            (average ⟨1, 1, EqOfState.IDEAL, true, vb, mb⟩ Real.sqrt sc gamma vL vR) dv).lambda m
          * (eigen ⟨1, 1, EqOfState.IDEAL, true, vb, mb⟩ sc 0
            (average ⟨1, 1, EqOfState.IDEAL, true, vb, mb⟩ Real.sqrt sc gamma vL vR) dv).eta m
          * (eigen ⟨1, 1, EqOfState.IDEAL, true, vb, mb⟩ sc 0
            (average ⟨1, 1, EqOfState.IDEAL, true, vb, mb⟩ Real.sqrt sc gamma vL vR) dv).Rc nv m
        = K_Flux ⟨1, 1, EqOfState.IDEAL, true, vb, mb⟩ FR vR
            (K_PrimToCons ⟨1, 1, EqOfState.IDEAL, true, vb, mb⟩ UR vR (gamma - 1)) C2Iso 0 nv
          - K_Flux ⟨1, 1, EqOfState.IDEAL, true, vb, mb⟩ FL vL
            (K_PrimToCons ⟨1, 1, EqOfState.IDEAL, true, vb, mb⟩ UL vL (gamma - 1)) C2Iso 0 nv) := by
  have hv : (⟨1, 1, EqOfState.IDEAL, true, vb, mb⟩ : Config).Valid :=
    ⟨le_refl 1, le_refl 1, Nat.le_succ_of_le (Nat.le_succ 1)⟩
  have ha2pos := average_a2_pos ⟨1, 1, EqOfState.IDEAL, true, vb, mb⟩ hv rfl rfl sc gamma hg
    vL vR hrL hrR hpL hpR
  obtain ⟨hum0, humn, hvel, hh, ha2, ha⟩ := average_ideal_roe
    ⟨1, 1, EqOfState.IDEAL, true, vb, mb⟩ hv rfl rfl Real.sqrt sc gamma vL vR
  have hum1 := humn 1 (le_refl 1) (le_refl 1)
  rw [EXPANDsum_one] at hvel
  rw [EXPANDsum_one, EXPANDsum_one] at hh
  have hP : PRS ⟨1, 1, EqOfState.IDEAL, true, vb, mb⟩ = 2 := rfl
  rw [hP] at hh
  obtain ⟨⟨l0, l1, l2⟩, ⟨e0, e1, e2⟩, ⟨r00, r01, r02⟩, ⟨r10, r11, r12⟩, ⟨r20, r21, r22⟩⟩ :=
    eigen_one 1 true vb mb sc
      (average ⟨1, 1, EqOfState.IDEAL, true, vb, mb⟩ Real.sqrt sc gamma vL vR) dv
  obtain ⟨⟨cL0, cL1, cL2⟩, fL0, fL1, fL2⟩ :=
    cons_flux_one 1 true vb mb UL FL vL (gamma - 1) C2Iso
  obtain ⟨⟨cR0, cR1, cR2⟩, fR0, fR1, fR2⟩ :=
    cons_flux_one 1 true vb mb UR FR vR (gamma - 1) C2Iso
  obtain ⟨hs, -, hR⟩ := sqrt_swap (vL 0) (vR 0) hrL hrR
  have hg1 : gamma - 1 ≠ 0 := by linarith
  have haa : (average ⟨1, 1, EqOfState.IDEAL, true, vb, mb⟩ Real.sqrt sc gamma vL vR).a
      * (average ⟨1, 1, EqOfState.IDEAL, true, vb, mb⟩ Real.sqrt sc gamma vL vR).a
      = (average ⟨1, 1, EqOfState.IDEAL, true, vb, mb⟩ Real.sqrt sc gamma vL vR).a2 := by
    rw [ha]; exact Real.mul_self_sqrt (le_of_lt ha2pos)
  obtain ⟨⟨w0, w1, -, w3⟩, x0, x1, -, x3⟩ := wave_sums
    ((average ⟨1, 1, EqOfState.IDEAL, true, vb, mb⟩ Real.sqrt sc gamma vL vR).um 1) 0
    (average ⟨1, 1, EqOfState.IDEAL, true, vb, mb⟩ Real.sqrt sc gamma vL vR).h
    (average ⟨1, 1, EqOfState.IDEAL, true, vb, mb⟩ Real.sqrt sc gamma vL vR).vel2
    ((average ⟨1, 1, EqOfState.IDEAL, true, vb, mb⟩ Real.sqrt sc gamma vL vR).um 0)
    (average ⟨1, 1, EqOfState.IDEAL, true, vb, mb⟩ Real.sqrt sc gamma vL vR).a
    (average ⟨1, 1, EqOfState.IDEAL, true, vb, mb⟩ Real.sqrt sc gamma vL vR).a2
    gamma (dv 0) (dv 1) 0 (dv 2) haa (ne_of_gt ha2pos) hg1 ha2
  obtain ⟨⟨i1, -, i3⟩, k1, -, k3⟩ := roe_identities (vL 0) (vR 0) (Real.sqrt (vR 0 / vL 0))
    (vL 1) 0 (vL 2) (vR 1) 0 (vR 2) gamma
    ((average ⟨1, 1, EqOfState.IDEAL, true, vb, mb⟩ Real.sqrt sc gamma vL vR).um 1) 0
    (average ⟨1, 1, EqOfState.IDEAL, true, vb, mb⟩ Real.sqrt sc gamma vL vR).h
    ((average ⟨1, 1, EqOfState.IDEAL, true, vb, mb⟩ Real.sqrt sc gamma vL vR).um 0)
    (ne_of_gt hrL) (ne_of_gt hrR) hs hg1 hR hum0 hum1 (by ring) (hh.trans (by ring))
  have d0 := hdv 0 (by decide)
  have d1 := hdv 1 (by decide)
  have d2 := hdv 2 (by decide)
  generalize (average ⟨1, 1, EqOfState.IDEAL, true, vb, mb⟩ Real.sqrt sc gamma vL vR) = av at *
  generalize (eigen ⟨1, 1, EqOfState.IDEAL, true, vb, mb⟩ sc 0 av dv) = eg at *
  simp only [Finset.sum_range_succ, Finset.sum_range_zero, zero_add]
  simp only [← d0, ← d1, ← d2] at i1 i3 k1 k3
  interval_cases nv
  · rw [l0, l1, l2, e0, e1, e2, r00, r01, r02, cL0, cR0, fL0, fR0]
    exact ⟨by linear_combination w0 + d0, by linear_combination x0 + i1⟩
  · rw [l0, l1, l2, e0, e1, e2, r10, r11, r12, cL1, cR1, fL1, fR1]
    exact ⟨by linear_combination w1 + i1, by linear_combination x1 + k1⟩
  · rw [l0, l1, l2, e0, e1, e2, r20, r21, r22, cL2, cR2, fL2, fR2]
    exact ⟨by linear_combination w3 + i3 + dv 0 / 2 * hvel,
      by linear_combination x3 + k3 + av.um 1 * dv 0 / 2 * hvel⟩

end RoeSumsOne

section RoeMatrix

/-- The jump loaded by the kernel is the difference of the two loaded states. -/
theorem locals_dv {F : Type} [LinearOrderedField F] (cfg : Config) (sqrt : F → F)
    (sc : Scratch F) (dir : Nat) (gamma C2Iso : F) (PrimL PrimR : Nat → Nat → Nat → Nat → F)
    (k j i nv : Nat) (hnv : nv < NVAR cfg) :
    (locals cfg sqrt sc dir gamma C2Iso PrimL PrimR k j i).dv nv
      = (locals cfg sqrt sc dir gamma C2Iso PrimL PrimR k j i).vR nv
        - (locals cfg sqrt sc dir gamma C2Iso PrimL PrimR k j i).vL nv := by
  obtain ⟨h1, h2, h3⟩ := locals_vL cfg sqrt sc dir gamma C2Iso PrimL PrimR k j i nv hnv
  rw [h1, h2, h3]

/-- The wave sums of the kernel at one interface (ideal gas, Roe average, sweep along the first
axis, at most two velocity components, positive densities and pressures, γ > 1): the jump of
the conservative state and the jump of the flux. -/
theorem locals_roe_sums (cfg : Config) (hv : cfg.Valid) (hE : cfg.EOS = EqOfState.IDEAL)
    (hR : cfg.ROE_AVERAGE = true) (hC : cfg.COMPONENTS ≤ 2) (sc : Scratch ℝ)
    (gamma C2Iso : ℝ) (hg : 1 < gamma) (PrimL PrimR : Nat → Nat → Nat → Nat → ℝ) (k j i : Nat)
    (hrL : 0 < PrimL RHO k j i) (hrR : 0 < PrimR RHO k j i)
    (hpL : 0 < PrimL (PRS cfg) k j i) (hpR : 0 < PrimR (PRS cfg) k j i)
    (nv : Nat) (hnv : nv < NVAR cfg) :
    (∑ m in Finset.range (NVAR cfg),
        (locals cfg Real.sqrt sc IDIR gamma C2Iso PrimL PrimR k j i).eig.eta m
          * (locals cfg Real.sqrt sc IDIR gamma C2Iso PrimL PrimR k j i).eig.Rc nv m
        = (locals cfg Real.sqrt sc IDIR gamma C2Iso PrimL PrimR k j i).uR nv
          - (locals cfg Real.sqrt sc IDIR gamma C2Iso PrimL PrimR k j i).uL nv)
    ∧ (∑ m in Finset.range (NVAR cfg),
        (locals cfg Real.sqrt sc IDIR gamma C2Iso PrimL PrimR k j i).eig.lambda m
          * (locals cfg Real.sqrt sc IDIR gamma C2Iso PrimL PrimR k j i).eig.eta m
          * (locals cfg Real.sqrt sc IDIR gamma C2Iso PrimL PrimR k j i).eig.Rc nv m
        = (locals cfg Real.sqrt sc IDIR gamma C2Iso PrimL PrimR k j i).fluxR nv
          - (locals cfg Real.sqrt sc IDIR gamma C2Iso PrimL PrimR k j i).fluxL nv) := by
  have hN := NVAR_ge_two cfg hv
  have hP : PRS cfg < NVAR cfg := by simp [PRS, NVAR, hE]
  have h0 : RHO < NVAR cfg := by simp only [RHO]; omega
  obtain ⟨l0, r0, -⟩ := locals_vL cfg Real.sqrt sc IDIR gamma C2Iso PrimL PrimR k j i RHO h0
  obtain ⟨lp, rp, -⟩ := locals_vL cfg Real.sqrt sc IDIR gamma C2Iso PrimL PrimR k j i (PRS cfg) hP
  rw [← l0] at hrL
  rw [← r0] at hrR
  rw [← lp] at hpL
  rw [← rp] at hpR
  have hdv := fun n (h : n < NVAR cfg) =>
    locals_dv cfg Real.sqrt sc IDIR gamma C2Iso PrimL PrimR k j i n h
  obtain ⟨C, D, E, R, vb, mb⟩ := cfg
  obtain ⟨h1, h2, h3⟩ := hv
  simp only at h1 h2 h3 hE hR hC
  subst hE hR
  have hC : C = 1 ∨ C = 2 := by omega
  rcases hC with rfl | rfl
  · have hD : D = 1 := by omega
    subst hD
    exact roe_sums_one vb mb sc gamma C2Iso hg _ _ _ hdv hrL hrR hpL hpR sc.uL sc.uR
      sc.fluxL sc.fluxR nv hnv
  · exact roe_sums_two D ⟨h1, h2⟩ vb mb sc gamma C2Iso hg _ _ _ hdv hrL hrR hpL hpR sc.uL sc.uR
      sc.fluxL sc.fluxR nv hnv

/-- C12: characteristic decomposition of the jump (ideal gas, Roe average, sweep along the
first axis, one or two velocity components, γ > 1).  For states with positive densities and
pressures the wave strengths and right eigenvectors built by the kernel satisfy
`Σ_k eta[k]·Rc[nv][k] = uR[nv] − uL[nv]` for every component `nv < NVAR`, where `uL`, `uR` are
the conservative states the kernel computes in lines 59-60. -/
theorem characteristic_decomposition (cfg : Config) (hv : cfg.Valid)
    (hE : cfg.EOS = EqOfState.IDEAL) (hR : cfg.ROE_AVERAGE = true) (hC : cfg.COMPONENTS ≤ 2)
    (sc : Scratch ℝ) (gamma C2Iso : ℝ) (hg : 1 < gamma)
    (PrimL PrimR : Nat → Nat → Nat → Nat → ℝ) (k j i : Nat)
    (hrL : 0 < PrimL RHO k j i) (hrR : 0 < PrimR RHO k j i)
    (hpL : 0 < PrimL (PRS cfg) k j i) (hpR : 0 < PrimR (PRS cfg) k j i)
    (nv : Nat) (hnv : nv < NVAR cfg) :
    ∑ m in Finset.range (NVAR cfg),
        (locals cfg Real.sqrt sc IDIR gamma C2Iso PrimL PrimR k j i).eig.eta m
          * (locals cfg Real.sqrt sc IDIR gamma C2Iso PrimL PrimR k j i).eig.Rc nv m
      = (locals cfg Real.sqrt sc IDIR gamma C2Iso PrimL PrimR k j i).uR nv
        - (locals cfg Real.sqrt sc IDIR gamma C2Iso PrimL PrimR k j i).uL nv :=
  (locals_roe_sums cfg hv hE hR hC sc gamma C2Iso hg PrimL PrimR k j i hrL hrR hpL hpR nv hnv).1

/-- Witness of `characteristic_decomposition`: the Sod pair in the 1-D build, momentum
component, where both conservative momenta vanish. -/
theorem characteristic_decomposition_witness :
    ∑ m in Finset.range 3,
        (locals cfg1D Real.sqrt (constScratch 0) IDIR (7 / 5) 1 (uniform3 1 0 1)
            (uniform3 (1 / 8) 0 (1 / 10)) 0 0 0).eig.eta m
          * (locals cfg1D Real.sqrt (constScratch 0) IDIR (7 / 5) 1 (uniform3 1 0 1)
            (uniform3 (1 / 8) 0 (1 / 10)) 0 0 0).eig.Rc 1 m
      = (locals cfg1D Real.sqrt (constScratch 0) IDIR (7 / 5) 1 (uniform3 1 0 1)
            (uniform3 (1 / 8) 0 (1 / 10)) 0 0 0).uR 1
        - (locals cfg1D Real.sqrt (constScratch 0) IDIR (7 / 5) 1 (uniform3 1 0 1)
            (uniform3 (1 / 8) 0 (1 / 10)) 0 0 0).uL 1 :=
  characteristic_decomposition cfg1D (by decide) rfl rfl (by decide) (constScratch 0) (7 / 5) 1
    (by norm_num) (uniform3 1 0 1) (uniform3 (1 / 8) 0 (1 / 10)) 0 0 0
    (by norm_num [uniform3, RHO]) (by norm_num [uniform3, RHO])
    (by norm_num [uniform3, PRS, cfg1D]) (by norm_num [uniform3, PRS, cfg1D]) 1 (by decide)

/-- C13: Roe matrix condition (ideal gas, Roe average, sweep along the first axis, one or two
velocity components, γ > 1).  For states with positive densities and pressures
`Σ_k lambda[k]·eta[k]·Rc[nv][k] = fluxR[nv] − fluxL[nv]` for every component `nv < NVAR`, where
`fluxL`, `fluxR` are the analytic fluxes of the two states (lines 67-68, pressure included in
the swept-momentum flux): the linearised flux difference is exactly conservative. -/
theorem roe_matrix_condition (cfg : Config) (hv : cfg.Valid)
    (hE : cfg.EOS = EqOfState.IDEAL) (hR : cfg.ROE_AVERAGE = true) (hC : cfg.COMPONENTS ≤ 2)
    (sc : Scratch ℝ) (gamma C2Iso : ℝ) (hg : 1 < gamma)
    (PrimL PrimR : Nat → Nat → Nat → Nat → ℝ) (k j i : Nat)
    (hrL : 0 < PrimL RHO k j i) (hrR : 0 < PrimR RHO k j i)
    (hpL : 0 < PrimL (PRS cfg) k j i) (hpR : 0 < PrimR (PRS cfg) k j i)
    (nv : Nat) (hnv : nv < NVAR cfg) :
    ∑ m in Finset.range (NVAR cfg),
        (locals cfg Real.sqrt sc IDIR gamma C2Iso PrimL PrimR k j i).eig.lambda m
          * (locals cfg Real.sqrt sc IDIR gamma C2Iso PrimL PrimR k j i).eig.eta m
          * (locals cfg Real.sqrt sc IDIR gamma C2Iso PrimL PrimR k j i).eig.Rc nv m
      = (locals cfg Real.sqrt sc IDIR gamma C2Iso PrimL PrimR k j i).fluxR nv
        - (locals cfg Real.sqrt sc IDIR gamma C2Iso PrimL PrimR k j i).fluxL nv :=
  (locals_roe_sums cfg hv hE hR hC sc gamma C2Iso hg PrimL PrimR k j i hrL hrR hpL hpR nv hnv).2

/-- Witness of `roe_matrix_condition`: the two-component build, energy component, for the pair
`(ρ 1, v₁ 1, v₂ 2, p 1)` / `(ρ 4, v₁ 0, v₂ 1, p 2)`. -/
theorem roe_matrix_condition_witness :
    ∑ m in Finset.range 4,
        (locals cfg2D Real.sqrt (constScratch 0) IDIR (7 / 5) 1 (uniform4 1 1 2 1)
            (uniform4 4 0 1 2) 0 0 0).eig.lambda m
          * (locals cfg2D Real.sqrt (constScratch 0) IDIR (7 / 5) 1 (uniform4 1 1 2 1)
            (uniform4 4 0 1 2) 0 0 0).eig.eta m
          * (locals cfg2D Real.sqrt (constScratch 0) IDIR (7 / 5) 1 (uniform4 1 1 2 1)
            (uniform4 4 0 1 2) 0 0 0).eig.Rc 3 m
      = (locals cfg2D Real.sqrt (constScratch 0) IDIR (7 / 5) 1 (uniform4 1 1 2 1)
            (uniform4 4 0 1 2) 0 0 0).fluxR 3
        - (locals cfg2D Real.sqrt (constScratch 0) IDIR (7 / 5) 1 (uniform4 1 1 2 1)
            (uniform4 4 0 1 2) 0 0 0).fluxL 3 :=
  roe_matrix_condition cfg2D (by decide) rfl rfl (by decide) (constScratch 0) (7 / 5) 1
    (by norm_num) (uniform4 1 1 2 1) (uniform4 4 0 1 2) 0 0 0
    (by norm_num [uniform4, RHO]) (by norm_num [uniform4, RHO])
    (by norm_num [uniform4, PRS, cfg2D]) (by norm_num [uniform4, PRS, cfg2D]) 3 (by decide)

end RoeMatrix

/-! ## The entropy-fix floor and the two-wave branch -/

section Floor

/-- The entropy-fixed magnitude dominates `|x|` and `δ/2`, and is `|x|` from `δ` on. -/
theorem fixedMagnitude_floor (x : ℝ) :
    |x| ≤ fixedMagnitude x ∧ 1 / 20000000 ≤ fixedMagnitude x
      ∧ (1 / 10000000 ≤ |x| → fixedMagnitude x = |x|) := by
  unfold fixedMagnitude
  have hsq : x ^ 2 = |x| ^ 2 := (sq_abs x).symm
  have h0 : 0 ≤ |x| := abs_nonneg x
  generalize |x| = y at hsq h0
  by_cases hc : y ≤ 1 / 10000000
  · rw [if_pos hc, hsq]
    refine ⟨?_, ?_, ?_⟩
    · have h := sq_nonneg (y - 1 / 10000000)
      have e : y ^ 2 / (2 * (1 / 10000000)) + 1 / 10000000 / 2 - y
          = 5000000 * (y - 1 / 10000000) ^ 2 := by ring
      linarith
    · have h := sq_nonneg y
      have e : y ^ 2 / (2 * (1 / 10000000)) = 5000000 * y ^ 2 := by ring
      rw [e]
      linarith
    · intro hge
      have hy : y = 1 / 10000000 := le_antisymm hc hge
      rw [hy]
      norm_num
  · rw [if_neg hc]
    refine ⟨le_refl y, ?_, fun _ => rfl⟩
    have : (1 : ℝ) / 10000000 < y := lt_of_not_le hc
    linarith

/-- C25: dissipation floor of the entropy fix.  For every eigenvalue held in an acoustic slot
(`m = 0` or `m = 1`) the coefficient computed by lines 279-290 is at least `|λ|` and at least
`δ/2 = 5e-8`, hence strictly positive, and it equals `|λ|` whenever `|λ| ≥ δ = 1e-7`. -/
theorem dissipation_floor (cfg : Config) (hv : cfg.Valid) (lambda alambda : Nat → ℝ)
    (m : Nat) (hm : m < 2) :
    |lambda m| ≤ entropyFix cfg lambda alambda m
      ∧ 1 / 20000000 ≤ entropyFix cfg lambda alambda m
      ∧ 0 < entropyFix cfg lambda alambda m
      ∧ (1 / 10000000 ≤ |lambda m| → entropyFix cfg lambda alambda m = |lambda m|) := by
  have hN := NVAR_ge_two cfg hv
  have he : entropyFix cfg lambda alambda m = fixedMagnitude (lambda m) := by
    rw [entropyFix_eq_dissipation cfg hN _ _ m (by omega)]
    simp [dissipation, hm]
  obtain ⟨h1, h2, h3⟩ := fixedMagnitude_floor (lambda m)
  rw [he]
  exact ⟨h1, h2, by linarith, h3⟩

/-- Witness of `dissipation_floor`: a vanishing eigenvalue in slot 0 of the 1-D build still
gets the coefficient `δ/2`. -/
theorem dissipation_floor_witness :
    (1 : ℝ) / 20000000 ≤ entropyFix cfg1D (fun _ => (0 : ℝ)) (fun _ => 0) 0 :=
  (dissipation_floor cfg1D (by decide) (fun _ => 0) (fun _ => 0) 0 (by decide)).2.1

end Floor

section TwoWave

/-- The flux written by the two-wave branch, in terms of the eigenvalues of slots 0 and 1. -/
theorem ROE_Kernel_flux_on {F : Type} [LinearOrderedField F] (cfg : Config)
    (hdim : 2 ≤ cfg.DIMENSIONS) (sqrt : F → F) (sc : Scratch F) (dir : Nat)
    (gamma C2Iso : F) (PrimL PrimR : Nat → Nat → Nat → Nat → F) (dx : Nat → F) (k j i : Nat)
    (st : (Nat → Nat → Nat → Nat → F) × (Nat → Nat → Nat → F))
    (hsw : shockSwitch dir (locals cfg sqrt sc dir gamma C2Iso PrimL PrimR k j i).scrh
      (locals cfg sqrt sc dir gamma C2Iso PrimL PrimR k j i).vL
      (locals cfg sqrt sc dir gamma C2Iso PrimL PrimR k j i).vR = true)
    (nv : Nat) (hnv : nv < NVAR cfg) :
    (ROE_Kernel cfg sqrt sc dir gamma C2Iso PrimL PrimR dx k j i st).1 nv k j i
      = (min 0 ((locals cfg sqrt sc dir gamma C2Iso PrimL PrimR k j i).eig.lambda 0)
            * max 0 ((locals cfg sqrt sc dir gamma C2Iso PrimL PrimR k j i).eig.lambda 1)
            * ((locals cfg sqrt sc dir gamma C2Iso PrimL PrimR k j i).uR nv
              - (locals cfg sqrt sc dir gamma C2Iso PrimL PrimR k j i).uL nv)
          + max 0 ((locals cfg sqrt sc dir gamma C2Iso PrimL PrimR k j i).eig.lambda 1)
            * (locals cfg sqrt sc dir gamma C2Iso PrimL PrimR k j i).fluxL nv
          - min 0 ((locals cfg sqrt sc dir gamma C2Iso PrimL PrimR k j i).eig.lambda 0)
            * (locals cfg sqrt sc dir gamma C2Iso PrimL PrimR k j i).fluxR nv)
        * (1 / (max 0 ((locals cfg sqrt sc dir gamma C2Iso PrimL PrimR k j i).eig.lambda 1)
          - min 0 ((locals cfg sqrt sc dir gamma C2Iso PrimL PrimR k j i).eig.lambda 0))) := by
  have hd : cfg.DIMENSIONS > 1 := hdim
  unfold ROE_Kernel
  simp only [hsw, if_true, hd]
  rw [hllWrite_apply, if_pos ⟨hnv, rfl, rfl, rfl⟩]

/-- The two acoustic eigenvalues of the kernel at one interface. -/
theorem locals_lambda {F : Type} [LinearOrderedField F] (cfg : Config) (sqrt : F → F)
    (sc : Scratch F) (dir : Nat) (gamma C2Iso : F) (PrimL PrimR : Nat → Nat → Nat → Nat → F)
    (k j i : Nat) :
    (locals cfg sqrt sc dir gamma C2Iso PrimL PrimR k j i).eig.lambda 0
        = (locals cfg sqrt sc dir gamma C2Iso PrimL PrimR k j i).av.um (VX1 + dir)
          - (locals cfg sqrt sc dir gamma C2Iso PrimL PrimR k j i).av.a
      ∧ (locals cfg sqrt sc dir gamma C2Iso PrimL PrimR k j i).eig.lambda 1
        = (locals cfg sqrt sc dir gamma C2Iso PrimL PrimR k j i).av.um (VX1 + dir)
          + (locals cfg sqrt sc dir gamma C2Iso PrimL PrimR k j i).av.a :=
  eigen_lambda_acoustic cfg sc dir (locals cfg sqrt sc dir gamma C2Iso PrimL PrimR k j i).av
    (locals cfg sqrt sc dir gamma C2Iso PrimL PrimR k j i).dv

/-- The two-wave formula when both bounds lie on one side of zero. -/
theorem two_wave_upwind (l0 l1 A dU fL fR : ℝ) (hA : 0 < A) (h0 : l0 = l1 - 2 * A) :
    (0 ≤ l0 → (min 0 l0 * max 0 l1 * dU + max 0 l1 * fL - min 0 l0 * fR)
        * (1 / (max 0 l1 - min 0 l0)) = fL)
      ∧ (l1 ≤ 0 → (min 0 l0 * max 0 l1 * dU + max 0 l1 * fL - min 0 l0 * fR)
        * (1 / (max 0 l1 - min 0 l0)) = fR) := by
  constructor
  · intro h
    have h1 : 0 < l1 := by linarith
    rw [min_eq_left h, max_eq_right (le_of_lt h1)]
    field_simp
  · intro h
    have h1 : l0 < 0 := by linarith
    rw [min_eq_right (le_of_lt h1), max_eq_left h]
    have h2 : l0 ≠ 0 := ne_of_lt h1
    field_simp

/-- The bounds of the two-wave branch for a positive sound speed. -/
theorem two_wave_bounds (l0 l1 A : ℝ) (hA : 0 < A) (h0 : l0 = l1 - 2 * A) :
    min 0 l0 ≤ 0 ∧ 0 ≤ max 0 l1 ∧ l1 - l0 = 2 * A ∧ l1 - l0 ≤ max 0 l1 - min 0 l0
      ∧ 0 < max 0 l1 - min 0 l0 := by
  have h1 : min 0 l0 ≤ l0 := min_le_right _ _
  have h2 : l1 ≤ max 0 l1 := le_max_right _ _
  refine ⟨min_le_left _ _, le_max_left _ _, by linarith, by linarith, by linarith⟩

end TwoWave

section TwoWaveClaims

/-- Positive densities and pressures give a positive averaged sound speed (ideal gas, Roe
average, γ > 1). -/
theorem locals_a_pos (cfg : Config) (hv : cfg.Valid)
    (hE : cfg.EOS = EqOfState.IDEAL) (hR : cfg.ROE_AVERAGE = true) (sc : Scratch ℝ) (dir : Nat)
    (gamma C2Iso : ℝ) (hg : 1 < gamma) (PrimL PrimR : Nat → Nat → Nat → Nat → ℝ) (k j i : Nat)
    (hrL : 0 < PrimL RHO k j i) (hrR : 0 < PrimR RHO k j i)
    (hpL : 0 < PrimL (PRS cfg) k j i) (hpR : 0 < PrimR (PRS cfg) k j i) :
    0 < (locals cfg Real.sqrt sc dir gamma C2Iso PrimL PrimR k j i).av.a2
      ∧ (locals cfg Real.sqrt sc dir gamma C2Iso PrimL PrimR k j i).av.a
        = Real.sqrt (locals cfg Real.sqrt sc dir gamma C2Iso PrimL PrimR k j i).av.a2
      ∧ 0 < (locals cfg Real.sqrt sc dir gamma C2Iso PrimL PrimR k j i).av.a := by
  have hN := NVAR_ge_two cfg hv
  have hP : PRS cfg < NVAR cfg := by simp [PRS, NVAR, hE]
  have h0 : RHO < NVAR cfg := by simp only [RHO]; omega
  obtain ⟨l0, r0, -⟩ := locals_vL cfg Real.sqrt sc dir gamma C2Iso PrimL PrimR k j i RHO h0
  obtain ⟨lp, rp, -⟩ := locals_vL cfg Real.sqrt sc dir gamma C2Iso PrimL PrimR k j i (PRS cfg) hP
  have ha2 : 0 < (locals cfg Real.sqrt sc dir gamma C2Iso PrimL PrimR k j i).av.a2 := by
    rw [locals_av]
    exact average_a2_pos cfg hv hE hR sc gamma hg _ _ (by rw [l0]; exact hrL)
      (by rw [r0]; exact hrR) (by rw [lp]; exact hpL) (by rw [rp]; exact hpR)
  have ha : (locals cfg Real.sqrt sc dir gamma C2Iso PrimL PrimR k j i).av.a
      = Real.sqrt (locals cfg Real.sqrt sc dir gamma C2Iso PrimL PrimR k j i).av.a2 := by
    rw [locals_av]
    exact (average_ideal_roe cfg hv hE hR Real.sqrt sc gamma _ _).2.2.2.2.2
  exact ⟨ha2, ha, by rw [ha]; exact Real.sqrt_pos.mpr ha2⟩

/-- The supersonic compressive pair Left = (ρ 1, v 5 0, p 2), Right = (ρ 1, v 4 0, p 1) of the
2-D build with γ = 1.4: the switch triggers, `u_n = 9/2`, `a2 = 43/20`, so `λ₀ > 0`. -/
theorem supersonic_pair (sc : Scratch ℝ) (C2Iso : ℝ) (k j i : Nat) :
    shockSwitch 0
        (locals cfg2D Real.sqrt sc 0 (7 / 5) C2Iso (uniform4 1 5 0 2) (uniform4 1 4 0 1)
          k j i).scrh
        (locals cfg2D Real.sqrt sc 0 (7 / 5) C2Iso (uniform4 1 5 0 2) (uniform4 1 4 0 1)
          k j i).vL
        (locals cfg2D Real.sqrt sc 0 (7 / 5) C2Iso (uniform4 1 5 0 2) (uniform4 1 4 0 1)
          k j i).vR = true
      ∧ 0 < (locals cfg2D Real.sqrt sc 0 (7 / 5) C2Iso (uniform4 1 5 0 2) (uniform4 1 4 0 1)
          k j i).av.a
      ∧ 0 ≤ (locals cfg2D Real.sqrt sc 0 (7 / 5) C2Iso (uniform4 1 5 0 2) (uniform4 1 4 0 1)
          k j i).eig.lambda 0 := by
  have hv : cfg2D.Valid := by decide
  have hsw : shockSwitch 0
      (locals cfg2D Real.sqrt sc 0 (7 / 5) C2Iso (uniform4 1 5 0 2) (uniform4 1 4 0 1)
        k j i).scrh
      (locals cfg2D Real.sqrt sc 0 (7 / 5) C2Iso (uniform4 1 5 0 2) (uniform4 1 4 0 1)
        k j i).vL
      (locals cfg2D Real.sqrt sc 0 (7 / 5) C2Iso (uniform4 1 5 0 2) (uniform4 1 4 0 1)
        k j i).vR = true := by
    simp only [locals, loadStates_eq, shockSwitch, shockIndicator, cfg2D, NVAR, PRS, VX1,
      uniform4]
    norm_num
  obtain ⟨-, ha, hapos⟩ := locals_a_pos cfg2D hv rfl rfl sc 0 (7 / 5) C2Iso (by norm_num)
    (uniform4 1 5 0 2) (uniform4 1 4 0 1) k j i (by norm_num [uniform4, RHO])
    (by norm_num [uniform4, RHO]) (by norm_num [uniform4, PRS, cfg2D])
    (by norm_num [uniform4, PRS, cfg2D])
  have ha2 := locals_a2_blend cfg2D hv rfl rfl sc 0 (7 / 5) C2Iso (by norm_num)
    (uniform4 1 5 0 2) (uniform4 1 4 0 1) k j i
  have ha2' : (locals cfg2D Real.sqrt sc 0 (7 / 5) C2Iso (uniform4 1 5 0 2) (uniform4 1 4 0 1)
      k j i).av.a2 = 43 / 20 := by
    rw [ha2]
    simp only [uniform4, RHO, PRS, cfg2D, VX1, VX2, VX3, EXPANDsum]
    norm_num
  have hum : (locals cfg2D Real.sqrt sc 0 (7 / 5) C2Iso (uniform4 1 5 0 2) (uniform4 1 4 0 1)
      k j i).av.um (VX1 + 0) = 9 / 2 := by
    rw [locals_av]
    have h := (average_ideal_roe cfg2D hv rfl rfl Real.sqrt sc (7 / 5)
      (locals cfg2D Real.sqrt sc 0 (7 / 5) C2Iso (uniform4 1 5 0 2) (uniform4 1 4 0 1) k j i).vL
      (locals cfg2D Real.sqrt sc 0 (7 / 5) C2Iso (uniform4 1 5 0 2) (uniform4 1 4 0 1)
        k j i).vR).2.1 1 (le_refl 1) (by decide)
    obtain ⟨l0, r0, -⟩ := locals_vL cfg2D Real.sqrt sc 0 (7 / 5) C2Iso (uniform4 1 5 0 2)
      (uniform4 1 4 0 1) k j i 0 (by decide)
    obtain ⟨l1, r1, -⟩ := locals_vL cfg2D Real.sqrt sc 0 (7 / 5) C2Iso (uniform4 1 5 0 2)
      (uniform4 1 4 0 1) k j i 1 (by decide)
    show (average cfg2D Real.sqrt sc (7 / 5) _ _).um 1 = 9 / 2
    rw [h, l0, r0, l1, r1]
    simp only [uniform4]
    norm_num
  refine ⟨hsw, hapos, ?_⟩
  rw [(locals_lambda cfg2D Real.sqrt sc 0 (7 / 5) C2Iso (uniform4 1 5 0 2) (uniform4 1 4 0 1)
    k j i).1, hum, ha, ha2', sub_nonneg, Real.sqrt_le_left (by norm_num)]
  norm_num

/-- C24: the diffusive branch never divides by zero when the averaged sound speed is strictly
positive: with `b_min = min(0, λ₀)` and `b_max = max(0, λ₁)` of lines 263-264,
`b_min ≤ 0 ≤ b_max` and `b_max − b_min ≥ λ₁ − λ₀ = 2a > 0`, for every build and direction. -/
theorem hll_denominator_positive (cfg : Config) (sc : Scratch ℝ) (dir : Nat)
    (gamma C2Iso : ℝ) (PrimL PrimR : Nat → Nat → Nat → Nat → ℝ) (k j i : Nat)
    (ha : 0 < (locals cfg Real.sqrt sc dir gamma C2Iso PrimL PrimR k j i).av.a) :
    min 0 ((locals cfg Real.sqrt sc dir gamma C2Iso PrimL PrimR k j i).eig.lambda 0) ≤ 0
      ∧ 0 ≤ max 0 ((locals cfg Real.sqrt sc dir gamma C2Iso PrimL PrimR k j i).eig.lambda 1)
      ∧ (locals cfg Real.sqrt sc dir gamma C2Iso PrimL PrimR k j i).eig.lambda 1
          - (locals cfg Real.sqrt sc dir gamma C2Iso PrimL PrimR k j i).eig.lambda 0
        = 2 * (locals cfg Real.sqrt sc dir gamma C2Iso PrimL PrimR k j i).av.a
      ∧ (locals cfg Real.sqrt sc dir gamma C2Iso PrimL PrimR k j i).eig.lambda 1
          - (locals cfg Real.sqrt sc dir gamma C2Iso PrimL PrimR k j i).eig.lambda 0
        ≤ max 0 ((locals cfg Real.sqrt sc dir gamma C2Iso PrimL PrimR k j i).eig.lambda 1)
          - min 0 ((locals cfg Real.sqrt sc dir gamma C2Iso PrimL PrimR k j i).eig.lambda 0)
      ∧ 0 < max 0 ((locals cfg Real.sqrt sc dir gamma C2Iso PrimL PrimR k j i).eig.lambda 1)
          - min 0 ((locals cfg Real.sqrt sc dir gamma C2Iso PrimL PrimR k j i).eig.lambda 0) := by
  obtain ⟨h0, h1⟩ := locals_lambda cfg Real.sqrt sc dir gamma C2Iso PrimL PrimR k j i
  exact two_wave_bounds _ _ _ ha (by rw [h0, h1]; ring)

/-- Witness of `hll_denominator_positive`: the supersonic compressive pair of the 2-D build. -/
theorem hll_denominator_positive_witness :
    0 < max 0 ((locals cfg2D Real.sqrt (constScratch 0) 0 (7 / 5) 1 (uniform4 1 5 0 2)
          (uniform4 1 4 0 1) 0 0 0).eig.lambda 1)
        - min 0 ((locals cfg2D Real.sqrt (constScratch 0) 0 (7 / 5) 1 (uniform4 1 5 0 2)
          (uniform4 1 4 0 1) 0 0 0).eig.lambda 0) :=
  (hll_denominator_positive cfg2D (constScratch 0) 0 (7 / 5) 1 (uniform4 1 5 0 2)
    (uniform4 1 4 0 1) 0 0 0 (supersonic_pair (constScratch 0) 1 0 0 0).2.1).2.2.2.2

/-- C23: upwind property of the diffusive branch.  With at least two dimensions, a positive
averaged sound speed and the shock switch triggered, the flux written in every component is
`F_L` when `λ₀ ≥ 0` and `F_R` when `λ₁ ≤ 0`. -/
theorem hll_upwind (cfg : Config) (hdim : 2 ≤ cfg.DIMENSIONS) (sc : Scratch ℝ)
    (dir : Nat) (gamma C2Iso : ℝ) (PrimL PrimR : Nat → Nat → Nat → Nat → ℝ) (dx : Nat → ℝ)
    (k j i : Nat) (st : (Nat → Nat → Nat → Nat → ℝ) × (Nat → Nat → Nat → ℝ))
    (hsw : shockSwitch dir (locals cfg Real.sqrt sc dir gamma C2Iso PrimL PrimR k j i).scrh
      (locals cfg Real.sqrt sc dir gamma C2Iso PrimL PrimR k j i).vL
      (locals cfg Real.sqrt sc dir gamma C2Iso PrimL PrimR k j i).vR = true)
    (ha : 0 < (locals cfg Real.sqrt sc dir gamma C2Iso PrimL PrimR k j i).av.a) :
    (0 ≤ (locals cfg Real.sqrt sc dir gamma C2Iso PrimL PrimR k j i).eig.lambda 0 →
        ∀ nv < NVAR cfg,
          (ROE_Kernel cfg Real.sqrt sc dir gamma C2Iso PrimL PrimR dx k j i st).1 nv k j i
            = (locals cfg Real.sqrt sc dir gamma C2Iso PrimL PrimR k j i).fluxL nv)
      ∧ ((locals cfg Real.sqrt sc dir gamma C2Iso PrimL PrimR k j i).eig.lambda 1 ≤ 0 →
        ∀ nv < NVAR cfg,
          (ROE_Kernel cfg Real.sqrt sc dir gamma C2Iso PrimL PrimR dx k j i st).1 nv k j i
            = (locals cfg Real.sqrt sc dir gamma C2Iso PrimL PrimR k j i).fluxR nv) := by
  obtain ⟨h0, h1⟩ := locals_lambda cfg Real.sqrt sc dir gamma C2Iso PrimL PrimR k j i
  have hl : (locals cfg Real.sqrt sc dir gamma C2Iso PrimL PrimR k j i).eig.lambda 0
      = (locals cfg Real.sqrt sc dir gamma C2Iso PrimL PrimR k j i).eig.lambda 1
        - 2 * (locals cfg Real.sqrt sc dir gamma C2Iso PrimL PrimR k j i).av.a := by
    rw [h0, h1]; ring
  constructor
  · intro hpos nv hnv
    rw [ROE_Kernel_flux_on cfg hdim Real.sqrt sc dir gamma C2Iso PrimL PrimR dx k j i st hsw nv hnv]
    exact (two_wave_upwind _ _ _ _ _ _ ha hl).1 hpos
  · intro hneg nv hnv
    rw [ROE_Kernel_flux_on cfg hdim Real.sqrt sc dir gamma C2Iso PrimL PrimR dx k j i st hsw nv hnv]
    exact (two_wave_upwind _ _ _ _ _ _ ha hl).2 hneg

/-- Witness of `hll_upwind`: the supersonic compressive pair of the 2-D build; the two-wave
branch writes the left mass flux. -/
theorem hll_upwind_witness :
    (ROE_Kernel cfg2D Real.sqrt (constScratch 0) 0 (7 / 5) 1 (uniform4 1 5 0 2)
        (uniform4 1 4 0 1) (fun _ => 1) 0 0 0 (fun _ _ _ _ => 0, fun _ _ _ => 0)).1 0 0 0 0
      = (locals cfg2D Real.sqrt (constScratch 0) 0 (7 / 5) 1 (uniform4 1 5 0 2)
        (uniform4 1 4 0 1) 0 0 0).fluxL 0 :=
  (hll_upwind cfg2D (by decide) (constScratch 0) 0 (7 / 5) 1 (uniform4 1 5 0 2)
    (uniform4 1 4 0 1) (fun _ => 1) 0 0 0 (fun _ _ _ _ => 0, fun _ _ _ => 0)
    (supersonic_pair (constScratch 0) 1 0 0 0).1 (supersonic_pair (constScratch 0) 1 0 0 0).2.1).1
    (supersonic_pair (constScratch 0) 1 0 0 0).2.2 0 (by decide)

end TwoWaveClaims

/-! ## Upwind property of the characteristic branch -/

section RoeUpwind

/-- The dissipation coefficient of an eigenvalue beyond `δ` on either side of zero. -/
theorem dissipation_of_sign (lambda : Nat → ℝ) (m : Nat) :
    (1 / 10000000 < lambda m → dissipation lambda m = lambda m)
      ∧ (lambda m < -(1 / 10000000) → dissipation lambda m = -lambda m) := by
  constructor
  · intro h
    have hp : 0 < lambda m := by linarith
    unfold dissipation
    split_ifs
    · rw [fixedMagnitude_of_large _ (by rw [abs_of_pos hp]; exact h), abs_of_pos hp]
    · exact abs_of_pos hp
  · intro h
    have hn : lambda m < 0 := by linarith
    unfold dissipation
    split_ifs
    · rw [fixedMagnitude_of_large _ (by rw [abs_of_neg hn]; linarith), abs_of_neg hn]
    · exact abs_of_neg hn

/-- Every eigenvalue of the kernel lies between `λ₀` and `λ₁` when `a ≥ 0`. -/
theorem locals_lambda_between (cfg : Config) (hv : cfg.Valid) (sc : Scratch ℝ) (dir : Nat)
    (gamma C2Iso : ℝ) (PrimL PrimR : Nat → Nat → Nat → Nat → ℝ) (k j i : Nat)
    (m : Nat) (hm : m < NVAR cfg) :
    (locals cfg Real.sqrt sc dir gamma C2Iso PrimL PrimR k j i).eig.lambda 0
        ≤ (locals cfg Real.sqrt sc dir gamma C2Iso PrimL PrimR k j i).eig.lambda m
      ∧ (locals cfg Real.sqrt sc dir gamma C2Iso PrimL PrimR k j i).eig.lambda m
        ≤ (locals cfg Real.sqrt sc dir gamma C2Iso PrimL PrimR k j i).eig.lambda 1 := by
  obtain ⟨h0, h1⟩ := locals_lambda cfg Real.sqrt sc dir gamma C2Iso PrimL PrimR k j i
  have ha : 0 ≤ (locals cfg Real.sqrt sc dir gamma C2Iso PrimL PrimR k j i).av.a := by
    rw [locals_av]; exact average_a_nonneg _ _ _ _ _
  have hm' : m = 0 ∨ m = 1 ∨ 2 ≤ m := by omega
  rcases hm' with rfl | rfl | h2
  · exact ⟨le_refl _, by rw [h0, h1]; linarith⟩
  · exact ⟨by rw [h0, h1]; linarith, le_refl _⟩
  · have hs : (locals cfg Real.sqrt sc dir gamma C2Iso PrimL PrimR k j i).eig.lambda m
        = (locals cfg Real.sqrt sc dir gamma C2Iso PrimL PrimR k j i).av.um (VX1 + dir) :=
      eigen_lambda_shear cfg hv sc dir _ _ m h2 hm
    rw [h0, h1, hs]
    exact ⟨by linarith, by linarith⟩

/-- C22: upwind property of the characteristic branch (ideal gas, Roe average, sweep along the
first axis, one or two velocity components — in particular the 1-D build —, positive densities
and pressures, γ > 1, shock switch not triggered).  If `λ₀ = u_n − a > δ` the flux written is
the left analytic flux in every component; if `λ₁ = u_n + a < −δ` it is the right one. -/
theorem roe_upwind (cfg : Config) (hv : cfg.Valid)
    (hE : cfg.EOS = EqOfState.IDEAL) (hR : cfg.ROE_AVERAGE = true) (hC : cfg.COMPONENTS ≤ 2)
    (sc : Scratch ℝ) (gamma C2Iso : ℝ) (hg : 1 < gamma)
    (PrimL PrimR : Nat → Nat → Nat → Nat → ℝ) (dx : Nat → ℝ) (k j i : Nat)
    (hrL : 0 < PrimL RHO k j i) (hrR : 0 < PrimR RHO k j i)
    (hpL : 0 < PrimL (PRS cfg) k j i) (hpR : 0 < PrimR (PRS cfg) k j i)
    (st : (Nat → Nat → Nat → Nat → ℝ) × (Nat → Nat → Nat → ℝ))
    (hsw : shockSwitch IDIR (locals cfg Real.sqrt sc IDIR gamma C2Iso PrimL PrimR k j i).scrh
      (locals cfg Real.sqrt sc IDIR gamma C2Iso PrimL PrimR k j i).vL
      (locals cfg Real.sqrt sc IDIR gamma C2Iso PrimL PrimR k j i).vR = false) :
    (1 / 10000000 < (locals cfg Real.sqrt sc IDIR gamma C2Iso PrimL PrimR k j i).eig.lambda 0 →
        ∀ nv < NVAR cfg,
          (ROE_Kernel cfg Real.sqrt sc IDIR gamma C2Iso PrimL PrimR dx k j i st).1 nv k j i
            = (locals cfg Real.sqrt sc IDIR gamma C2Iso PrimL PrimR k j i).fluxL nv)
      ∧ ((locals cfg Real.sqrt sc IDIR gamma C2Iso PrimL PrimR k j i).eig.lambda 1
          < -(1 / 10000000) →
        ∀ nv < NVAR cfg,
          (ROE_Kernel cfg Real.sqrt sc IDIR gamma C2Iso PrimL PrimR dx k j i st).1 nv k j i
            = (locals cfg Real.sqrt sc IDIR gamma C2Iso PrimL PrimR k j i).fluxR nv) := by
  have hN := NVAR_ge_two cfg hv
  constructor
  · intro hpos nv hnv
    rw [ROE_Kernel_flux_off cfg hN Real.sqrt sc IDIR gamma C2Iso PrimL PrimR dx k j i st hsw nv hnv]
    have hsum := (locals_roe_sums cfg hv hE hR hC sc gamma C2Iso hg PrimL PrimR k j i hrL hrR
      hpL hpR nv hnv).2
    have hc : ∑ m in Finset.range (NVAR cfg),
        dissipation (locals cfg Real.sqrt sc IDIR gamma C2Iso PrimL PrimR k j i).eig.lambda m
          * (locals cfg Real.sqrt sc IDIR gamma C2Iso PrimL PrimR k j i).eig.eta m
          * (locals cfg Real.sqrt sc IDIR gamma C2Iso PrimL PrimR k j i).eig.Rc nv m
        = ∑ m in Finset.range (NVAR cfg),
          (locals cfg Real.sqrt sc IDIR gamma C2Iso PrimL PrimR k j i).eig.lambda m
            * (locals cfg Real.sqrt sc IDIR gamma C2Iso PrimL PrimR k j i).eig.eta m
            * (locals cfg Real.sqrt sc IDIR gamma C2Iso PrimL PrimR k j i).eig.Rc nv m := by
      apply Finset.sum_congr rfl
      intro m hm
      have hb := (locals_lambda_between cfg hv sc IDIR gamma C2Iso PrimL PrimR k j i m
        (Finset.mem_range.mp hm)).1
      rw [(dissipation_of_sign _ m).1 (lt_of_lt_of_le hpos hb)]
    rw [hc, hsum]
    ring
  · intro hneg nv hnv
    rw [ROE_Kernel_flux_off cfg hN Real.sqrt sc IDIR gamma C2Iso PrimL PrimR dx k j i st hsw nv hnv]
    have hsum := (locals_roe_sums cfg hv hE hR hC sc gamma C2Iso hg PrimL PrimR k j i hrL hrR
      hpL hpR nv hnv).2
    have hc : ∑ m in Finset.range (NVAR cfg),
        dissipation (locals cfg Real.sqrt sc IDIR gamma C2Iso PrimL PrimR k j i).eig.lambda m
          * (locals cfg Real.sqrt sc IDIR gamma C2Iso PrimL PrimR k j i).eig.eta m
          * (locals cfg Real.sqrt sc IDIR gamma C2Iso PrimL PrimR k j i).eig.Rc nv m
        = -∑ m in Finset.range (NVAR cfg),
          (locals cfg Real.sqrt sc IDIR gamma C2Iso PrimL PrimR k j i).eig.lambda m
            * (locals cfg Real.sqrt sc IDIR gamma C2Iso PrimL PrimR k j i).eig.eta m
            * (locals cfg Real.sqrt sc IDIR gamma C2Iso PrimL PrimR k j i).eig.Rc nv m := by
      rw [← Finset.sum_neg_distrib]
      apply Finset.sum_congr rfl
      intro m hm
      have hb := (locals_lambda_between cfg hv sc IDIR gamma C2Iso PrimL PrimR k j i m
        (Finset.mem_range.mp hm)).2
      rw [(dissipation_of_sign _ m).2 (lt_of_le_of_lt hb hneg)]
      ring
    rw [hc, hsum]
    ring

/-- The uniform supersonic state (ρ 1, v 3, p 1) of the 1-D build with γ = 1.4 on both sides:
the switch is off and `λ₀ = 3 − √1.4 > δ`. -/
theorem supersonic_uniform (sc : Scratch ℝ) (C2Iso : ℝ) (k j i : Nat) :
    shockSwitch IDIR
        (locals cfg1D Real.sqrt sc IDIR (7 / 5) C2Iso (uniform3 1 3 1) (uniform3 1 3 1)
          k j i).scrh
        (locals cfg1D Real.sqrt sc IDIR (7 / 5) C2Iso (uniform3 1 3 1) (uniform3 1 3 1)
          k j i).vL
        (locals cfg1D Real.sqrt sc IDIR (7 / 5) C2Iso (uniform3 1 3 1) (uniform3 1 3 1)
          k j i).vR = false
      ∧ 1 / 10000000 < (locals cfg1D Real.sqrt sc IDIR (7 / 5) C2Iso (uniform3 1 3 1)
          (uniform3 1 3 1) k j i).eig.lambda 0 := by
  have hv : cfg1D.Valid := by decide
  have hsw : shockSwitch IDIR
      (locals cfg1D Real.sqrt sc IDIR (7 / 5) C2Iso (uniform3 1 3 1) (uniform3 1 3 1)
        k j i).scrh
      (locals cfg1D Real.sqrt sc IDIR (7 / 5) C2Iso (uniform3 1 3 1) (uniform3 1 3 1)
        k j i).vL
      (locals cfg1D Real.sqrt sc IDIR (7 / 5) C2Iso (uniform3 1 3 1) (uniform3 1 3 1)
        k j i).vR = false := by
    simp only [locals, loadStates_eq, shockSwitch, shockIndicator, cfg1D, NVAR, PRS, VX1,
      uniform3, IDIR]
    norm_num
  obtain ⟨-, ha, -⟩ := locals_a_pos cfg1D hv rfl rfl sc IDIR (7 / 5) C2Iso (by norm_num)
    (uniform3 1 3 1) (uniform3 1 3 1) k j i (by norm_num [uniform3, RHO])
    (by norm_num [uniform3, RHO]) (by norm_num [uniform3, PRS, cfg1D])
    (by norm_num [uniform3, PRS, cfg1D])
  have ha2 := locals_a2_blend cfg1D hv rfl rfl sc IDIR (7 / 5) C2Iso (by norm_num)
    (uniform3 1 3 1) (uniform3 1 3 1) k j i
  have ha2' : (locals cfg1D Real.sqrt sc IDIR (7 / 5) C2Iso (uniform3 1 3 1) (uniform3 1 3 1)
      k j i).av.a2 = 7 / 5 := by
    rw [ha2]
    simp only [uniform3, RHO, PRS, cfg1D, VX1, VX2, VX3, EXPANDsum]
    norm_num
  have hum : (locals cfg1D Real.sqrt sc IDIR (7 / 5) C2Iso (uniform3 1 3 1) (uniform3 1 3 1)
      k j i).av.um (VX1 + IDIR) = 3 := by
    rw [locals_av]
    have h := (average_ideal_roe cfg1D hv rfl rfl Real.sqrt sc (7 / 5)
      (locals cfg1D Real.sqrt sc IDIR (7 / 5) C2Iso (uniform3 1 3 1) (uniform3 1 3 1) k j i).vL
      (locals cfg1D Real.sqrt sc IDIR (7 / 5) C2Iso (uniform3 1 3 1) (uniform3 1 3 1)
        k j i).vR).2.1 1 (le_refl 1) (le_refl 1)
    obtain ⟨l0, r0, -⟩ := locals_vL cfg1D Real.sqrt sc IDIR (7 / 5) C2Iso (uniform3 1 3 1)
      (uniform3 1 3 1) k j i 0 (by decide)
    obtain ⟨l1, r1, -⟩ := locals_vL cfg1D Real.sqrt sc IDIR (7 / 5) C2Iso (uniform3 1 3 1)
      (uniform3 1 3 1) k j i 1 (by decide)
    show (average cfg1D Real.sqrt sc (7 / 5) _ _).um 1 = 3
    rw [h, l0, r0, l1, r1]
    simp only [uniform3]
    norm_num
  refine ⟨hsw, ?_⟩
  rw [(locals_lambda cfg1D Real.sqrt sc IDIR (7 / 5) C2Iso (uniform3 1 3 1) (uniform3 1 3 1)
    k j i).1, hum, ha, ha2']
  have h2 : Real.sqrt (7 / 5) < 2 := by
    rw [Real.sqrt_lt' (by norm_num)]; norm_num
  linarith

/-- Witness of `roe_upwind`: the uniform supersonic state of the 1-D build; the characteristic
branch writes the left energy flux. -/
theorem roe_upwind_witness :
    (ROE_Kernel cfg1D Real.sqrt (constScratch 0) IDIR (7 / 5) 1 (uniform3 1 3 1)
        (uniform3 1 3 1) (fun _ => 1) 0 0 0 (fun _ _ _ _ => 0, fun _ _ _ => 0)).1 2 0 0 0
      = (locals cfg1D Real.sqrt (constScratch 0) IDIR (7 / 5) 1 (uniform3 1 3 1)
        (uniform3 1 3 1) 0 0 0).fluxL 2 :=
  (roe_upwind cfg1D (by decide) rfl rfl (by decide) (constScratch 0) (7 / 5) 1 (by norm_num)
    (uniform3 1 3 1) (uniform3 1 3 1) (fun _ => 1) 0 0 0 (by norm_num [uniform3, RHO])
    (by norm_num [uniform3, RHO]) (by norm_num [uniform3, PRS, cfg1D])
    (by norm_num [uniform3, PRS, cfg1D]) (fun _ _ _ _ => 0, fun _ _ _ => 0)
    (supersonic_uniform (constScratch 0) 1 0 0 0).1).1
    (supersonic_uniform (constScratch 0) 1 0 0 0).2 2 (by decide)

end RoeUpwind

/-! ## Componentwise reflection in one dimension -/

section ReflectionOneD

/-- The branch decision of line 261 is the same for a pair and for its mirror image. -/
theorem shockSwitch_reflect {F : Type} [LinearOrderedField F] (cfg : Config)
    (hE : cfg.EOS = EqOfState.IDEAL) (sqrt : F → F) (sc sc' : Scratch F)
    (dir : Nat) (hdir : dir < cfg.COMPONENTS) (gamma C2Iso : F)
    (PrimL PrimR : Nat → Nat → Nat → Nat → F) (k j i : Nat) :
    shockSwitch dir
        (locals cfg sqrt sc' dir gamma C2Iso (reflectPrim dir PrimR) (reflectPrim dir PrimL)
          k j i).scrh
        (locals cfg sqrt sc' dir gamma C2Iso (reflectPrim dir PrimR) (reflectPrim dir PrimL)
          k j i).vL
        (locals cfg sqrt sc' dir gamma C2Iso (reflectPrim dir PrimR) (reflectPrim dir PrimL)
          k j i).vR
      = shockSwitch dir (locals cfg sqrt sc dir gamma C2Iso PrimL PrimR k j i).scrh
          (locals cfg sqrt sc dir gamma C2Iso PrimL PrimR k j i).vL
          (locals cfg sqrt sc dir gamma C2Iso PrimL PrimR k j i).vR := by
  have hPn : PRS cfg ≠ VX1 + dir := by simp only [PRS, VX1]; omega
  rw [shockSwitch_ideal cfg hE sqrt sc' dir hdir, shockSwitch_ideal cfg hE sqrt sc dir hdir]
  simp only [reflectPrim, if_neg hPn, if_true, neg_lt_neg_iff,
    abs_sub_comm (PrimL (PRS cfg) k j i), min_comm (PrimR (PRS cfg) k j i)]

/-- C26: componentwise reflection law (1-D ideal gas, Roe average, positive densities).
Swapping the two states and negating the normal velocity leaves the branch decision of line 261
unchanged and, on the characteristic branch, maps the flux `(F_ρ, F_mom, F_eng)` to
`(−F_ρ, +F_mom, −F_eng)`. -/
theorem reflection_componentwise (cfg : Config) (hv : cfg.Valid)
    (hE : cfg.EOS = EqOfState.IDEAL) (hR : cfg.ROE_AVERAGE = true) (hC : cfg.COMPONENTS = 1)
    (sc sc' : Scratch ℝ) (gamma C2Iso : ℝ)
    (PrimL PrimR : Nat → Nat → Nat → Nat → ℝ) (dx dx' : Nat → ℝ) (k j i : Nat)
    (hrhoL : 0 < PrimL RHO k j i) (hrhoR : 0 < PrimR RHO k j i)
    (st st' : (Nat → Nat → Nat → Nat → ℝ) × (Nat → Nat → Nat → ℝ)) :
    shockSwitch IDIR
        (locals cfg Real.sqrt sc' IDIR gamma C2Iso (reflectPrim IDIR PrimR)
          (reflectPrim IDIR PrimL) k j i).scrh
        (locals cfg Real.sqrt sc' IDIR gamma C2Iso (reflectPrim IDIR PrimR)
          (reflectPrim IDIR PrimL) k j i).vL
        (locals cfg Real.sqrt sc' IDIR gamma C2Iso (reflectPrim IDIR PrimR)
          (reflectPrim IDIR PrimL) k j i).vR
      = shockSwitch IDIR (locals cfg Real.sqrt sc IDIR gamma C2Iso PrimL PrimR k j i).scrh
          (locals cfg Real.sqrt sc IDIR gamma C2Iso PrimL PrimR k j i).vL
          (locals cfg Real.sqrt sc IDIR gamma C2Iso PrimL PrimR k j i).vR
      ∧ (shockSwitch IDIR (locals cfg Real.sqrt sc IDIR gamma C2Iso PrimL PrimR k j i).scrh
            (locals cfg Real.sqrt sc IDIR gamma C2Iso PrimL PrimR k j i).vL
            (locals cfg Real.sqrt sc IDIR gamma C2Iso PrimL PrimR k j i).vR = false →
          (ROE_Kernel cfg Real.sqrt sc' IDIR gamma C2Iso (reflectPrim IDIR PrimR)
              (reflectPrim IDIR PrimL) dx' k j i st').1 RHO k j i
            = -(ROE_Kernel cfg Real.sqrt sc IDIR gamma C2Iso PrimL PrimR dx k j i st).1
                RHO k j i
          ∧ (ROE_Kernel cfg Real.sqrt sc' IDIR gamma C2Iso (reflectPrim IDIR PrimR)
              (reflectPrim IDIR PrimL) dx' k j i st').1 MX1 k j i
            = (ROE_Kernel cfg Real.sqrt sc IDIR gamma C2Iso PrimL PrimR dx k j i st).1
                MX1 k j i
          ∧ (ROE_Kernel cfg Real.sqrt sc' IDIR gamma C2Iso (reflectPrim IDIR PrimR)
              (reflectPrim IDIR PrimL) dx' k j i st').1 (ENG cfg) k j i
            = -(ROE_Kernel cfg Real.sqrt sc IDIR gamma C2Iso PrimL PrimR dx k j i st).1
                (ENG cfg) k j i) := by
  have hdirC : IDIR < cfg.COMPONENTS := by rw [hC]; decide
  have hdir : IDIR < cfg.DIMENSIONS := hv.1
  have hN : NVAR cfg = 3 := by simp [NVAR, hE, hC]
  have hG : ENG cfg = 2 := by simp [ENG, PRS, hC]
  refine ⟨shockSwitch_reflect cfg hE Real.sqrt sc sc' IDIR hdirC gamma C2Iso PrimL PrimR k j i, ?_⟩
  intro hsw
  have h := (ROE_Kernel_reflect cfg hv hE hR (by rw [hC]; intro h; exact absurd h (by decide))
    sc sc' IDIR hdir gamma C2Iso PrimL PrimR dx dx' k j i hrhoL hrhoR st st' hsw).2
  rw [hN] at h
  have f0 := h 0 (by decide)
  have f1 := h 1 (by decide)
  have f2 := h 2 (by decide)
  rw [if_neg (by decide)] at f0 f2
  rw [if_pos (by decide)] at f1
  rw [hG]
  exact ⟨f0, f1, f2⟩

/-- Witness of `reflection_componentwise`: the Sod pair in the 1-D build; the energy flux of
the mirrored pair is the negative of the original one. -/
theorem reflection_componentwise_witness :
    (ROE_Kernel cfg1D Real.sqrt (constScratch 1) IDIR (7 / 5) 1
        (reflectPrim IDIR (uniform3 (1 / 8) 0 (1 / 10))) (reflectPrim IDIR (uniform3 1 0 1))
        (fun _ => 1) 0 0 0 (fun _ _ _ _ => 0, fun _ _ _ => 0)).1 (ENG cfg1D) 0 0 0
      = -(ROE_Kernel cfg1D Real.sqrt (constScratch 0) IDIR (7 / 5) 1 (uniform3 1 0 1)
          (uniform3 (1 / 8) 0 (1 / 10)) (fun _ => 1) 0 0 0
          (fun _ _ _ _ => 0, fun _ _ _ => 0)).1 (ENG cfg1D) 0 0 0 := by
  have hsw : shockSwitch IDIR
      (locals cfg1D Real.sqrt (constScratch 0) IDIR (7 / 5) 1 (uniform3 1 0 1)
        (uniform3 (1 / 8) 0 (1 / 10)) 0 0 0).scrh
      (locals cfg1D Real.sqrt (constScratch 0) IDIR (7 / 5) 1 (uniform3 1 0 1)
        (uniform3 (1 / 8) 0 (1 / 10)) 0 0 0).vL
      (locals cfg1D Real.sqrt (constScratch 0) IDIR (7 / 5) 1 (uniform3 1 0 1)
        (uniform3 (1 / 8) 0 (1 / 10)) 0 0 0).vR = false := by
    simp only [locals, loadStates_eq, shockSwitch, shockIndicator, cfg1D, NVAR, PRS, VX1,
      uniform3, IDIR]
    norm_num
  exact ((reflection_componentwise cfg1D (by decide) rfl rfl rfl (constScratch 0)
    (constScratch 1) (7 / 5) 1 (uniform3 1 0 1) (uniform3 (1 / 8) 0 (1 / 10))
    (fun _ => 1) (fun _ => 1) 0 0 0 (by norm_num [uniform3, RHO]) (by norm_num [uniform3, RHO])
    (fun _ _ _ _ => 0, fun _ _ _ => 0) (fun _ _ _ _ => 0, fun _ _ _ => 0)).2 hsw).2.2

end ReflectionOneD

/-! ## The mass-weighted average -/

section MassWeighted

/-- The Roe weight and the averaged density in terms of the square roots of the densities. -/
theorem roe_weight_sqrt (x y : ℝ) (hx : 0 < x) (hy : 0 < y) :
    x * Real.sqrt (y / x) = Real.sqrt (x * y)
      ∧ 1 / (1 + Real.sqrt (y / x)) = Real.sqrt x / (Real.sqrt x + Real.sqrt y)
      ∧ 1 - 1 / (1 + Real.sqrt (y / x)) = Real.sqrt y / (Real.sqrt x + Real.sqrt y) := by
  have hsx : 0 < Real.sqrt x := Real.sqrt_pos.mpr hx
  have hsy : 0 < Real.sqrt y := Real.sqrt_pos.mpr hy
  have hxx : Real.sqrt x * Real.sqrt x = x := Real.mul_self_sqrt (le_of_lt hx)
  have hd : Real.sqrt (y / x) = Real.sqrt y / Real.sqrt x := Real.sqrt_div (le_of_lt hy) x
  have hm : Real.sqrt (x * y) = Real.sqrt x * Real.sqrt y := Real.sqrt_mul (le_of_lt hx) y
  have hne : Real.sqrt x ≠ 0 := ne_of_gt hsx
  have hne2 : Real.sqrt x + Real.sqrt y ≠ 0 := by positivity
  rw [hd, hm]
  refine ⟨?_, ?_, ?_⟩
  · field_simp
    linear_combination (-(Real.sqrt y)) * hxx
  · field_simp
  · field_simp

/-- A blend with weights `w` and `1 − w`, `0 < w < 1`, lies between the two values. -/
theorem blend_between (w a b : ℝ) (hw0 : 0 < w) (hw1 : w < 1) :
    min a b ≤ w * a + (1 - w) * b ∧ w * a + (1 - w) * b ≤ max a b := by
  have h1 : 0 < 1 - w := by linarith
  constructor
  · have ha : min a b ≤ a := min_le_left a b
    have hb : min a b ≤ b := min_le_right a b
    nlinarith [mul_le_mul_of_nonneg_left ha (le_of_lt hw0),
      mul_le_mul_of_nonneg_left hb (le_of_lt h1)]
  · have ha : a ≤ max a b := le_max_left a b
    have hb : b ≤ max a b := le_max_right a b
    nlinarith [mul_le_mul_of_nonneg_left ha (le_of_lt hw0),
      mul_le_mul_of_nonneg_left hb (le_of_lt h1)]

/-- The blend written with the square-root weights. -/
theorem blend_ratio (w p q a b : ℝ) (hpq : p + q ≠ 0) (hw : w = p / (p + q)) :
    w * a + (1 - w) * b = (p * a + q * b) / (p + q) := by
  rw [hw]; field_simp

/-- Lines 74-81 for either equation of state: the averaged density and velocities. -/
theorem average_roe_um {F : Type} [LinearOrderedField F] (cfg : Config) (hv : cfg.Valid)
    (hR : cfg.ROE_AVERAGE = true) (sqrt : F → F) (sc : Scratch F) (gamma : F)
    (vL vR : Nat → F) :
    (average cfg sqrt sc gamma vL vR).um 0 = vL 0 * sqrt (vR 0 / vL 0)
      ∧ ∀ n, 1 ≤ n → n ≤ cfg.COMPONENTS → (average cfg sqrt sc gamma vL vR).um n
          = 1 / (1 + sqrt (vR 0 / vL 0)) * vL n + (1 - 1 / (1 + sqrt (vR 0 / vL 0))) * vR n := by
  obtain ⟨C, D, E, R, vb, mb⟩ := cfg
  obtain ⟨h1, h2, h3⟩ := hv
  simp only at h1 h2 h3 hR
  subst hR
  have hC : C = 1 ∨ C = 2 ∨ C = 3 := by omega
  cases E <;> rcases hC with rfl | rfl | rfl <;> refine ⟨rfl, ?_⟩ <;> intro n hn1 hn2 <;>
    simp only at hn2 <;> interval_cases n <;> rfl

end MassWeighted

section MassWeightedClaim

/-- C21: mass-weighted average (Roe average, either equation of state, every direction).  For
positive densities, with `s = √(ρ_R/ρ_L)`, the two weights `1/(1+s)` and `c = 1 − 1/(1+s)` lie
strictly between 0 and 1 and sum to 1; the averaged density is `√(ρ_L·ρ_R)`; every averaged
velocity component — and, for the ideal gas, the averaged enthalpy — is the weighted blend of
its left and right values, equals `(√ρ_L·x_L + √ρ_R·x_R)/(√ρ_L + √ρ_R)` and lies between
them. -/
theorem mass_weighted_average (cfg : Config) (hv : cfg.Valid) (hR : cfg.ROE_AVERAGE = true)
    (sc : Scratch ℝ) (dir : Nat) (gamma C2Iso : ℝ)
    (PrimL PrimR : Nat → Nat → Nat → Nat → ℝ) (k j i : Nat)
    (hrL : 0 < PrimL RHO k j i) (hrR : 0 < PrimR RHO k j i) :
    (0 < 1 / (1 + Real.sqrt (PrimR RHO k j i / PrimL RHO k j i))
        ∧ 1 / (1 + Real.sqrt (PrimR RHO k j i / PrimL RHO k j i)) < 1
        ∧ 0 < 1 - 1 / (1 + Real.sqrt (PrimR RHO k j i / PrimL RHO k j i))
        ∧ 1 - 1 / (1 + Real.sqrt (PrimR RHO k j i / PrimL RHO k j i)) < 1
        ∧ 1 / (1 + Real.sqrt (PrimR RHO k j i / PrimL RHO k j i))
            + (1 - 1 / (1 + Real.sqrt (PrimR RHO k j i / PrimL RHO k j i))) = 1)
      ∧ (locals cfg Real.sqrt sc dir gamma C2Iso PrimL PrimR k j i).av.um RHO
          = Real.sqrt (PrimL RHO k j i * PrimR RHO k j i)
      ∧ (∀ n, 1 ≤ n → n ≤ cfg.COMPONENTS →
          (locals cfg Real.sqrt sc dir gamma C2Iso PrimL PrimR k j i).av.um n
              = 1 / (1 + Real.sqrt (PrimR RHO k j i / PrimL RHO k j i)) * PrimL n k j i
                + (1 - 1 / (1 + Real.sqrt (PrimR RHO k j i / PrimL RHO k j i)))
                  * PrimR n k j i
            ∧ (locals cfg Real.sqrt sc dir gamma C2Iso PrimL PrimR k j i).av.um n
              = (Real.sqrt (PrimL RHO k j i) * PrimL n k j i
                  + Real.sqrt (PrimR RHO k j i) * PrimR n k j i)
                / (Real.sqrt (PrimL RHO k j i) + Real.sqrt (PrimR RHO k j i))
            ∧ min (PrimL n k j i) (PrimR n k j i)
              ≤ (locals cfg Real.sqrt sc dir gamma C2Iso PrimL PrimR k j i).av.um n
            ∧ (locals cfg Real.sqrt sc dir gamma C2Iso PrimL PrimR k j i).av.um n
              ≤ max (PrimL n k j i) (PrimR n k j i))
      ∧ (cfg.EOS = EqOfState.IDEAL →
          (locals cfg Real.sqrt sc dir gamma C2Iso PrimL PrimR k j i).av.h
              = 1 / (1 + Real.sqrt (PrimR RHO k j i / PrimL RHO k j i))
                  * (1 / 2 * EXPANDsum cfg (PrimL 1 k j i * PrimL 1 k j i)
                      (PrimL 2 k j i * PrimL 2 k j i) (PrimL 3 k j i * PrimL 3 k j i)
                    + gamma * PrimL (PRS cfg) k j i / PrimL RHO k j i * (1 / (gamma - 1)))
                + (1 - 1 / (1 + Real.sqrt (PrimR RHO k j i / PrimL RHO k j i)))
                  * (1 / 2 * EXPANDsum cfg (PrimR 1 k j i * PrimR 1 k j i)
                      (PrimR 2 k j i * PrimR 2 k j i) (PrimR 3 k j i * PrimR 3 k j i)
                    + gamma * PrimR (PRS cfg) k j i / PrimR RHO k j i * (1 / (gamma - 1)))
            ∧ (locals cfg Real.sqrt sc dir gamma C2Iso PrimL PrimR k j i).av.h
              = (Real.sqrt (PrimL RHO k j i)
                    * (1 / 2 * EXPANDsum cfg (PrimL 1 k j i * PrimL 1 k j i)
                        (PrimL 2 k j i * PrimL 2 k j i) (PrimL 3 k j i * PrimL 3 k j i)
                      + gamma * PrimL (PRS cfg) k j i / PrimL RHO k j i * (1 / (gamma - 1)))
                  + Real.sqrt (PrimR RHO k j i)
                    * (1 / 2 * EXPANDsum cfg (PrimR 1 k j i * PrimR 1 k j i)
                        (PrimR 2 k j i * PrimR 2 k j i) (PrimR 3 k j i * PrimR 3 k j i)
                      + gamma * PrimR (PRS cfg) k j i / PrimR RHO k j i * (1 / (gamma - 1))))
                / (Real.sqrt (PrimL RHO k j i) + Real.sqrt (PrimR RHO k j i))
            ∧ min (1 / 2 * EXPANDsum cfg (PrimL 1 k j i * PrimL 1 k j i)
                      (PrimL 2 k j i * PrimL 2 k j i) (PrimL 3 k j i * PrimL 3 k j i)
                    + gamma * PrimL (PRS cfg) k j i / PrimL RHO k j i * (1 / (gamma - 1)))
                (1 / 2 * EXPANDsum cfg (PrimR 1 k j i * PrimR 1 k j i)
                      (PrimR 2 k j i * PrimR 2 k j i) (PrimR 3 k j i * PrimR 3 k j i)
                    + gamma * PrimR (PRS cfg) k j i / PrimR RHO k j i * (1 / (gamma - 1)))
              ≤ (locals cfg Real.sqrt sc dir gamma C2Iso PrimL PrimR k j i).av.h
            ∧ (locals cfg Real.sqrt sc dir gamma C2Iso PrimL PrimR k j i).av.h
              ≤ max (1 / 2 * EXPANDsum cfg (PrimL 1 k j i * PrimL 1 k j i)
                      (PrimL 2 k j i * PrimL 2 k j i) (PrimL 3 k j i * PrimL 3 k j i)
                    + gamma * PrimL (PRS cfg) k j i / PrimL RHO k j i * (1 / (gamma - 1)))
                (1 / 2 * EXPANDsum cfg (PrimR 1 k j i * PrimR 1 k j i)
                      (PrimR 2 k j i * PrimR 2 k j i) (PrimR 3 k j i * PrimR 3 k j i)
                    + gamma * PrimR (PRS cfg) k j i / PrimR RHO k j i * (1 / (gamma - 1)))) := by
  have hN := NVAR_ge_two cfg hv
  have hCN : cfg.COMPONENTS < NVAR cfg := by
    unfold NVAR; cases cfg.EOS <;> simp
  have h0 : RHO < NVAR cfg := by simp only [RHO]; omega
  obtain ⟨l0, r0, -⟩ := locals_vL cfg Real.sqrt sc dir gamma C2Iso PrimL PrimR k j i RHO h0
  obtain ⟨hw0, hw1⟩ := roe_weight_bounds (PrimL RHO k j i) (PrimR RHO k j i) hrL hrR
  obtain ⟨hden, hwL, hwR⟩ := roe_weight_sqrt (PrimL RHO k j i) (PrimR RHO k j i) hrL hrR
  have hpq : Real.sqrt (PrimL RHO k j i) + Real.sqrt (PrimR RHO k j i) ≠ 0 := by
    have := Real.sqrt_pos.mpr hrL
    have := Real.sqrt_pos.mpr hrR
    linarith
  obtain ⟨hu0, hun⟩ := average_roe_um cfg hv hR Real.sqrt sc gamma
    (locals cfg Real.sqrt sc dir gamma C2Iso PrimL PrimR k j i).vL
    (locals cfg Real.sqrt sc dir gamma C2Iso PrimL PrimR k j i).vR
  simp only [RHO] at l0 r0 hden hwL hwR hw0 hw1 hpq ⊢
  rw [l0, r0] at hu0 hun
  refine ⟨⟨hw0, hw1, by linarith, by linarith, by ring⟩, ?_, ?_, ?_⟩
  · rw [locals_av, hu0, hden]
  · intro n hn1 hn2
    obtain ⟨ln, rn, -⟩ := locals_vL cfg Real.sqrt sc dir gamma C2Iso PrimL PrimR k j i n
      (lt_of_le_of_lt hn2 hCN)
    have hn := hun n hn1 hn2
    rw [ln, rn] at hn
    rw [locals_av, hn]
    obtain ⟨b1, b2⟩ := blend_between _ (PrimL n k j i) (PrimR n k j i) hw0 hw1
    exact ⟨rfl, blend_ratio _ _ _ _ _ hpq hwL, b1, b2⟩
  · intro hE
    have hP : PRS cfg < NVAR cfg := by simp [PRS, NVAR, hE]
    obtain ⟨lp, rp, -⟩ := locals_vL cfg Real.sqrt sc dir gamma C2Iso PrimL PrimR k j i
      (PRS cfg) hP
    have hh := (average_ideal_roe cfg hv hE hR Real.sqrt sc gamma
      (locals cfg Real.sqrt sc dir gamma C2Iso PrimL PrimR k j i).vL
      (locals cfg Real.sqrt sc dir gamma C2Iso PrimL PrimR k j i).vR).2.2.2.1
    have hsL := EXPANDsum_congr cfg hv
      (fun n => (locals cfg Real.sqrt sc dir gamma C2Iso PrimL PrimR k j i).vL n
        * (locals cfg Real.sqrt sc dir gamma C2Iso PrimL PrimR k j i).vL n)
      (fun n => PrimL n k j i * PrimL n k j i)
      (by
        intro n hn1 hn2
        obtain ⟨ln, -, -⟩ := locals_vL cfg Real.sqrt sc dir gamma C2Iso PrimL PrimR k j i n
          (lt_of_le_of_lt hn2 hCN)
        simp only [ln])
    have hsR := EXPANDsum_congr cfg hv
      (fun n => (locals cfg Real.sqrt sc dir gamma C2Iso PrimL PrimR k j i).vR n
        * (locals cfg Real.sqrt sc dir gamma C2Iso PrimL PrimR k j i).vR n)
      (fun n => PrimR n k j i * PrimR n k j i)
      (by
        intro n hn1 hn2
        obtain ⟨-, rn, -⟩ := locals_vL cfg Real.sqrt sc dir gamma C2Iso PrimL PrimR k j i n
          (lt_of_le_of_lt hn2 hCN)
        simp only [rn])
    simp only at hsL hsR
    rw [hsL, hsR, l0, r0, lp, rp] at hh
    rw [locals_av, hh]
    obtain ⟨b1, b2⟩ := blend_between _
      (1 / 2 * EXPANDsum cfg (PrimL 1 k j i * PrimL 1 k j i)
          (PrimL 2 k j i * PrimL 2 k j i) (PrimL 3 k j i * PrimL 3 k j i)
        + gamma * PrimL (PRS cfg) k j i / PrimL 0 k j i * (1 / (gamma - 1)))
      (1 / 2 * EXPANDsum cfg (PrimR 1 k j i * PrimR 1 k j i)
          (PrimR 2 k j i * PrimR 2 k j i) (PrimR 3 k j i * PrimR 3 k j i)
        + gamma * PrimR (PRS cfg) k j i / PrimR 0 k j i * (1 / (gamma - 1))) hw0 hw1
    exact ⟨rfl, blend_ratio _ _ _ _ _ hpq hwL, b1, b2⟩

/-- Witness of `mass_weighted_average`: the Sod pair in the 1-D build; the averaged density is
`√(1·0.125)`. -/
theorem mass_weighted_average_witness :
    (locals cfg1D Real.sqrt (constScratch 0) 0 (7 / 5) 1 (uniform3 1 0 1)
        (uniform3 (1 / 8) 0 (1 / 10)) 0 0 0).av.um RHO
      = Real.sqrt (uniform3 (1 : ℝ) 0 1 RHO 0 0 0 * uniform3 (1 / 8 : ℝ) 0 (1 / 10) RHO 0 0 0) :=
  (mass_weighted_average cfg1D (by decide) rfl (constScratch 0) 0 (7 / 5) 1 (uniform3 1 0 1)
    (uniform3 (1 / 8) 0 (1 / 10)) 0 0 0 (by norm_num [uniform3, RHO])
    (by norm_num [uniform3, RHO])).2.1

end MassWeightedClaim

/-! ## The arithmetic-average branch -/

section ArithmeticAverage

/-- C28 (the code at the failing input): the 1-D ideal-gas build with `ROE_AVERAGE` not `YES`.
Whatever the two input states are, the averaged state of lines 111-119 is the content of the
array `vRL`, which no line of the kernel declares or assigns, and `a2` is built from it with
`g_gamma` instead of the parameter `gamma`.  With 7 in those slots and Left = (ρ 1, v 0, p 1),
Right = (ρ 3, v 0, p 1) the averaged density is 7, not the mean 2. -/
theorem arithmetic_average_not_computed (sc : Scratch ℝ) (gamma C2Iso : ℝ)
    (PrimL PrimR : Nat → Nat → Nat → Nat → ℝ) (k j i : Nat) :
    ((locals cfgArith1D Real.sqrt sc 0 gamma C2Iso PrimL PrimR k j i).av.um 0 = sc.vRL 0
        ∧ (locals cfgArith1D Real.sqrt sc 0 gamma C2Iso PrimL PrimR k j i).av.um 1 = sc.vRL 1
        ∧ (locals cfgArith1D Real.sqrt sc 0 gamma C2Iso PrimL PrimR k j i).av.um 2 = sc.vRL 2)
      ∧ (locals cfgArith1D Real.sqrt sc 0 gamma C2Iso PrimL PrimR k j i).av.a2
          = sc.g_gamma * sc.vRL 2 / sc.vRL 0
      ∧ (locals cfgArith1D Real.sqrt (constScratch 7) 0 (7 / 5) 1 (uniform3 1 0 1)
            (uniform3 3 0 1) 0 0 0).av.um 0 = 7
      ∧ (uniform3 (1 : ℝ) 0 1 0 0 0 0 + uniform3 (3 : ℝ) 0 1 0 0 0 0) / 2 = 2 := by
  refine ⟨⟨?_, ?_, ?_⟩, ?_, ?_, ?_⟩
  · simp [locals, average, cfgArith1D, NVAR, forLoop, set1]
  · simp [locals, average, cfgArith1D, NVAR, forLoop, set1]
  · simp [locals, average, cfgArith1D, NVAR, forLoop, set1]
  · simp [locals, average, cfgArith1D, NVAR, PRS, RHO, forLoop, set1]
  · simp [locals, average, cfgArith1D, NVAR, forLoop, set1, constScratch]
  · simp only [uniform3]; norm_num

end ArithmeticAverage

/-! ## Grid patches -/

section GridLoops

/-- A loop that stores, for each `i`, a value depending on `i` only in the slot `i + s` of each
of the four arrays. -/
theorem gridLoop_apply {F : Type} [LinearOrderedField F] (fx fl fr fd : Int → F) (lo s : Int)
    (n : Nat) (g : GridArrays F) :
    forLoop (fun t (g : GridArrays F) =>
        (⟨setI g.x (lo + (t : Int) + s) (fx (lo + (t : Int))),
          setI g.xl (lo + (t : Int) + s) (fl (lo + (t : Int))),
          setI g.xr (lo + (t : Int) + s) (fr (lo + (t : Int))),
          setI g.dx (lo + (t : Int) + s) (fd (lo + (t : Int)))⟩ : GridArrays F)) n g
      = ⟨fun a => if lo ≤ a - s ∧ a - s < lo + (n : Int) then fx (a - s) else g.x a,
          fun a => if lo ≤ a - s ∧ a - s < lo + (n : Int) then fl (a - s) else g.xl a,
          fun a => if lo ≤ a - s ∧ a - s < lo + (n : Int) then fr (a - s) else g.xr a,
          fun a => if lo ≤ a - s ∧ a - s < lo + (n : Int) then fd (a - s) else g.dx a⟩ := by
  induction n with
  | zero =>
    have h : ∀ a : Int, ¬ (lo ≤ a - s ∧ a - s < lo + ((0 : Nat) : Int)) := by
      intro a; omega
    simp only [forLoop, h, if_false]
  | succ n ih =>
    have key : ∀ (f : Int → F) (old : Int → F),
        setI (fun a => if lo ≤ a - s ∧ a - s < lo + (n : Int) then f (a - s) else old a)
            (lo + (n : Int) + s) (f (lo + (n : Int)))
          = fun a => if lo ≤ a - s ∧ a - s < lo + ((n + 1 : Nat) : Int) then f (a - s)
              else old a := by
      intro f old
      funext a
      simp only [setI]
      by_cases h : a = lo + (n : Int) + s
      · subst h
        have h1 : lo ≤ lo + (n : Int) + s - s ∧ lo + (n : Int) + s - s < lo + ((n + 1 : Nat) : Int) := by
          push_cast; omega
        rw [if_pos rfl, if_pos h1]
        congr 1
        omega
      · rw [if_neg h]
        have h2 : (lo ≤ a - s ∧ a - s < lo + ((n + 1 : Nat) : Int))
            ↔ (lo ≤ a - s ∧ a - s < lo + (n : Int)) := by
          push_cast; omega
        simp only [h2]
    simp only [forLoop, ih, key]

/-- A loop over `[lo, hi)` whose body stores, for each `i`, values depending on `i` only in
the slot `i + s` of the four arrays: the content of the slots it has visited. -/
theorem forInt_grid {F : Type} [LinearOrderedField F]
    (body : Int → GridArrays F → GridArrays F) (fx fl fr fd : Int → F) (s : Int)
    (hb : ∀ i g, body i g
      = ⟨setI g.x (i + s) (fx i), setI g.xl (i + s) (fl i), setI g.xr (i + s) (fr i),
          setI g.dx (i + s) (fd i)⟩)
    (lo hi : Int) (g : GridArrays F) (i : Int) (hi' : lo ≤ i ∧ i < hi) :
    (forInt lo hi body g).x (i + s) = fx i ∧ (forInt lo hi body g).xl (i + s) = fl i
      ∧ (forInt lo hi body g).xr (i + s) = fr i ∧ (forInt lo hi body g).dx (i + s) = fd i := by
  have hfun : (fun (t : Nat) => body (lo + (t : Int)))
      = fun (t : Nat) (g : GridArrays F) =>
        (⟨setI g.x (lo + (t : Int) + s) (fx (lo + (t : Int))),
          setI g.xl (lo + (t : Int) + s) (fl (lo + (t : Int))),
          setI g.xr (lo + (t : Int) + s) (fr (lo + (t : Int))),
          setI g.dx (lo + (t : Int) + s) (fd (lo + (t : Int)))⟩ : GridArrays F) := by
    funext t g
    exact hb _ g
  have hr : lo ≤ i + s - s ∧ i + s - s < lo + (((hi - lo).toNat : Nat) : Int) := by omega
  have he : i + s - s = i := by omega
  unfold forInt
  rw [hfun, gridLoop_apply fx fl fr fd lo s]
  rw [he] at hr
  simp only [he, if_pos hr, and_self]

/-- What the loop of a uniform patch leaves in the four arrays. -/
theorem uniformPatch_apply {F : Type} [LinearOrderedField F] (patchStart patchEnd : F)
    (patchSize ghostStart ghostEnd idxstart : Int) (g : GridArrays F) (i : Int)
    (hi : 0 - ghostStart ≤ i ∧ i < patchSize + ghostEnd) :
    (uniformPatch patchStart patchEnd patchSize ghostStart ghostEnd idxstart g).x (i + idxstart)
        = patchStart + ((i : F) + 1 / 2) * ((patchEnd - patchStart) / (patchSize : F))
      ∧ (uniformPatch patchStart patchEnd patchSize ghostStart ghostEnd idxstart g).xl
          (i + idxstart)
        = patchStart + (i : F) * ((patchEnd - patchStart) / (patchSize : F))
      ∧ (uniformPatch patchStart patchEnd patchSize ghostStart ghostEnd idxstart g).xr
          (i + idxstart)
        = patchStart + ((i + 1 : Int) : F) * ((patchEnd - patchStart) / (patchSize : F))
      ∧ (uniformPatch patchStart patchEnd patchSize ghostStart ghostEnd idxstart g).dx
          (i + idxstart)
        = (patchEnd - patchStart) / (patchSize : F) :=
  forInt_grid _
    (fun i : Int => patchStart + ((i : F) + 1 / 2) * ((patchEnd - patchStart) / (patchSize : F)))
    (fun i : Int => patchStart + (i : F) * ((patchEnd - patchStart) / (patchSize : F)))
    (fun i : Int => patchStart + ((i + 1 : Int) : F) * ((patchEnd - patchStart) / (patchSize : F)))
    (fun _ : Int => (patchEnd - patchStart) / (patchSize : F)) idxstart
    (by intro i g; simp only [setI, if_true]) _ _ g i hi

/-- What the loop of a stretched patch `s-` leaves in the four arrays. -/
theorem stretchedMinus_apply {F : Type} [LinearOrderedField F] (q delta patchStart : F)
    (patchSize ghostStart ghostEnd idxstart : Int) (g : GridArrays F) (i : Int)
    (hi : 0 - ghostStart ≤ i ∧ i < patchSize + ghostEnd) :
    (stretchedMinus q delta patchStart patchSize ghostStart ghostEnd idxstart g).x (i + idxstart)
        = 1 / 2 * (patchStart + q * (q ^ (i + 1) - 1) / (q - 1) * delta
            + (patchStart + q * (q ^ i - 1) / (q - 1) * delta))
      ∧ (stretchedMinus q delta patchStart patchSize ghostStart ghostEnd idxstart g).xl
          (i + idxstart)
        = patchStart + q * (q ^ i - 1) / (q - 1) * delta
      ∧ (stretchedMinus q delta patchStart patchSize ghostStart ghostEnd idxstart g).xr
          (i + idxstart)
        = patchStart + q * (q ^ (i + 1) - 1) / (q - 1) * delta
      ∧ (stretchedMinus q delta patchStart patchSize ghostStart ghostEnd idxstart g).dx
          (i + idxstart)
        = q ^ (i + 1) * delta :=
  forInt_grid _
    (fun i : Int => 1 / 2 * (patchStart + q * (q ^ (i + 1) - 1) / (q - 1) * delta
      + (patchStart + q * (q ^ i - 1) / (q - 1) * delta)))
    (fun i : Int => patchStart + q * (q ^ i - 1) / (q - 1) * delta)
    (fun i : Int => patchStart + q * (q ^ (i + 1) - 1) / (q - 1) * delta)
    (fun i : Int => q ^ (i + 1) * delta) idxstart
    (by intro i g; simp only [setI, if_true]) _ _ g i hi

/-- What the loop of a stretched patch `s+` leaves in the four arrays. -/
theorem stretchedPlus_apply {F : Type} [LinearOrderedField F] (q delta patchEnd : F)
    (patchSize ghostStart ghostEnd idxstart : Int) (g : GridArrays F) (i : Int)
    (hi : 0 - ghostStart ≤ i ∧ i < patchSize + ghostEnd) :
    (stretchedPlus q delta patchEnd patchSize ghostStart ghostEnd idxstart g).x (i + idxstart)
        = 1 / 2 * (patchEnd - q * (q ^ (patchSize - i - 1) - 1) / (q - 1) * delta
            + (patchEnd - q * (q ^ (patchSize - i) - 1) / (q - 1) * delta))
      ∧ (stretchedPlus q delta patchEnd patchSize ghostStart ghostEnd idxstart g).xl
          (i + idxstart)
        = patchEnd - q * (q ^ (patchSize - i) - 1) / (q - 1) * delta
      ∧ (stretchedPlus q delta patchEnd patchSize ghostStart ghostEnd idxstart g).xr
          (i + idxstart)
        = patchEnd - q * (q ^ (patchSize - i - 1) - 1) / (q - 1) * delta
      ∧ (stretchedPlus q delta patchEnd patchSize ghostStart ghostEnd idxstart g).dx
          (i + idxstart)
        = q ^ (patchSize - i + 1) * delta :=
  forInt_grid _
    (fun i : Int => 1 / 2 * (patchEnd - q * (q ^ (patchSize - i - 1) - 1) / (q - 1) * delta
      + (patchEnd - q * (q ^ (patchSize - i) - 1) / (q - 1) * delta)))
    (fun i : Int => patchEnd - q * (q ^ (patchSize - i) - 1) / (q - 1) * delta)
    (fun i : Int => patchEnd - q * (q ^ (patchSize - i - 1) - 1) / (q - 1) * delta)
    (fun i : Int => q ^ (patchSize - i + 1) * delta) idxstart
    (by intro i g; simp only [setI, if_true]) _ _ g i hi

end GridLoops

section GridClaims

/-- C29: uniform-patch tiling.  For a uniform patch with `patchSize > 0` (and non-negative
ghost counts), every cell `i` written by lines 84-89 has `xr − xl = dx = (patchEnd −
patchStart)/patchSize` and `x = (xl + xr)/2`; consecutive cells are contiguous; the first
interior cell starts at `patchStart` and the last interior cell ends at `patchEnd`. -/
theorem uniform_patch_tiling (patchStart patchEnd : ℝ)
    (patchSize ghostStart ghostEnd idxstart : Int) (g : GridArrays ℝ)
    (hN : 0 < patchSize) (hgs : 0 ≤ ghostStart) (hge : 0 ≤ ghostEnd) :
    (∀ i : Int, 0 - ghostStart ≤ i → i < patchSize + ghostEnd →
        (uniformPatch patchStart patchEnd patchSize ghostStart ghostEnd idxstart g).xr
            (i + idxstart)
          - (uniformPatch patchStart patchEnd patchSize ghostStart ghostEnd idxstart g).xl
            (i + idxstart)
          = (uniformPatch patchStart patchEnd patchSize ghostStart ghostEnd idxstart g).dx
            (i + idxstart)
        ∧ (uniformPatch patchStart patchEnd patchSize ghostStart ghostEnd idxstart g).dx
            (i + idxstart) = (patchEnd - patchStart) / (patchSize : ℝ)
        ∧ (uniformPatch patchStart patchEnd patchSize ghostStart ghostEnd idxstart g).x
            (i + idxstart)
          = ((uniformPatch patchStart patchEnd patchSize ghostStart ghostEnd idxstart g).xl
              (i + idxstart)
            + (uniformPatch patchStart patchEnd patchSize ghostStart ghostEnd idxstart g).xr
              (i + idxstart)) / 2)
      ∧ (∀ i : Int, 0 - ghostStart ≤ i → i + 1 < patchSize + ghostEnd →
        (uniformPatch patchStart patchEnd patchSize ghostStart ghostEnd idxstart g).xr
            (i + idxstart)
          = (uniformPatch patchStart patchEnd patchSize ghostStart ghostEnd idxstart g).xl
            (i + 1 + idxstart))
      ∧ (uniformPatch patchStart patchEnd patchSize ghostStart ghostEnd idxstart g).xl
          (0 + idxstart) = patchStart
      ∧ (uniformPatch patchStart patchEnd patchSize ghostStart ghostEnd idxstart g).xr
          (patchSize - 1 + idxstart) = patchEnd := by
  have hNr : (patchSize : ℝ) ≠ 0 := by
    have : (0 : ℝ) < (patchSize : ℝ) := by exact_mod_cast hN
    exact ne_of_gt this
  refine ⟨?_, ?_, ?_, ?_⟩
  · intro i h1 h2
    obtain ⟨ex, el, er, ed⟩ := uniformPatch_apply patchStart patchEnd patchSize ghostStart
      ghostEnd idxstart g i ⟨h1, h2⟩
    rw [ex, el, er, ed]
    push_cast
    refine ⟨by ring, rfl, by ring⟩
  · intro i h1 h2
    obtain ⟨-, -, er, -⟩ := uniformPatch_apply patchStart patchEnd patchSize ghostStart
      ghostEnd idxstart g i ⟨h1, by omega⟩
    obtain ⟨-, el, -, -⟩ := uniformPatch_apply patchStart patchEnd patchSize ghostStart
      ghostEnd idxstart g (i + 1) ⟨by omega, h2⟩
    rw [er, el]
  · obtain ⟨-, el, -, -⟩ := uniformPatch_apply patchStart patchEnd patchSize ghostStart
      ghostEnd idxstart g 0 ⟨by omega, by omega⟩
    rw [el]
    push_cast
    ring
  · obtain ⟨-, -, er, -⟩ := uniformPatch_apply patchStart patchEnd patchSize ghostStart
      ghostEnd idxstart g (patchSize - 1) ⟨by omega, by omega⟩
    rw [er]
    push_cast
    field_simp

/-- Witness of `uniform_patch_tiling`: four cells on `[0, 1]` with two ghost cells on each
side; the last interior cell (index 5) ends at 1. -/
theorem uniform_patch_tiling_witness :
    (uniformPatch (0 : ℝ) 1 4 2 2 2 ⟨fun _ => 0, fun _ => 0, fun _ => 0, fun _ => 0⟩).xr
      (4 - 1 + 2) = 1 :=
  (uniform_patch_tiling 0 1 4 2 2 2 ⟨fun _ => 0, fun _ => 0, fun _ => 0, fun _ => 0⟩
    (by decide) (by decide) (by decide)).2.2.2

/-- C27: width of the cells of a stretched patch, for every stretch factor `q > 0`, `q ≠ 1`,
every reference width and every cell `i` the loops write.  In a patch of kind `s-`
(lines 147-152) the stored width is the distance between the stored interfaces,
`dx = xr − xl`; in a patch of kind `s+` (lines 154-159) the stored width is `q` times that
distance, `dx = q·(xr − xl)`. -/
theorem stretched_width (q : ℝ) (hq0 : 0 < q) (hq1 : q ≠ 1) (delta patchStart patchEnd : ℝ)
    (patchSize ghostStart ghostEnd idxstart : Int) (g : GridArrays ℝ) (i : Int)
    (hi : 0 - ghostStart ≤ i ∧ i < patchSize + ghostEnd) :
    (stretchedMinus q delta patchStart patchSize ghostStart ghostEnd idxstart g).dx
          (i + idxstart)
        = (stretchedMinus q delta patchStart patchSize ghostStart ghostEnd idxstart g).xr
            (i + idxstart)
          - (stretchedMinus q delta patchStart patchSize ghostStart ghostEnd idxstart g).xl
            (i + idxstart)
      ∧ (stretchedPlus q delta patchEnd patchSize ghostStart ghostEnd idxstart g).dx
          (i + idxstart)
        = q * ((stretchedPlus q delta patchEnd patchSize ghostStart ghostEnd idxstart g).xr
            (i + idxstart)
          - (stretchedPlus q delta patchEnd patchSize ghostStart ghostEnd idxstart g).xl
            (i + idxstart)) := by
  have hq : q ≠ 0 := ne_of_gt hq0
  have hq' : q - 1 ≠ 0 := sub_ne_zero.mpr hq1
  constructor
  · obtain ⟨-, el, er, ed⟩ := stretchedMinus_apply q delta patchStart patchSize ghostStart
      ghostEnd idxstart g i hi
    rw [el, er, ed, zpow_add_one₀ hq]
    field_simp
    ring
  · obtain ⟨-, el, er, ed⟩ := stretchedPlus_apply q delta patchEnd patchSize ghostStart
      ghostEnd idxstart g i hi
    have e1 : patchSize - i = patchSize - i - 1 + 1 := by ring
    have e2 : patchSize - i + 1 = patchSize - i - 1 + 1 + 1 := by ring
    rw [el, er, ed, e2, e1, zpow_add_one₀ hq, zpow_add_one₀ hq, zpow_add_one₀ hq]
    field_simp
    ring

/-- Witness of `stretched_width` at the failing input: the `s+` patch `[−2, 0]` of one cell
next to a uniform patch of width 1 (`q = 2`, `delta = 1`, two ghost cells on the left).  Its
interior cell has interfaces −2 and 0 and the stored width 4. -/
theorem stretched_width_witness :
    (stretchedPlus (2 : ℝ) 1 0 1 2 0 2 ⟨fun _ => 0, fun _ => 0, fun _ => 0, fun _ => 0⟩).xl
        (0 + 2) = -2
      ∧ (stretchedPlus (2 : ℝ) 1 0 1 2 0 2 ⟨fun _ => 0, fun _ => 0, fun _ => 0, fun _ => 0⟩).xr
        (0 + 2) = 0
      ∧ (stretchedPlus (2 : ℝ) 1 0 1 2 0 2 ⟨fun _ => 0, fun _ => 0, fun _ => 0, fun _ => 0⟩).dx
        (0 + 2) = 4 := by
  have h := (stretched_width 2 (by norm_num) (by norm_num) 1 0 0 1 2 0 2
    ⟨fun _ => 0, fun _ => 0, fun _ => 0, fun _ => 0⟩ 0 ⟨by decide, by decide⟩).2
  obtain ⟨-, el, er, -⟩ := stretchedPlus_apply (2 : ℝ) 1 0 1 2 0 2
    ⟨fun _ => 0, fun _ => 0, fun _ => 0, fun _ => 0⟩ 0 ⟨by decide, by decide⟩
  have el' : (stretchedPlus (2 : ℝ) 1 0 1 2 0 2
      ⟨fun _ => 0, fun _ => 0, fun _ => 0, fun _ => 0⟩).xl (0 + 2) = -2 := by
    rw [el]; norm_num
  have er' : (stretchedPlus (2 : ℝ) 1 0 1 2 0 2
      ⟨fun _ => 0, fun _ => 0, fun _ => 0, fun _ => 0⟩).xr (0 + 2) = 0 := by
    rw [er]; norm_num
  refine ⟨el', er', ?_⟩
  rw [h, el', er']
  norm_num

end GridClaims

/-! ## Dump scheduling -/

section DumpSchedule

/-- C30 (the claim as stated fails): with `dumpFileNumber = INT_MAX = 2147483647` (a value a
restart file can hold), period 1, `tnext = 0` and the current time 5, `OutputDump::Write` writes
the file and leaves `dumpFileNumber = −2147483648`, not `2147483647 + 1`. -/
theorem dump_counter_wraps :
    (OutputDump_Write (⟨1, 0, ⟨2147483647, by omega⟩⟩ : OutputDump ℝ)
        ⟨5, 1, CInt.wrap 0, 0, fun _ => CInt.wrap 2, fun _ => [], 0, fun _ => "rho",
          fun _ => []⟩ []).2.1.dumpFileNumber.val = -2147483648
      ∧ (OutputDump_Write (⟨1, 0, ⟨2147483647, by omega⟩⟩ : OutputDump ℝ)
        ⟨5, 1, CInt.wrap 0, 0, fun _ => CInt.wrap 2, fun _ => [], 0, fun _ => "rho",
          fun _ => []⟩ []).2.1.dumpFileNumber.val ≠ 2147483647 + 1 := by
  have h : (OutputDump_Write (⟨1, 0, ⟨2147483647, by omega⟩⟩ : OutputDump ℝ)
      ⟨5, 1, CInt.wrap 0, 0, fun _ => CInt.wrap 2, fun _ => [], 0, fun _ => "rho",
        fun _ => []⟩ []).2.1.dumpFileNumber.val = -2147483648 := by
    unfold OutputDump_Write
    rw [if_neg (by norm_num), if_neg (by norm_num)]
    rfl
  refine ⟨h, ?_⟩
  rw [h]
  decide

/-- C30 (amended): dump scheduling.  `OutputDump::Write` writes no file and leaves `tperiod`,
`tnext` and `dumpFileNumber` unchanged whenever the current time is below `tnext` or `tperiod`
is negative; a constructor call without a `dmp` entry gives `tperiod = −1`, so it never writes.
Otherwise it writes one file named after the current `dumpFileNumber = n`, advances `tnext` by
exactly `tperiod` and increments the `int` `dumpFileNumber`, and the file ends with the scalar
records holding the incremented `dumpFileNumber` and the advanced `tnext`; the incremented
value is `n + 1` whenever `n < INT_MAX`, and `INT_MIN` at `n = INT_MAX`. -/
theorem dump_scheduling (od : OutputDump ℝ) (src : DumpSources ℝ) (files : List (DumpFile ℝ)) :
    ((src.t < od.tnext ∨ od.tperiod < 0) →
        OutputDump_Write od src files = (CInt.wrap 0, od, files))
      ∧ (¬ src.t < od.tnext → ¬ od.tperiod < 0 →
          (OutputDump_Write od src files).2.1
              = ⟨od.tperiod, od.tnext + od.tperiod, od.dumpFileNumber.incr⟩
            ∧ ∃ pre : List (DumpRecord ℝ),
                (OutputDump_Write od src files).2.2
                  = files ++ [⟨"dump." ++ fmt04d od.dumpFileNumber ++ ".dmp",
                      pre ++ [⟨"time", [CInt.wrap 1], DumpData.reals [src.t]⟩,
                        ⟨"dt", [CInt.wrap 1], DumpData.reals [src.dt]⟩,
                        ⟨"vtkFileNumber", [CInt.wrap 1],
                          DumpData.integers [src.vtkFileNumber]⟩,
                        ⟨"vtktnext", [CInt.wrap 1], DumpData.reals [src.vtktnext]⟩,
                        ⟨"dumpFileNumber", [CInt.wrap 1],
                          DumpData.integers [od.dumpFileNumber.incr]⟩,
                        ⟨"dumptnext", [CInt.wrap 1], DumpData.reals [od.tnext + od.tperiod]⟩,
                        ⟨"eof", [CInt.wrap 1], DumpData.reals [0]⟩]⟩])
      ∧ (od.dumpFileNumber.val < 2147483647 →
          od.dumpFileNumber.incr.val = od.dumpFileNumber.val + 1)
      ∧ (od.dumpFileNumber.val = 2147483647 → od.dumpFileNumber.incr.val = -2147483648)
      ∧ (∀ t : ℝ, (OutputDump_new (none : Option ℝ) t).tperiod = -1
          ∧ (OutputDump_new (none : Option ℝ) t).tnext = 0
          ∧ (OutputDump_new (none : Option ℝ) t).dumpFileNumber.val = 0
          ∧ OutputDump_Write (OutputDump_new (none : Option ℝ) t) src files
            = (CInt.wrap 0, OutputDump_new (none : Option ℝ) t, files))
      ∧ (∀ p t : ℝ, (OutputDump_new (some p) t).tperiod = p
          ∧ (OutputDump_new (some p) t).tnext = t
          ∧ (OutputDump_new (some p) t).dumpFileNumber.val = 0) := by
  refine ⟨?_, ?_, ?_, ?_, ?_, ?_⟩
  · intro h
    unfold OutputDump_Write
    rcases h with h | h
    · rw [if_pos h]
    · by_cases h1 : src.t < od.tnext
      · rw [if_pos h1]
      · rw [if_neg h1, if_pos h]
  · intro h1 h2
    unfold OutputDump_Write
    rw [if_neg h1, if_neg h2]
    refine ⟨rfl, ⟨forLoop (fun nv recs =>
        recs ++ [⟨"Vc-" ++ src.VcName nv, [src.np_int 0, src.np_int 1, src.np_int 2],
          DumpData.reals (src.Vc nv)⟩]) src.NVAR
      (forLoop (fun dir recs =>
        recs ++ [⟨"x" ++ toString (dir + 1), [src.np_int dir], DumpData.reals (src.x dir)⟩])
        3 []), ?_⟩⟩
    simp only [List.append_assoc, List.singleton_append, List.cons_append, List.nil_append]
  · intro h
    have hr := od.dumpFileNumber.inRange
    show (od.dumpFileNumber.val + 1 + 2147483648) % 4294967296 - 2147483648
      = od.dumpFileNumber.val + 1
    omega
  · intro h
    show (od.dumpFileNumber.val + 1 + 2147483648) % 4294967296 - 2147483648 = -2147483648
    omega
  · intro t
    refine ⟨rfl, rfl, rfl, ?_⟩
    unfold OutputDump_Write OutputDump_new
    by_cases h1 : src.t < (0 : ℝ)
    · simp only [if_pos h1]
    · simp only [if_neg h1]
      rw [if_pos (by norm_num)]
  · intro p t
    exact ⟨rfl, rfl, rfl⟩

/-- Witness of `dump_scheduling`: period 1, next dump due at time 0, three dumps already written,
current time 5: the members after the call. -/
theorem dump_scheduling_witness :
    (OutputDump_Write (⟨1, 0, CInt.wrap 3⟩ : OutputDump ℝ)
        ⟨5, 1, CInt.wrap 0, 0, fun _ => CInt.wrap 2, fun _ => [], 0, fun _ => "rho",
          fun _ => []⟩ []).2.1
      = ⟨1, 0 + 1, (CInt.wrap 3).incr⟩
      ∧ (CInt.wrap 3).incr.val = 4 :=
  ⟨((dump_scheduling (⟨1, 0, CInt.wrap 3⟩ : OutputDump ℝ)
      ⟨5, 1, CInt.wrap 0, 0, fun _ => CInt.wrap 2, fun _ => [], 0, fun _ => "rho",
        fun _ => []⟩ []).2.1 (by norm_num) (by norm_num)).1,
    by decide⟩

end DumpSchedule

/-! ## The branch taken by the kernel -/

section BranchSelection

end BranchSelection

/-! ## The time-step accumulator over a sweep of valid states -/

section SweepMonotone

/-- A property kept by every step taken at an element of the list is kept by the fold. -/
theorem foldl_invariant_mem {α σ : Type} (P : σ → Prop) (f : σ → α → σ) (l : List α)
    (h : ∀ p ∈ l, ∀ s, P s → P (f s p)) (s : σ) (hs : P s) : P (l.foldl f s) := by
  induction l generalizing s with
  | nil => exact hs
  | cons a l ih =>
    rw [List.foldl_cons]
    exact ih (fun p hp => h p (List.mem_cons_of_mem a hp)) _
      (h a (List.mem_cons_self a l) s hs)

/-- C9: time-step monotonicity for physically valid input (ideal gas, Roe average, γ > 1,
positive cell widths, positive densities and pressures on both sides of every interface the
sweep visits).  At every visited interface the averaged `a2` is positive, so `cmax = |u_n| +
√a2` and the contribution `cmax/dx` are positive; after the sweep every cell of the accumulator
holds a value greater than or equal to its value before the sweep. -/
theorem invDt_monotone_over_sweep (cfg : Config) (hv : cfg.Valid)
    (hE : cfg.EOS = EqOfState.IDEAL) (hR : cfg.ROE_AVERAGE = true) (sc : Scratch ℝ)
    (data : DataBlock ℝ) (dir : Nat) (gamma C2Iso : ℝ) (hg : 1 < gamma)
    (hdx : ∀ t, 0 < data.dx dir t)
    (hpos : ∀ k j i, data.beg KDIR ≤ k → k < data.end_ KDIR + (if dir = KDIR then 1 else 0) →
      data.beg JDIR ≤ j → j < data.end_ JDIR + (if dir = JDIR then 1 else 0) →
      data.beg IDIR ≤ i → i < data.end_ IDIR + (if dir = IDIR then 1 else 0) →
      0 < data.PrimL RHO k j i ∧ 0 < data.PrimR RHO k j i
        ∧ 0 < data.PrimL (PRS cfg) k j i ∧ 0 < data.PrimR (PRS cfg) k j i) :
    (∀ k j i, data.beg KDIR ≤ k → k < data.end_ KDIR + (if dir = KDIR then 1 else 0) →
        data.beg JDIR ≤ j → j < data.end_ JDIR + (if dir = JDIR then 1 else 0) →
        data.beg IDIR ≤ i → i < data.end_ IDIR + (if dir = IDIR then 1 else 0) →
        0 < (locals cfg Real.sqrt sc dir gamma C2Iso data.PrimL data.PrimR k j i).av.a2
          ∧ 0 < (locals cfg Real.sqrt sc dir gamma C2Iso data.PrimL data.PrimR k j i).cmax
          ∧ 0 < (locals cfg Real.sqrt sc dir gamma C2Iso data.PrimL data.PrimR k j i).cmax
              / data.dx dir ((if dir = IDIR then 1 else 0) * i
                + (if dir = JDIR then 1 else 0) * j + (if dir = KDIR then 1 else 0) * k))
      ∧ ∀ k j i, data.InvDtHyp k j i
          ≤ (Tvdlf cfg Real.sqrt sc data dir gamma C2Iso).InvDtHyp k j i := by
  have hstep : ∀ k j i, data.beg KDIR ≤ k →
      k < data.end_ KDIR + (if dir = KDIR then 1 else 0) →
      data.beg JDIR ≤ j → j < data.end_ JDIR + (if dir = JDIR then 1 else 0) →
      data.beg IDIR ≤ i → i < data.end_ IDIR + (if dir = IDIR then 1 else 0) →
      0 < (locals cfg Real.sqrt sc dir gamma C2Iso data.PrimL data.PrimR k j i).av.a2
        ∧ 0 < (locals cfg Real.sqrt sc dir gamma C2Iso data.PrimL data.PrimR k j i).cmax
        ∧ 0 < (locals cfg Real.sqrt sc dir gamma C2Iso data.PrimL data.PrimR k j i).cmax
            / data.dx dir ((if dir = IDIR then 1 else 0) * i
              + (if dir = JDIR then 1 else 0) * j + (if dir = KDIR then 1 else 0) * k) := by
    intro k j i h1 h2 h3 h4 h5 h6
    obtain ⟨p1, p2, p3, p4⟩ := hpos k j i h1 h2 h3 h4 h5 h6
    obtain ⟨ha2, -, ha⟩ := locals_a_pos cfg hv hE hR sc dir gamma C2Iso hg data.PrimL data.PrimR
      k j i p1 p2 p3 p4
    have hc : 0 < (locals cfg Real.sqrt sc dir gamma C2Iso data.PrimL data.PrimR k j i).cmax := by
      have e : (locals cfg Real.sqrt sc dir gamma C2Iso data.PrimL data.PrimR k j i).cmax
          = |(locals cfg Real.sqrt sc dir gamma C2Iso data.PrimL data.PrimR k j i).av.um
              (VX1 + dir)|
            + (locals cfg Real.sqrt sc dir gamma C2Iso data.PrimL data.PrimR k j i).av.a := rfl
      rw [e]
      have := abs_nonneg ((locals cfg Real.sqrt sc dir gamma C2Iso data.PrimL data.PrimR
        k j i).av.um (VX1 + dir))
      linarith
    exact ⟨ha2, hc, div_pos hc (hdx _)⟩
  refine ⟨hstep, ?_⟩
  unfold Tvdlf
  simp only [idefix_for_eq_foldl]
  apply foldl_invariant_mem
    (fun st : (Nat → Nat → Nat → Nat → ℝ) × (Nat → Nat → Nat → ℝ) =>
      ∀ k j i, data.InvDtHyp k j i ≤ st.2 k j i)
  · rintro ⟨k, j, i⟩ hp st hst a b c
    rw [mem_interfaces] at hp
    obtain ⟨⟨h1, h2⟩, ⟨h3, h4⟩, ⟨h5, h6⟩⟩ := hp
    obtain ⟨-, -, hinc⟩ := hstep k j i h1 h2 h3 h4 h5 h6
    have e : (ROE_Kernel cfg Real.sqrt sc dir gamma C2Iso data.PrimL data.PrimR (data.dx dir)
        k j i st).2
        = set3 st.2 k j i (st.2 k j i
          + (locals cfg Real.sqrt sc dir gamma C2Iso data.PrimL data.PrimR k j i).cmax
            / data.dx dir ((if dir = IDIR then 1 else 0) * i
              + (if dir = JDIR then 1 else 0) * j + (if dir = KDIR then 1 else 0) * k)) := rfl
    show data.InvDtHyp a b c ≤ (ROE_Kernel cfg Real.sqrt sc dir gamma C2Iso data.PrimL
      data.PrimR (data.dx dir) k j i st).2 a b c
    rw [e]
    simp only [set3]
    by_cases h : a = k ∧ b = j ∧ c = i
    · obtain ⟨rfl, rfl, rfl⟩ := h
      rw [if_pos ⟨rfl, rfl, rfl⟩]
      have := hst a b c
      linarith
    · rw [if_neg h]
      exact hst a b c
  · intro k j i
    exact le_refl _

/-- Witness of `invDt_monotone_over_sweep`: a one-cell block of the 1-D build holding the Sod
pair, with unit cell widths and an accumulator that starts at 0. -/
theorem invDt_monotone_over_sweep_witness :
    (0 : ℝ) ≤ (Tvdlf cfg1D Real.sqrt (constScratch 0)
        ⟨uniform3 1 0 1, uniform3 (1 / 8) 0 (1 / 10), fun _ _ _ _ => 0, fun _ _ => 1,
          fun _ _ _ => 0, fun _ => 0, fun _ => 1⟩ 0 (7 / 5) 1).InvDtHyp 0 0 0 :=
  (invDt_monotone_over_sweep cfg1D (by decide) rfl rfl (constScratch 0)
    ⟨uniform3 1 0 1, uniform3 (1 / 8) 0 (1 / 10), fun _ _ _ _ => 0, fun _ _ => 1,
      fun _ _ _ => 0, fun _ => 0, fun _ => 1⟩ 0 (7 / 5) 1 (by norm_num) (fun _ => one_pos)
    (fun _ _ _ _ _ _ _ _ _ => by
      refine ⟨?_, ?_, ?_, ?_⟩ <;> simp only [uniform3, RHO, PRS, cfg1D] <;> norm_num)).2 0 0 0

end SweepMonotone

end Idefix
